import Mathlib

/-!
Verification of the recursive deletion engine in just-delete.py.

The engine is embedded shallowly: the filesystem and the POSIX calls the
script issues (openat, close, fstat, fchmod, lstat-at, chmod-at, unlink-at,
rmdir-at, scandir, realpath) are modelled as a deterministic state machine
over an explicit `FS` value that also records a trace of observable events,
and each Python function of the script is translated into a Lean function
over that state.

Environment-model choices (the kernel side, which has no source in the
repository, is modelled after POSIX semantics restricted to the owner
permission class):
* deleting an entry requires the owner-write bit on the containing directory;
* opening a directory read-only requires the owner-read bit on it;
* stat calls never fail on existing entries;
* chmod/fchmod failure is an environment knob (`chmodErr`) on each node,
  standing for conditions such as not owning the file;
* directory listings are snapshots (single-threaded run, no interference);
* symbolic-link targets are absolute paths, and the resolver is fuelled.
-/

namespace JustDelete

abbrev Name := String
abbrev Path := List Name
abbrev Fd := Nat
abbrev NodeId := Nat

def S_IWUSR : Nat := 0o200
def S_IRUSR : Nat := 0o400

/-- stat.S_IMODE: the permission-bit part of a mode word. -/
def S_IMODE (m : Nat) : Nat := m &&& 0o7777

/-- Error classification of a failed system call, mirroring the Python
exception taxonomy (`FileNotFoundError`, `PermissionError`, other `OSError`). -/
inductive OSErr where
  | notFound
  | permission
  | notEmpty
  | notADir
  | isADir
  | badFd
  | ioError
deriving DecidableEq, Repr

inductive NodeKind where
  | file
  | dir
  | symlink (target : Path)
deriving DecidableEq, Repr

/-- An inode: kind, permission bits, an environment knob saying whether a
permission change on it fails (e.g. not owned by the caller), and, for
directories, the child entries. -/
structure Node where
  kind : NodeKind
  mode : Nat
  chmodErr : Option OSErr := none
  children : List (Name × NodeId) := []
deriving DecidableEq, Repr

/-- Observable events of a run: syscall attempts and effects, plus the
script's diagnostic output (log_error lines and verbose per-deletion lines). -/
inductive Event where
  | tryOpen (fd : Fd) (name : Name)
  | opened (fd : Fd)
  | closed (fd : Fd)
  | tryDelete (fd : Fd) (name : Name)
  | removed (fd : Fd) (name : Name)
  | fchmodded (fd : Fd) (mode : Nat)
  | chmodded (fd : Fd) (name : Name) (mode : Nat)
  | logError (msg : String) (path : Path) (e : OSErr)
  | logPath (path : Path)
deriving DecidableEq, Repr

/-- Filesystem-and-process state: the inode store, the open-descriptor table,
the next descriptor number, and the event trace. -/
structure FS where
  root : NodeId
  nodes : List (NodeId × Node)
  fds : List (Fd × NodeId)
  nextFd : Fd
  trace : List Event
deriving DecidableEq, Repr

def FS.node (fs : FS) (id : NodeId) : Option Node := fs.nodes.lookup id

def FS.fdNode (fs : FS) (fd : Fd) : Option NodeId := fs.fds.lookup fd

def FS.emit (fs : FS) (e : Event) : FS := { fs with trace := fs.trace ++ [e] }

/-- Replace the node stored under `id` (keys are untouched). -/
def setNode (nodes : List (NodeId × Node)) (id : NodeId) (n : Node) :
    List (NodeId × Node) :=
  nodes.map (fun p => if p.1 = id then (id, n) else p)

def lookupChild (n : Node) (name : Name) : Option NodeId := n.children.lookup name

def removeChild (n : Node) (name : Name) : Node :=
  { n with children := n.children.filter (fun c => c.1 ≠ name) }

def isDirKind : NodeKind → Bool
  | .dir => true
  | _ => false

def isSymlinkKind : NodeKind → Bool
  | .symlink _ => true
  | _ => false

/-- Result of a stat call. -/
structure StatResult where
  kind : NodeKind
  mode : Nat
deriving DecidableEq, Repr

/-- `os.open(name, os.O_RDONLY, dir_fd=fd)`.  Records the attempt; on success
allocates a fresh descriptor for the child.  The engine only opens entries it
has already classified as directories via a no-follow stat, so opening a
symbolic link is modelled as a plain I/O error. -/
def sysOpenAt (fs : FS) (dirFd : Fd) (name : Name) : Except OSErr Fd × FS :=
  let fs := fs.emit (.tryOpen dirFd name)
  match fs.fdNode dirFd with
  | none => (.error .badFd, fs)
  | some did =>
    match fs.node did with
    | none => (.error .ioError, fs)
    | some dn =>
      if isDirKind dn.kind = false then (.error .notADir, fs)
      else
        match lookupChild dn name with
        | none => (.error .notFound, fs)
        | some cid =>
          match fs.node cid with
          | none => (.error .ioError, fs)
          | some cn =>
            if isSymlinkKind cn.kind then (.error .ioError, fs)
            else if cn.mode &&& S_IRUSR = 0 then (.error .permission, fs)
            else
              let fd := fs.nextFd
              (.ok fd,
                { fs with
                  fds := (fd, cid) :: fs.fds
                  nextFd := fs.nextFd + 1
                  trace := fs.trace ++ [.opened fd] })

/-- `os.close(fd)`. -/
def sysClose (fs : FS) (fd : Fd) : Except OSErr Unit × FS :=
  match fs.fdNode fd with
  | none => (.error .badFd, fs)
  | some _ =>
    (.ok (),
      { fs with
        fds := fs.fds.filter (fun p => p.1 ≠ fd)
        trace := fs.trace ++ [.closed fd] })

/-- `os.fstat(fd)`. -/
def sysFstat (fs : FS) (fd : Fd) : Except OSErr StatResult × FS :=
  match fs.fdNode fd with
  | none => (.error .badFd, fs)
  | some id =>
    match fs.node id with
    | none => (.error .ioError, fs)
    | some n => (.ok ⟨n.kind, n.mode⟩, fs)

/-- `os.fchmod(fd, mode)`. -/
def sysFchmod (fs : FS) (fd : Fd) (mode : Nat) : Except OSErr Unit × FS :=
  match fs.fdNode fd with
  | none => (.error .badFd, fs)
  | some id =>
    match fs.node id with
    | none => (.error .ioError, fs)
    | some n =>
      match n.chmodErr with
      | some e => (.error e, fs)
      | none =>
        (.ok (),
          { fs with
            nodes := setNode fs.nodes id { n with mode := S_IMODE mode }
            trace := fs.trace ++ [.fchmodded fd mode] })

/-- `os.lstat(name, dir_fd=fd)`: stat without following a symbolic link. -/
def sysLstatAt (fs : FS) (dirFd : Fd) (name : Name) : Except OSErr StatResult × FS :=
  match fs.fdNode dirFd with
  | none => (.error .badFd, fs)
  | some did =>
    match fs.node did with
    | none => (.error .ioError, fs)
    | some dn =>
      if isDirKind dn.kind = false then (.error .notADir, fs)
      else
        match lookupChild dn name with
        | none => (.error .notFound, fs)
        | some cid =>
          match fs.node cid with
          | none => (.error .ioError, fs)
          | some cn => (.ok ⟨cn.kind, cn.mode⟩, fs)

/-- `os.chmod(name, mode, dir_fd=fd)`.  The engine only applies it to entries
classified as real directories, so the symlink-following case is again
modelled as a plain I/O error. -/
def sysChmodAt (fs : FS) (dirFd : Fd) (name : Name) (mode : Nat) :
    Except OSErr Unit × FS :=
  match fs.fdNode dirFd with
  | none => (.error .badFd, fs)
  | some did =>
    match fs.node did with
    | none => (.error .ioError, fs)
    | some dn =>
      if isDirKind dn.kind = false then (.error .notADir, fs)
      else
        match lookupChild dn name with
        | none => (.error .notFound, fs)
        | some cid =>
          match fs.node cid with
          | none => (.error .ioError, fs)
          | some cn =>
            if isSymlinkKind cn.kind then (.error .ioError, fs)
            else
              match cn.chmodErr with
              | some e => (.error e, fs)
              | none =>
                (.ok (),
                  { fs with
                    nodes := setNode fs.nodes cid { cn with mode := S_IMODE mode }
                    trace := fs.trace ++ [.chmodded dirFd name mode] })

/-- `os.unlink(name, dir_fd=fd)`.  Deleting an entry needs the owner-write
bit on the containing directory. -/
def sysUnlinkAt (fs : FS) (dirFd : Fd) (name : Name) : Except OSErr Unit × FS :=
  let fs := fs.emit (.tryDelete dirFd name)
  match fs.fdNode dirFd with
  | none => (.error .badFd, fs)
  | some did =>
    match fs.node did with
    | none => (.error .ioError, fs)
    | some dn =>
      if isDirKind dn.kind = false then (.error .notADir, fs)
      else
        match lookupChild dn name with
        | none => (.error .notFound, fs)
        | some cid =>
          match fs.node cid with
          | none => (.error .ioError, fs)
          | some cn =>
            if isDirKind cn.kind then (.error .isADir, fs)
            else if dn.mode &&& S_IWUSR = 0 then (.error .permission, fs)
            else
              (.ok (),
                { fs with
                  nodes := setNode fs.nodes did (removeChild dn name)
                  trace := fs.trace ++ [.removed dirFd name] })

/-- `os.rmdir(name, dir_fd=fd)`. -/
def sysRmdirAt (fs : FS) (dirFd : Fd) (name : Name) : Except OSErr Unit × FS :=
  let fs := fs.emit (.tryDelete dirFd name)
  match fs.fdNode dirFd with
  | none => (.error .badFd, fs)
  | some did =>
    match fs.node did with
    | none => (.error .ioError, fs)
    | some dn =>
      if isDirKind dn.kind = false then (.error .notADir, fs)
      else
        match lookupChild dn name with
        | none => (.error .notFound, fs)
        | some cid =>
          match fs.node cid with
          | none => (.error .ioError, fs)
          | some cn =>
            if isDirKind cn.kind = false then (.error .notADir, fs)
            else if dn.mode &&& S_IWUSR = 0 then (.error .permission, fs)
            else if cn.children ≠ [] then (.error .notEmpty, fs)
            else
              (.ok (),
                { fs with
                  nodes := setNode fs.nodes did (removeChild dn name)
                  trace := fs.trace ++ [.removed dirFd name] })

/-- `os.scandir(dir_fd)`: a snapshot of the directory's entries, each with
its no-follow directory classification (`entry.is_dir(follow_symlinks=False)`,
so a symbolic link is never classified as a directory). -/
def sysScandir (fs : FS) (fd : Fd) : Except OSErr (List (Name × Bool)) × FS :=
  match fs.fdNode fd with
  | none => (.error .badFd, fs)
  | some id =>
    match fs.node id with
    | none => (.error .ioError, fs)
    | some n =>
      if isDirKind n.kind = false then (.error .notADir, fs)
      else
        (.ok (n.children.map (fun c =>
          (c.1,
            match fs.node c.2 with
            | some m => isDirKind m.kind
            | none => false))), fs)

/-- Core of `os.path.realpath(path, strict=True)`: resolve the components of
an absolute path left to right, restarting from the root at each symbolic
link (targets are absolute); `acc` is the resolved prefix.  Fuelled against
symlink loops. -/
def resolveFrom (fs : FS) : Nat → NodeId → Path → Path → Except OSErr Path
  | 0, _, _, _ => .error .ioError
  | _ + 1, _, acc, [] => .ok acc
  | fuel + 1, did, acc, name :: rest =>
    match fs.node did with
    | none => .error .ioError
    | some dn =>
      if isDirKind dn.kind = false then .error .notADir
      else
        match lookupChild dn name with
        | none => .error .notFound
        | some cid =>
          match fs.node cid with
          | none => .error .ioError
          | some cn =>
            match cn.kind with
            | .symlink target => resolveFrom fs fuel fs.root [] (target ++ rest)
            | _ => resolveFrom fs fuel cid (acc ++ [name]) rest

/-- `os.path.realpath(path, strict=True)`. -/
def resolvePath (fs : FS) (fuel : Nat) (p : Path) : Except OSErr Path :=
  resolveFrom fs fuel fs.root [] p

/-- Walk an already-resolved (symlink-free) path of directory components. -/
def walkDir (fs : FS) : Path → NodeId → Except OSErr NodeId
  | [], id => .ok id
  | name :: rest, id =>
    match fs.node id with
    | none => .error .ioError
    | some dn =>
      if isDirKind dn.kind = false then .error .notADir
      else
        match lookupChild dn name with
        | none => .error .notFound
        | some cid => walkDir fs rest cid

/-- `os.open(parent_name, os.O_RDONLY)` on an absolute, already-resolved
directory path. -/
def sysOpenPath (fs : FS) (p : Path) : Except OSErr Fd × FS :=
  match walkDir fs p fs.root with
  | .error e => (.error e, fs)
  | .ok id =>
    match fs.node id with
    | none => (.error .ioError, fs)
    | some n =>
      if isDirKind n.kind = false then (.error .notADir, fs)
      else if n.mode &&& S_IRUSR = 0 then (.error .permission, fs)
      else
        let fd := fs.nextFd
        (.ok fd,
          { fs with
            fds := (fd, id) :: fs.fds
            nextFd := fs.nextFd + 1
            trace := fs.trace ++ [.opened fd] })

/-! ## The script's own functions (translated from src/just-delete.py) -/

/-- `ParentContext` (just-delete.py:44-49). -/
structure ParentContext where
  name : Path
  fd : Fd
  attempted_chmod : Bool := false
deriving DecidableEq, Repr

/-- `ChildContext` (just-delete.py:52-57). -/
structure ChildContext where
  name : Name
  is_dir : Bool
  attempted_chmod : Bool := false
deriving DecidableEq, Repr

/-- `printable_path` (just-delete.py:21-22): `os.path.join(parent, child)`. -/
def printable_path (parentName : Path) (childName : Name) : Path :=
  parentName ++ [childName]

/-- `log_error` (just-delete.py:25-33). -/
def log_error (fs : FS) (msg : String) (parentName : Path) (childName : Name)
    (e : OSErr) : FS :=
  fs.emit (.logError msg (printable_path parentName childName) e)

/-- `close_quietly` (just-delete.py:37-41): close, swallowing any error. -/
def close_quietly (fs : FS) (fd : Fd) : FS :=
  (sysClose fs fd).2

/-- `open_with_chmod` (just-delete.py:65-83).  The source's
`for _attempt in range(0, 2)` loop is unrolled into its two iterations:
only a `PermissionError` on the first attempt leads to the chmod-and-retry
path, and only when the child's latch is unset. -/
def open_with_chmod (fs : FS) (parent : ParentContext) (child : ChildContext) :
    Except OSErr Fd × ChildContext × FS :=
  match sysOpenAt fs parent.fd child.name with
  | (.ok fd, fs) => (.ok fd, child, fs)
  | (.error .permission, fs) =>
    if child.attempted_chmod then (.error .permission, child, fs)
    else
      let child := { child with attempted_chmod := true }
      match sysLstatAt fs parent.fd child.name with
      | (.error chmodE, fs) =>
        (.error .permission, child,
          log_error fs "Failed to make writable" parent.name child.name chmodE)
      | (.ok childStat, fs) =>
        let childMode := S_IMODE childStat.mode ||| S_IWUSR
        match sysChmodAt fs parent.fd child.name childMode with
        | (.error chmodE, fs) =>
          (.error .permission, child,
            log_error fs "Failed to make writable" parent.name child.name chmodE)
        | (.ok _, fs) =>
          match sysOpenAt fs parent.fd child.name with
          | (.ok fd, fs) => (.ok fd, child, fs)
          | (.error e2, fs) => (.error e2, child, fs)
  | (.error e, fs) => (.error e, child, fs)

/-- `delete_single` (just-delete.py:87-91). -/
def delete_single (fs : FS) (parent : ParentContext) (child : ChildContext) :
    Except OSErr Unit × FS :=
  if child.is_dir then sysRmdirAt fs parent.fd child.name
  else sysUnlinkAt fs parent.fd child.name

/-- `delete_single_with_chmod` (just-delete.py:98-129), with the two-iteration
retry loop unrolled.  The parent context is returned because the Python
function mutates the parent's `attempted_chmod` latch in place. -/
def delete_single_with_chmod (fs : FS) (parent : ParentContext)
    (child : ChildContext) (force verbose : Bool) :
    Except OSErr Unit × ParentContext × FS :=
  match delete_single fs parent child with
  | (.ok _, fs) =>
    let fs := if verbose then fs.emit (.logPath (printable_path parent.name child.name)) else fs
    (.ok (), parent, fs)
  | (.error .notFound, fs) =>
    if force then (.ok (), parent, fs) else (.error .notFound, parent, fs)
  | (.error .permission, fs) =>
    if parent.attempted_chmod then (.error .permission, parent, fs)
    else
      let parent := { parent with attempted_chmod := true }
      match sysFstat fs parent.fd with
      | (.error chmodE, fs) =>
        (.error .permission, parent,
          log_error fs "Failed to make writable" parent.name "" chmodE)
      | (.ok parentStat, fs) =>
        let parentMode := S_IMODE parentStat.mode ||| S_IWUSR
        match sysFchmod fs parent.fd parentMode with
        | (.error chmodE, fs) =>
          (.error .permission, parent,
            log_error fs "Failed to make writable" parent.name "" chmodE)
        | (.ok _, fs) =>
          match delete_single fs parent child with
          | (.ok _, fs) =>
            let fs := if verbose then fs.emit (.logPath (printable_path parent.name child.name)) else fs
            (.ok (), parent, fs)
          | (.error .notFound, fs) =>
            if force then (.ok (), parent, fs) else (.error .notFound, parent, fs)
          | (.error e2, fs) => (.error e2, parent, fs)
  | (.error e, fs) => (.error e, parent, fs)

/-- The `for entry in dir` loop of `delete_path` (just-delete.py:171-187),
abstracted over the recursive call (`rec` is `delete_path` at the next fuel
level): one fresh `ParentContext` per entry seeded from the accumulated
child latch, recursion with `recursive := entry_is_dir`, conjunction of the
per-entry results, and latch write-back (`child.attempted_chmod |= ...`). -/
def deleteEntriesW
    (rec : FS → ParentContext → ChildContext → Bool → Bool → Bool →
      Bool × ParentContext × ChildContext × FS)
    (fs : FS) (dirName : Path) (dirFd : Fd) (latch : Bool)
    (entries : List (Name × Bool)) (force verbose : Bool) : Bool × Bool × FS :=
  match entries with
  | [] => (true, latch, fs)
  | (name, entryIsDir) :: rest =>
    let dirContext : ParentContext := ⟨dirName, dirFd, latch⟩
    match rec fs dirContext ⟨name, entryIsDir, false⟩ force entryIsDir verbose with
    | (ok, dirContext, _, fs) =>
      let latch := latch || dirContext.attempted_chmod
      match deleteEntriesW rec fs dirName dirFd latch rest force verbose with
      | (restOk, latch, fs) => (ok && restOk, latch, fs)

/-- `delete_path` (just-delete.py:134-202).  Recursion is fuelled; at fuel 0
the call reports failure without acting.  Returns the final success flag and
the updated parent and child contexts (the Python code mutates both records
in place and the caller's loop reads `dir_context.attempted_chmod` back). -/
def delete_path : Nat → FS → ParentContext → ChildContext → Bool → Bool → Bool →
    Bool × ParentContext × ChildContext × FS
  | 0, fs, parent, child, _, _, _ => (false, parent, child, fs)
  | fuel + 1, fs, parent, child, force, recursive, verbose =>
    match delete_single_with_chmod fs parent child force verbose with
    | (.ok _, parent, fs) => (true, parent, child, fs)
    | (.error e, parent, fs) =>
      if !recursive || !child.is_dir then
        (false, parent, child, log_error fs "Failed to delete" parent.name child.name e)
      else
        match open_with_chmod fs parent child with
        | (.error .notFound, child, fs) =>
          if force then (true, parent, child, fs)
          else (false, parent, child,
            log_error fs "Failed to open" parent.name child.name .notFound)
        | (.error e2, child, fs) =>
          (false, parent, child, log_error fs "Failed to open" parent.name child.name e2)
        | (.ok dirFd, child, fs) =>
          match sysScandir fs dirFd with
          | (.error e3, fs) =>
            let fs := log_error fs "Failed to read" parent.name child.name e3
            (false, parent, child, close_quietly fs dirFd)
          | (.ok entries, fs) =>
            let dirName := printable_path parent.name child.name
            match deleteEntriesW (delete_path fuel) fs dirName dirFd
                child.attempted_chmod entries force verbose with
            | (success, latch, fs) =>
              let child := { child with attempted_chmod := latch }
              let fs := close_quietly fs dirFd
              match delete_single_with_chmod fs parent child force verbose with
              | (.ok _, parent, fs) => (success, parent, child, fs)
              | (.error e4, parent, fs) =>
                (false, parent, child,
                  log_error fs "Failed to delete" parent.name child.name e4)

/-- The entries loop at a given fuel level. -/
def deleteEntries (fuel : Nat) (fs : FS) (dirName : Path) (dirFd : Fd)
    (latch : Bool) (entries : List (Name × Bool)) (force verbose : Bool) :
    Bool × Bool × FS :=
  deleteEntriesW (delete_path fuel) fs dirName dirFd latch entries force verbose

/-- `os.path.split` on an absolute resolved path, with `main`'s substitution
of `"."` for an empty leaf (just-delete.py:243-246). -/
def splitPath (p : Path) : Path × Name :=
  match p.getLast? with
  | none => ([], ".")
  | some last => (p.dropLast, last)

/-- The classification-and-deletion block of `main` (just-delete.py:259-276):
lstat the leaf relative to the open parent descriptor, classify it with
`S_ISDIR`, run `delete_path`, and close the parent descriptor on every exit
path (the `finally`). -/
def classifyAndDelete (fuel : Nat) (fs : FS) (parentName : Path) (parentFd : Fd)
    (childName : Name) (force recursive verbose : Bool) : Bool × FS :=
  match sysLstatAt fs parentFd childName with
  | (.error e, fs) =>
    let fs := log_error fs "Failed to stat" parentName childName e
    (false, close_quietly fs parentFd)
  | (.ok childStat, fs) =>
    let childIsDir := isDirKind childStat.kind
    match delete_path fuel fs ⟨parentName, parentFd, false⟩
        ⟨childName, childIsDir, false⟩ force recursive verbose with
    | (ok, _, _, fs) => (ok, close_quietly fs parentFd)

/-- Processing of one top-level path in `main` (just-delete.py:238-276):
resolve it strictly, split off the leaf, open the parent directory —
treating a not-found anywhere in this resolution phase as success when
`force` is set, and as a logged "Failed to find" failure otherwise — then
classify and delete. -/
def processPath (fuel : Nat) (fs : FS) (path : Path) (force recursive verbose : Bool) :
    Bool × FS :=
  match resolvePath fs fuel path with
  | .error .notFound =>
    if force then (true, fs)
    else (false, log_error fs "Failed to find" path "" .notFound)
  | .error e => (false, log_error fs "Failed to find" path "" e)
  | .ok resolved =>
    match splitPath resolved with
    | (parentName, childName) =>
      match sysOpenPath fs parentName with
      | (.error .notFound, fs) =>
        if force then (true, fs)
        else (false, log_error fs "Failed to find" resolved "" .notFound)
      | (.error e, fs) => (false, log_error fs "Failed to find" resolved "" e)
      | (.ok parentFd, fs) =>
        classifyAndDelete fuel fs parentName parentFd childName force recursive verbose

/-- The path loop of `main` (just-delete.py:236-279): every top-level path is
processed, and the batch succeeds only if every path's invocation did. -/
def mainRun (fuel : Nat) (fs : FS) (paths : List Path)
    (force recursive verbose : Bool) : Bool × FS :=
  match paths with
  | [] => (true, fs)
  | p :: rest =>
    match processPath fuel fs p force recursive verbose with
    | (ok, fs) =>
      match mainRun fuel fs rest force recursive verbose with
      | (restOk, fs) => (ok && restOk, fs)

/-! ## Observations on runs: trace projections and auxiliary definitions -/

/-- Descriptors of the `opened` events in a trace fragment. -/
def opensOf (l : List Event) : List Fd :=
  l.filterMap fun e => match e with | .opened fd => some fd | _ => none

/-- Descriptors of the `closed` events in a trace fragment. -/
def closesOf (l : List Event) : List Fd :=
  l.filterMap fun e => match e with | .closed fd => some fd | _ => none

/-- Descriptors of the `fchmodded` events (descriptor-based permission
repairs) in a trace fragment. -/
def fchmodFds (l : List Event) : List Fd :=
  l.filterMap fun e => match e with | .fchmodded fd _ => some fd | _ => none

/-- Number of single-deletion attempts (unlink/rmdir calls) in a trace
fragment. -/
def tryDeleteCount (l : List Event) : Nat :=
  (l.filter fun e => match e with | .tryDelete _ _ => true | _ => false).length

/-- Number of directory-open attempts in a trace fragment. -/
def tryOpenCount (l : List Event) : Nat :=
  (l.filter fun e => match e with | .tryOpen _ _ => true | _ => false).length

def isOk : Except OSErr Unit → Bool
  | .ok _ => true
  | .error _ => false

/-- The individual per-entry results of the `for entry in dir` loop, in
iteration order (same recursion as `deleteEntries`, collecting each entry's
result instead of conjoining them). -/
def entryResults (fuel : Nat) (fs : FS) (dirName : Path) (dirFd : Fd)
    (latch : Bool) (entries : List (Name × Bool)) (force verbose : Bool) :
    List Bool :=
  match entries with
  | [] => []
  | (name, entryIsDir) :: rest =>
    let dirContext : ParentContext := ⟨dirName, dirFd, latch⟩
    match delete_path fuel fs dirContext ⟨name, entryIsDir, false⟩ force entryIsDir verbose with
    | (ok, dirContext, _, fs) =>
      ok :: entryResults fuel fs dirName dirFd (latch || dirContext.attempted_chmod)
        rest force verbose

/-- The individual per-path results of `main`'s loop, in order. -/
def mainResults (fuel : Nat) (fs : FS) (paths : List Path)
    (force recursive verbose : Bool) : List Bool :=
  match paths with
  | [] => []
  | p :: rest =>
    match processPath fuel fs p force recursive verbose with
    | (ok, fs) => ok :: mainResults fuel fs rest force recursive verbose

/-- Well-formed state: open descriptors are distinct and below the allocation
counter, and the inode store has distinct keys. -/
def FS.wf (fs : FS) : Prop :=
  (fs.fds.map Prod.fst).Nodup ∧
  (∀ q ∈ fs.fds, q.1 < fs.nextFd) ∧
  (fs.nodes.map Prod.fst).Nodup

instance (fs : FS) : Decidable fs.wf := by
  unfold FS.wf
  infer_instance


/-- Bookkeeping facts about the descriptors of a trace segment produced from
a state whose allocation counter goes from `lo` to `hi`: every opened
descriptor is fresh (in `[lo, hi)`), no descriptor is opened twice, and every
descriptor is closed exactly as often as it is opened. -/
def FdFacts (lo hi : Fd) (Δ : List Event) : Prop :=
  (∀ fd ∈ opensOf Δ, lo ≤ fd ∧ fd < hi) ∧
  (opensOf Δ).Nodup ∧
  (∀ fd, (closesOf Δ).count fd = (opensOf Δ).count fd)

/-- Bookkeeping facts about the descriptor-based permission repairs of a
trace segment: every repaired descriptor is the parent handle `pfd` or a
descriptor allocated at or after `lo`; the parent handle is repaired at most
once, never when its latch `latchIn` was already set, and a repair forces
the resulting latch `latchOut`. -/
def ChmodFacts (pfd lo : Fd) (latchIn latchOut : Bool) (Δ : List Event) : Prop :=
  (∀ fd ∈ fchmodFds Δ, fd = pfd ∨ lo ≤ fd) ∧
  (latchIn = true → (fchmodFds Δ).count pfd = 0) ∧
  (fchmodFds Δ).count pfd ≤ 1 ∧
  (0 < (fchmodFds Δ).count pfd → latchOut = true)

/-! ## Concrete fixtures used to witness the scenario theorems -/

/-- A directory tree: root (id 0, mode 755) contains directory d (id 1,
mode 555: not owner-writable) which contains file f (id 2, mode 644),
non-empty directory sub (id 3, mode 555, chmod denied by the environment)
holding file x (id 4), unreadable directory locked (id 6, mode 000), and
unreadable chmod-denied directory vault (id 7).  Descriptor 5 is open on
d. -/
def roFS : FS :=
  { root := 0
    nodes := [
      (0, { kind := .dir, mode := 0o755, children := [("d", 1)] }),
      (1, { kind := .dir, mode := 0o555,
            children := [("f", 2), ("sub", 3), ("locked", 6), ("vault", 7)] }),
      (2, { kind := .file, mode := 0o644 }),
      (3, { kind := .dir, mode := 0o555, chmodErr := some .ioError,
            children := [("x", 4)] }),
      (4, { kind := .file, mode := 0o444 }),
      (6, { kind := .dir, mode := 0o000 }),
      (7, { kind := .dir, mode := 0o000, chmodErr := some .ioError })]
    fds := [(5, 1)]
    nextFd := 6
    trace := [] }


/-- A small tree: root (id 0, mode 755) holds non-empty directory d (id 1)
containing file f (id 2) and non-empty directory sub (id 3) with file x
(id 4); a read-only file ro (id 5); a symbolic link link (id 6) whose target
is the absolute path d; and an empty directory mt (id 7).  Descriptor 9 is
open on the root. -/
def treeRoot : Node :=
  { kind := .dir, mode := 0o755,
    children := [("d", 1), ("ro", 5), ("link", 6), ("mt", 7)] }

def treeFS : FS :=
  { root := 0
    nodes := [
      (0, treeRoot),
      (1, { kind := .dir, mode := 0o755, children := [("f", 2), ("sub", 3)] }),
      (2, { kind := .file, mode := 0o644 }),
      (3, { kind := .dir, mode := 0o755, children := [("x", 4)] }),
      (4, { kind := .file, mode := 0o444 }),
      (5, { kind := .file, mode := 0o444 }),
      (6, { kind := .symlink ["d"], mode := 0o777 }),
      (7, { kind := .dir, mode := 0o755 })]
    fds := [(9, 0)]
    nextFd := 10
    trace := [] }

/-- Intermediate states of the concrete C1 scenario on `treeFS`: the failed
initial removal of `d`, the successful open, and the directory listing. -/
def c1p1 : ParentContext :=
  (delete_single_with_chmod treeFS ⟨[], 9, false⟩ ⟨"d", true, false⟩ false false).2.1

def c1fs1 : FS :=
  (delete_single_with_chmod treeFS ⟨[], 9, false⟩ ⟨"d", true, false⟩ false false).2.2

def c1c2 : ChildContext := (open_with_chmod c1fs1 c1p1 ⟨"d", true, false⟩).2.1

def c1fs2 : FS := (open_with_chmod c1fs1 c1p1 ⟨"d", true, false⟩).2.2

def c1fs3 : FS := (sysScandir c1fs2 10).2

/-! ## Inversion lemmas for the system-call layer -/

theorem sysFstat_snd (fs : FS) (fd : Fd) : (sysFstat fs fd).2 = fs := by
  unfold sysFstat
  repeat' split
  all_goals rfl

theorem sysLstatAt_snd (fs : FS) (dirFd : Fd) (name : Name) :
    (sysLstatAt fs dirFd name).2 = fs := by
  unfold sysLstatAt
  repeat' split
  all_goals rfl

theorem sysScandir_snd (fs : FS) (fd : Fd) : (sysScandir fs fd).2 = fs := by
  unfold sysScandir
  repeat' split
  all_goals rfl

theorem sysOpenAt_err {fs : FS} {dirFd : Fd} {name : Name} {e : OSErr} {fs' : FS}
    (h : sysOpenAt fs dirFd name = (.error e, fs')) :
    fs' = fs.emit (.tryOpen dirFd name) := by
  unfold sysOpenAt at h
  simp only at h
  repeat' split at h
  all_goals simp_all

theorem sysOpenAt_ok {fs : FS} {dirFd : Fd} {name : Name} {fd : Fd} {fs' : FS}
    (h : sysOpenAt fs dirFd name = (.ok fd, fs')) :
    fd = fs.nextFd ∧
    fs'.nextFd = fs.nextFd + 1 ∧
    (∃ cid, fs'.fds = (fd, cid) :: fs.fds) ∧
    fs'.trace = fs.trace ++ [.tryOpen dirFd name, .opened fd] ∧
    fs'.nodes = fs.nodes ∧ fs'.root = fs.root := by
  unfold sysOpenAt at h
  simp only at h
  repeat' split at h
  all_goals injection h with h1 h2
  all_goals try cases h1
  subst h2
  exact ⟨rfl, rfl, ⟨_, rfl⟩, by simp [FS.emit], rfl, rfl⟩

theorem sysClose_none {fs : FS} {fd : Fd} (h : fs.fdNode fd = none) :
    sysClose fs fd = (.error .badFd, fs) := by
  unfold sysClose
  rw [h]

theorem sysClose_some {fs : FS} {fd : Fd} {id : NodeId}
    (h : fs.fdNode fd = some id) :
    sysClose fs fd = (.ok (),
      { fs with fds := fs.fds.filter (fun p => p.1 ≠ fd)
                trace := fs.trace ++ [.closed fd] }) := by
  unfold sysClose
  rw [h]

theorem sysFchmod_err {fs : FS} {fd : Fd} {m : Nat} {e : OSErr} {fs' : FS}
    (h : sysFchmod fs fd m = (.error e, fs')) : fs' = fs := by
  unfold sysFchmod at h
  repeat' split at h
  all_goals injection h with h1 h2
  all_goals try cases h1
  all_goals subst h2
  all_goals rfl

theorem sysFchmod_ok {fs : FS} {fd : Fd} {m : Nat} {u : Unit} {fs' : FS}
    (h : sysFchmod fs fd m = (.ok u, fs')) :
    ∃ id n, fs.fdNode fd = some id ∧ fs.node id = some n ∧ n.chmodErr = none ∧
      fs'.nodes = setNode fs.nodes id { n with mode := S_IMODE m } ∧
      fs'.trace = fs.trace ++ [.fchmodded fd m] ∧
      fs'.fds = fs.fds ∧ fs'.nextFd = fs.nextFd ∧ fs'.root = fs.root := by
  unfold sysFchmod at h
  repeat' split at h
  all_goals injection h with h1 h2
  all_goals try cases h1
  all_goals subst h2
  exact ⟨_, _, by assumption, by assumption, by assumption, rfl, rfl, rfl, rfl, rfl⟩

theorem sysChmodAt_err {fs : FS} {dirFd : Fd} {name : Name} {m : Nat} {e : OSErr}
    {fs' : FS} (h : sysChmodAt fs dirFd name m = (.error e, fs')) : fs' = fs := by
  unfold sysChmodAt at h
  repeat' split at h
  all_goals injection h with h1 h2
  all_goals try cases h1
  all_goals subst h2
  all_goals rfl

theorem sysChmodAt_ok {fs : FS} {dirFd : Fd} {name : Name} {m : Nat} {u : Unit}
    {fs' : FS} (h : sysChmodAt fs dirFd name m = (.ok u, fs')) :
    ∃ did dn cid cn, fs.fdNode dirFd = some did ∧ fs.node did = some dn ∧
      lookupChild dn name = some cid ∧ fs.node cid = some cn ∧ cn.chmodErr = none ∧
      fs'.nodes = setNode fs.nodes cid { cn with mode := S_IMODE m } ∧
      fs'.trace = fs.trace ++ [.chmodded dirFd name m] ∧
      fs'.fds = fs.fds ∧ fs'.nextFd = fs.nextFd ∧ fs'.root = fs.root := by
  unfold sysChmodAt at h
  repeat' split at h
  all_goals injection h with h1 h2
  all_goals try cases h1
  all_goals subst h2
  exact ⟨_, _, _, _, by assumption, by assumption, by assumption, by assumption,
    by assumption, rfl, rfl, rfl, rfl, rfl⟩

theorem sysUnlinkAt_err {fs : FS} {dirFd : Fd} {name : Name} {e : OSErr} {fs' : FS}
    (h : sysUnlinkAt fs dirFd name = (.error e, fs')) :
    fs' = fs.emit (.tryDelete dirFd name) := by
  unfold sysUnlinkAt at h
  simp only at h
  repeat' split at h
  all_goals injection h with h1 h2
  all_goals try cases h1
  all_goals subst h2
  all_goals rfl

theorem sysUnlinkAt_ok {fs : FS} {dirFd : Fd} {name : Name} {u : Unit} {fs' : FS}
    (h : sysUnlinkAt fs dirFd name = (.ok u, fs')) :
    ∃ did dn, fs.fdNode dirFd = some did ∧ fs.node did = some dn ∧
      fs'.nodes = setNode fs.nodes did (removeChild dn name) ∧
      fs'.trace = fs.trace ++ [.tryDelete dirFd name, .removed dirFd name] ∧
      fs'.fds = fs.fds ∧ fs'.nextFd = fs.nextFd ∧ fs'.root = fs.root := by
  unfold sysUnlinkAt at h
  simp only at h
  repeat' split at h
  all_goals injection h with h1 h2
  all_goals try cases h1
  all_goals subst h2
  exact ⟨_, _, by assumption, by assumption, rfl, by simp [FS.emit], rfl, rfl, rfl⟩

theorem sysRmdirAt_err {fs : FS} {dirFd : Fd} {name : Name} {e : OSErr} {fs' : FS}
    (h : sysRmdirAt fs dirFd name = (.error e, fs')) :
    fs' = fs.emit (.tryDelete dirFd name) := by
  unfold sysRmdirAt at h
  simp only at h
  repeat' split at h
  all_goals injection h with h1 h2
  all_goals try cases h1
  all_goals subst h2
  all_goals rfl

theorem sysRmdirAt_ok {fs : FS} {dirFd : Fd} {name : Name} {u : Unit} {fs' : FS}
    (h : sysRmdirAt fs dirFd name = (.ok u, fs')) :
    ∃ did dn, fs.fdNode dirFd = some did ∧ fs.node did = some dn ∧
      fs'.nodes = setNode fs.nodes did (removeChild dn name) ∧
      fs'.trace = fs.trace ++ [.tryDelete dirFd name, .removed dirFd name] ∧
      fs'.fds = fs.fds ∧ fs'.nextFd = fs.nextFd ∧ fs'.root = fs.root := by
  unfold sysRmdirAt at h
  simp only at h
  repeat' split at h
  all_goals injection h with h1 h2
  all_goals try cases h1
  all_goals subst h2
  exact ⟨_, _, by assumption, by assumption, rfl, by simp [FS.emit], rfl, rfl, rfl⟩

theorem delete_single_err {fs : FS} {p : ParentContext} {c : ChildContext}
    {e : OSErr} {fs' : FS} (h : delete_single fs p c = (.error e, fs')) :
    fs' = fs.emit (.tryDelete p.fd c.name) := by
  unfold delete_single at h
  split at h
  · exact sysRmdirAt_err h
  · exact sysUnlinkAt_err h

theorem delete_single_ok {fs : FS} {p : ParentContext} {c : ChildContext}
    {u : Unit} {fs' : FS} (h : delete_single fs p c = (.ok u, fs')) :
    ∃ did dn, fs.fdNode p.fd = some did ∧ fs.node did = some dn ∧
      fs'.nodes = setNode fs.nodes did (removeChild dn c.name) ∧
      fs'.trace = fs.trace ++ [.tryDelete p.fd c.name, .removed p.fd c.name] ∧
      fs'.fds = fs.fds ∧ fs'.nextFd = fs.nextFd ∧ fs'.root = fs.root := by
  unfold delete_single at h
  split at h
  · exact sysRmdirAt_ok h
  · exact sysUnlinkAt_ok h

/-- Effect summary of a `delete_single_with_chmod` call: the parent context
keeps its identity and its latch is monotone, the descriptor table and the
allocation counter are untouched, the trace only grows, it opens and closes
nothing, and it issues at most one descriptor-based permission repair --
none when the latch was already set, and the latch records any repair. -/
theorem dswc_effects (fs : FS) (p : ParentContext) (c : ChildContext)
    (force verbose : Bool) :
    ∃ r p' fs', delete_single_with_chmod fs p c force verbose = (r, p', fs') ∧
      p'.name = p.name ∧ p'.fd = p.fd ∧
      (p.attempted_chmod = true → p'.attempted_chmod = true) ∧
      fs'.fds = fs.fds ∧ fs'.nextFd = fs.nextFd ∧ fs'.root = fs.root ∧
      ∃ Δ, fs'.trace = fs.trace ++ Δ ∧ opensOf Δ = [] ∧ closesOf Δ = [] ∧
        (p.attempted_chmod = true → fchmodFds Δ = []) ∧
        (fchmodFds Δ = [] ∨ (fchmodFds Δ = [p.fd] ∧ p'.attempted_chmod = true)) ∧
        (∃ Δt, Δ = Event.tryDelete p.fd c.name :: Δt) := by
  unfold delete_single_with_chmod
  rcases hds : delete_single fs p c with ⟨r1, fs1⟩
  cases r1 with
  | ok u =>
    obtain ⟨did, dn, hfd, hnode, hnodes, htr, hfds, hnext, hroot⟩ := delete_single_ok hds
    cases verbose
    · exact ⟨_, _, _, rfl, rfl, rfl, fun h => h, hfds, hnext, hroot,
        [.tryDelete p.fd c.name, .removed p.fd c.name], htr, rfl, rfl,
        fun _ => rfl, Or.inl rfl, _, rfl⟩
    · refine ⟨_, _, _, rfl, rfl, rfl, fun h => h, ?_, ?_, ?_,
        ⟨[.tryDelete p.fd c.name, .removed p.fd c.name,
          .logPath (printable_path p.name c.name)], ?_, rfl, rfl,
          fun _ => rfl, Or.inl rfl, _, rfl⟩⟩
      all_goals simp [FS.emit, hfds, hnext, hroot, htr]
  | error e =>
    have hE := delete_single_err hds
    subst hE
    cases e with
    | notFound =>
      cases force
      · exact ⟨_, _, _, rfl, rfl, rfl, fun h => h, rfl, rfl, rfl,
          [.tryDelete p.fd c.name], rfl, rfl, rfl, fun _ => rfl, Or.inl rfl, _, rfl⟩
      · exact ⟨_, _, _, rfl, rfl, rfl, fun h => h, rfl, rfl, rfl,
          [.tryDelete p.fd c.name], rfl, rfl, rfl, fun _ => rfl, Or.inl rfl, _, rfl⟩
    | permission =>
      rcases hlatch : p.attempted_chmod with _ | _
      · dsimp only
        rcases hfst : sysFstat (fs.emit (.tryDelete p.fd c.name)) p.fd with ⟨r2, fs2⟩
        have hfs2 : fs2 = fs.emit (.tryDelete p.fd c.name) := by
          have h2 := sysFstat_snd (fs.emit (.tryDelete p.fd c.name)) p.fd
          rw [hfst] at h2
          exact h2
        subst hfs2
        cases r2 with
        | error chmodE =>
          exact ⟨_, _, _, rfl, rfl, rfl, fun h => Bool.noConfusion h, rfl, rfl, rfl,
            [.tryDelete p.fd c.name,
             .logError "Failed to make writable" (printable_path p.name "") chmodE],
            by simp [FS.emit, log_error], rfl, rfl, fun h => Bool.noConfusion h, Or.inl rfl, _, rfl⟩
        | ok st =>
          dsimp only
          rcases hch : sysFchmod (fs.emit (.tryDelete p.fd c.name)) p.fd
              (S_IMODE st.mode ||| S_IWUSR) with ⟨r3, fs3⟩
          cases r3 with
          | error chmodE =>
            have hfs3 := sysFchmod_err hch
            subst hfs3
            exact ⟨_, _, _, rfl, rfl, rfl, fun h => Bool.noConfusion h, rfl, rfl, rfl,
              [.tryDelete p.fd c.name,
               .logError "Failed to make writable" (printable_path p.name "") chmodE],
              by simp [FS.emit, log_error], rfl, rfl, fun h => Bool.noConfusion h, Or.inl rfl, _, rfl⟩
          | ok u3 =>
            obtain ⟨id3, n3, _, _, _, hnodes3, htr3, hfds3, hnext3, hroot3⟩ := sysFchmod_ok hch
            dsimp only
            rcases hds2 : delete_single fs3 ⟨p.name, p.fd, true⟩ c with ⟨r4, fs4⟩
            cases r4 with
            | ok u4 =>
              obtain ⟨did4, dn4, _, _, hnodes4, htr4, hfds4, hnext4, hroot4⟩ := delete_single_ok hds2
              cases verbose
              · exact ⟨_, _, _, rfl, rfl, rfl, fun h => Bool.noConfusion h,
                  by simp [hfds4, hfds3, FS.emit],
                  by simp [hnext4, hnext3, FS.emit],
                  by simp [hroot4, hroot3, FS.emit],
                  [.tryDelete p.fd c.name, .fchmodded p.fd (S_IMODE st.mode ||| S_IWUSR),
                   .tryDelete p.fd c.name, .removed p.fd c.name],
                  by simp [htr4, htr3, FS.emit], rfl, rfl,
                  fun h => Bool.noConfusion h, Or.inr ⟨rfl, rfl⟩, _, rfl⟩
              · exact ⟨_, _, _, rfl, rfl, rfl, fun h => Bool.noConfusion h,
                  by simp [hfds4, hfds3, FS.emit],
                  by simp [hnext4, hnext3, FS.emit],
                  by simp [hroot4, hroot3, FS.emit],
                  [.tryDelete p.fd c.name, .fchmodded p.fd (S_IMODE st.mode ||| S_IWUSR),
                   .tryDelete p.fd c.name, .removed p.fd c.name,
                   .logPath (printable_path p.name c.name)],
                  by simp [htr4, htr3, FS.emit], rfl, rfl,
                  fun h => Bool.noConfusion h, Or.inr ⟨rfl, rfl⟩, _, rfl⟩
            | error e4 =>
              have hfs4 := delete_single_err hds2
              subst hfs4
              cases e4 with
              | notFound =>
                cases force
                · exact ⟨_, _, _, rfl, rfl, rfl, fun h => Bool.noConfusion h,
                    by simp [hfds3, FS.emit], by simp [hnext3, FS.emit],
                    by simp [hroot3, FS.emit],
                    [.tryDelete p.fd c.name, .fchmodded p.fd (S_IMODE st.mode ||| S_IWUSR),
                     .tryDelete p.fd c.name],
                    by simp [htr3, FS.emit], rfl, rfl,
                    fun h => Bool.noConfusion h, Or.inr ⟨rfl, rfl⟩, _, rfl⟩
                · exact ⟨_, _, _, rfl, rfl, rfl, fun h => Bool.noConfusion h,
                    by simp [hfds3, FS.emit], by simp [hnext3, FS.emit],
                    by simp [hroot3, FS.emit],
                    [.tryDelete p.fd c.name, .fchmodded p.fd (S_IMODE st.mode ||| S_IWUSR),
                     .tryDelete p.fd c.name],
                    by simp [htr3, FS.emit], rfl, rfl,
                    fun h => Bool.noConfusion h, Or.inr ⟨rfl, rfl⟩, _, rfl⟩
              | permission =>
                exact ⟨_, _, _, rfl, rfl, rfl, fun h => Bool.noConfusion h,
                  by simp [hfds3, FS.emit], by simp [hnext3, FS.emit],
                  by simp [hroot3, FS.emit],
                  [.tryDelete p.fd c.name, .fchmodded p.fd (S_IMODE st.mode ||| S_IWUSR),
                   .tryDelete p.fd c.name],
                  by simp [htr3, FS.emit], rfl, rfl,
                  fun h => Bool.noConfusion h, Or.inr ⟨rfl, rfl⟩, _, rfl⟩
              | notEmpty =>
                exact ⟨_, _, _, rfl, rfl, rfl, fun h => Bool.noConfusion h,
                  by simp [hfds3, FS.emit], by simp [hnext3, FS.emit],
                  by simp [hroot3, FS.emit],
                  [.tryDelete p.fd c.name, .fchmodded p.fd (S_IMODE st.mode ||| S_IWUSR),
                   .tryDelete p.fd c.name],
                  by simp [htr3, FS.emit], rfl, rfl,
                  fun h => Bool.noConfusion h, Or.inr ⟨rfl, rfl⟩, _, rfl⟩
              | notADir =>
                exact ⟨_, _, _, rfl, rfl, rfl, fun h => Bool.noConfusion h,
                  by simp [hfds3, FS.emit], by simp [hnext3, FS.emit],
                  by simp [hroot3, FS.emit],
                  [.tryDelete p.fd c.name, .fchmodded p.fd (S_IMODE st.mode ||| S_IWUSR),
                   .tryDelete p.fd c.name],
                  by simp [htr3, FS.emit], rfl, rfl,
                  fun h => Bool.noConfusion h, Or.inr ⟨rfl, rfl⟩, _, rfl⟩
              | isADir =>
                exact ⟨_, _, _, rfl, rfl, rfl, fun h => Bool.noConfusion h,
                  by simp [hfds3, FS.emit], by simp [hnext3, FS.emit],
                  by simp [hroot3, FS.emit],
                  [.tryDelete p.fd c.name, .fchmodded p.fd (S_IMODE st.mode ||| S_IWUSR),
                   .tryDelete p.fd c.name],
                  by simp [htr3, FS.emit], rfl, rfl,
                  fun h => Bool.noConfusion h, Or.inr ⟨rfl, rfl⟩, _, rfl⟩
              | badFd =>
                exact ⟨_, _, _, rfl, rfl, rfl, fun h => Bool.noConfusion h,
                  by simp [hfds3, FS.emit], by simp [hnext3, FS.emit],
                  by simp [hroot3, FS.emit],
                  [.tryDelete p.fd c.name, .fchmodded p.fd (S_IMODE st.mode ||| S_IWUSR),
                   .tryDelete p.fd c.name],
                  by simp [htr3, FS.emit], rfl, rfl,
                  fun h => Bool.noConfusion h, Or.inr ⟨rfl, rfl⟩, _, rfl⟩
              | ioError =>
                exact ⟨_, _, _, rfl, rfl, rfl, fun h => Bool.noConfusion h,
                  by simp [hfds3, FS.emit], by simp [hnext3, FS.emit],
                  by simp [hroot3, FS.emit],
                  [.tryDelete p.fd c.name, .fchmodded p.fd (S_IMODE st.mode ||| S_IWUSR),
                   .tryDelete p.fd c.name],
                  by simp [htr3, FS.emit], rfl, rfl,
                  fun h => Bool.noConfusion h, Or.inr ⟨rfl, rfl⟩, _, rfl⟩
      · exact ⟨_, _, _, rfl, rfl, rfl, fun _ => hlatch, rfl, rfl, rfl,
          [.tryDelete p.fd c.name], rfl, rfl, rfl, fun _ => rfl, Or.inl rfl, _, rfl⟩
    | notEmpty =>
      exact ⟨_, _, _, rfl, rfl, rfl, fun h => h, rfl, rfl, rfl,
        [.tryDelete p.fd c.name], rfl, rfl, rfl, fun _ => rfl, Or.inl rfl, _, rfl⟩
    | notADir =>
      exact ⟨_, _, _, rfl, rfl, rfl, fun h => h, rfl, rfl, rfl,
        [.tryDelete p.fd c.name], rfl, rfl, rfl, fun _ => rfl, Or.inl rfl, _, rfl⟩
    | isADir =>
      exact ⟨_, _, _, rfl, rfl, rfl, fun h => h, rfl, rfl, rfl,
        [.tryDelete p.fd c.name], rfl, rfl, rfl, fun _ => rfl, Or.inl rfl, _, rfl⟩
    | badFd =>
      exact ⟨_, _, _, rfl, rfl, rfl, fun h => h, rfl, rfl, rfl,
        [.tryDelete p.fd c.name], rfl, rfl, rfl, fun _ => rfl, Or.inl rfl, _, rfl⟩
    | ioError =>
      exact ⟨_, _, _, rfl, rfl, rfl, fun h => h, rfl, rfl, rfl,
        [.tryDelete p.fd c.name], rfl, rfl, rfl, fun _ => rfl, Or.inl rfl, _, rfl⟩

/-- Effect summary of an `open_with_chmod` call: the child context keeps its
identity and its latch is monotone; on success exactly one fresh descriptor
is opened (and nothing closed), on failure the descriptor table is untouched;
no descriptor-based fchmod is ever issued by this function. -/
theorem owc_effects (fs : FS) (p : ParentContext) (c : ChildContext) :
    ∃ r c' fs', open_with_chmod fs p c = (r, c', fs') ∧
      c'.name = c.name ∧ c'.is_dir = c.is_dir ∧
      (c.attempted_chmod = true → c'.attempted_chmod = true) ∧
      fs'.root = fs.root ∧
      ((∃ fd, r = .ok fd ∧ fd = fs.nextFd ∧ (∃ cid, fs'.fds = (fd, cid) :: fs.fds) ∧
          fs'.nextFd = fs.nextFd + 1 ∧
          ∃ Δ, fs'.trace = fs.trace ++ Δ ∧ opensOf Δ = [fd] ∧ closesOf Δ = [] ∧
            fchmodFds Δ = []) ∨
       (∃ e, r = .error e ∧ fs'.fds = fs.fds ∧ fs'.nextFd = fs.nextFd ∧
          ∃ Δ, fs'.trace = fs.trace ++ Δ ∧ opensOf Δ = [] ∧ closesOf Δ = [] ∧
            fchmodFds Δ = [])) := by
  unfold open_with_chmod
  rcases ho1 : sysOpenAt fs p.fd c.name with ⟨r1, fs1⟩
  cases r1 with
  | ok fd =>
    obtain ⟨hfd, hnext, ⟨cid, hfds⟩, htr, hnodes, hroot⟩ := sysOpenAt_ok ho1
    exact ⟨_, _, _, rfl, rfl, rfl, fun h => h, hroot,
      Or.inl ⟨fd, rfl, hfd, ⟨cid, hfds⟩, hnext,
        [.tryOpen p.fd c.name, .opened fd], htr, rfl, rfl, rfl⟩⟩
  | error e =>
    have hfs1 := sysOpenAt_err ho1
    subst hfs1
    cases e with
    | permission =>
      rcases hlatch : c.attempted_chmod with _ | _
      · dsimp only
        rcases hls : sysLstatAt (fs.emit (.tryOpen p.fd c.name)) p.fd c.name with ⟨r2, fs3⟩
        have hfs3 : fs3 = fs.emit (.tryOpen p.fd c.name) := by
          have h2 := sysLstatAt_snd (fs.emit (.tryOpen p.fd c.name)) p.fd c.name
          rw [hls] at h2
          exact h2
        subst hfs3
        cases r2 with
        | error chmodE =>
          exact ⟨_, _, _, rfl, rfl, rfl, fun h => Bool.noConfusion h, rfl,
            Or.inr ⟨_, rfl, rfl, rfl,
              [.tryOpen p.fd c.name,
               .logError "Failed to make writable" (printable_path p.name c.name) chmodE],
              by simp [FS.emit, log_error], rfl, rfl, rfl⟩⟩
        | ok st =>
          dsimp only
          rcases hcm : sysChmodAt (fs.emit (.tryOpen p.fd c.name)) p.fd c.name
              (S_IMODE st.mode ||| S_IWUSR) with ⟨r3, fs3⟩
          cases r3 with
          | error chmodE =>
            have hfs3 := sysChmodAt_err hcm
            subst hfs3
            exact ⟨_, _, _, rfl, rfl, rfl, fun h => Bool.noConfusion h, rfl,
              Or.inr ⟨_, rfl, rfl, rfl,
                [.tryOpen p.fd c.name,
                 .logError "Failed to make writable" (printable_path p.name c.name) chmodE],
                by simp [FS.emit, log_error], rfl, rfl, rfl⟩⟩
          | ok u3 =>
            obtain ⟨did, dn, cid, cn, _, _, _, _, _, hnodes3, htr3, hfds3, hnext3, hroot3⟩ :=
              sysChmodAt_ok hcm
            dsimp only
            rcases ho2 : sysOpenAt fs3 p.fd c.name with ⟨r4, fs4⟩
            cases r4 with
            | ok fd =>
              obtain ⟨hfd4, hnext4, ⟨cid4, hfds4⟩, htr4, hnodes4, hroot4⟩ := sysOpenAt_ok ho2
              refine ⟨_, _, _, rfl, rfl, rfl, fun h => Bool.noConfusion h,
                by rw [hroot4, hroot3]; rfl,
                Or.inl ⟨fd, rfl, by rw [hfd4, hnext3]; rfl,
                  ⟨cid4, by rw [hfds4, hfds3]; rfl⟩,
                  by rw [hnext4, hnext3]; rfl,
                  [.tryOpen p.fd c.name,
                   .chmodded p.fd c.name (S_IMODE st.mode ||| S_IWUSR),
                   .tryOpen p.fd c.name, .opened fd],
                  ?_, rfl, rfl, rfl⟩⟩
              rw [htr4, htr3]
              simp [FS.emit]
            | error e2 =>
              have hfs4 := sysOpenAt_err ho2
              subst hfs4
              refine ⟨_, _, _, rfl, rfl, rfl, fun h => Bool.noConfusion h,
                by simp [FS.emit, hroot3],
                Or.inr ⟨_, rfl, by simp [FS.emit, hfds3], by simp [FS.emit, hnext3],
                  [.tryOpen p.fd c.name,
                   .chmodded p.fd c.name (S_IMODE st.mode ||| S_IWUSR),
                   .tryOpen p.fd c.name],
                  ?_, rfl, rfl, rfl⟩⟩
              simp [FS.emit, htr3]
      · exact ⟨_, _, _, rfl, rfl, rfl, fun _ => hlatch, rfl,
          Or.inr ⟨_, rfl, rfl, rfl, [.tryOpen p.fd c.name], rfl, rfl, rfl, rfl⟩⟩
    | notFound =>
      exact ⟨_, _, _, rfl, rfl, rfl, fun h => h, rfl,
        Or.inr ⟨_, rfl, rfl, rfl, [.tryOpen p.fd c.name], rfl, rfl, rfl, rfl⟩⟩
    | notEmpty =>
      exact ⟨_, _, _, rfl, rfl, rfl, fun h => h, rfl,
        Or.inr ⟨_, rfl, rfl, rfl, [.tryOpen p.fd c.name], rfl, rfl, rfl, rfl⟩⟩
    | notADir =>
      exact ⟨_, _, _, rfl, rfl, rfl, fun h => h, rfl,
        Or.inr ⟨_, rfl, rfl, rfl, [.tryOpen p.fd c.name], rfl, rfl, rfl, rfl⟩⟩
    | isADir =>
      exact ⟨_, _, _, rfl, rfl, rfl, fun h => h, rfl,
        Or.inr ⟨_, rfl, rfl, rfl, [.tryOpen p.fd c.name], rfl, rfl, rfl, rfl⟩⟩
    | badFd =>
      exact ⟨_, _, _, rfl, rfl, rfl, fun h => h, rfl,
        Or.inr ⟨_, rfl, rfl, rfl, [.tryOpen p.fd c.name], rfl, rfl, rfl, rfl⟩⟩
    | ioError =>
      exact ⟨_, _, _, rfl, rfl, rfl, fun h => h, rfl,
        Or.inr ⟨_, rfl, rfl, rfl, [.tryOpen p.fd c.name], rfl, rfl, rfl, rfl⟩⟩

/-- Adding the owner-write bit during a permission repair really sets it:
the repaired permission bits are owner-writable. -/
theorem repairMode_writable (m : Nat) : S_IMODE (S_IMODE m ||| S_IWUSR) &&& S_IWUSR ≠ 0 := by
  unfold S_IMODE S_IWUSR
  have hb : ((((m &&& 4095) ||| 128) &&& 4095) &&& 128).testBit 7 = true := by
    simp [Nat.testBit_land, Nat.testBit_lor,
      show Nat.testBit 4095 7 = true from by decide,
      show Nat.testBit 128 7 = true from by decide]
  intro hz
  rw [hz] at hb
  simp [Nat.zero_testBit] at hb

/-- A permission repair only adds the owner-write bit: a mode that was not
owner-readable is still not owner-readable after the repair. -/
theorem repairMode_unreadable (m : Nat) (h : m &&& S_IRUSR = 0) :
    S_IMODE (S_IMODE m ||| S_IWUSR) &&& S_IRUSR = 0 := by
  simp only [S_IMODE, S_IWUSR, S_IRUSR] at h ⊢
  have hm : m.testBit 8 = false := by
    have h2 := Nat.and_two_pow m 8
    norm_num at h2
    rw [h] at h2
    rcases hx : m.testBit 8 with _ | _
    · rfl
    · rw [hx] at h2; simp at h2
  have h3 := Nat.and_two_pow (((m &&& 4095) ||| 128) &&& 4095) 8
  norm_num at h3
  rw [h3]
  simp [Nat.testBit_land, Nat.testBit_lor, hm,
    show Nat.testBit 128 8 = false from by decide]

theorem lookup_setNode_self {nodes : List (NodeId × Node)} {id : NodeId}
    {m : Node} (n : Node) (h : nodes.lookup id = some m) :
    (setNode nodes id n).lookup id = some n := by
  induction nodes with
  | nil => simp at h
  | cons hd tl ih =>
    rcases hd with ⟨a, v⟩
    unfold setNode at ih ⊢
    simp only [List.map_cons]
    by_cases ha : a = id
    · subst ha
      rw [if_pos rfl]
      simp [List.lookup]
    · rw [if_neg (by simpa using ha)]
      have hba : (id == a) = false := beq_eq_false_iff_ne.mpr (Ne.symm ha)
      simp only [List.lookup, hba] at h ⊢
      exact ih h

theorem lookup_setNode_ne {nodes : List (NodeId × Node)} {id k : NodeId}
    (n : Node) (hk : k ≠ id) :
    (setNode nodes id n).lookup k = nodes.lookup k := by
  induction nodes with
  | nil => rfl
  | cons hd tl ih =>
    rcases hd with ⟨a, v⟩
    unfold setNode at ih ⊢
    simp only [List.map_cons]
    by_cases ha : a = id
    · subst ha
      rw [if_pos rfl]
      have hba : (k == a) = false := beq_eq_false_iff_ne.mpr hk
      simp only [List.lookup, hba]
      exact ih
    · rw [if_neg (by simpa using ha)]
      by_cases hka : k = a
      · subst hka
        simp [List.lookup]
      · have hba : (k == a) = false := beq_eq_false_iff_ne.mpr hka
        simp only [List.lookup, hba]
        exact ih

/-! ## Evaluation lemmas: system-call outcomes under explicit state
hypotheses -/

theorem sysFstat_eval {fs : FS} {fd : Fd} {id : NodeId} {n : Node}
    (hfd : fs.fdNode fd = some id) (hnode : fs.node id = some n) :
    sysFstat fs fd = (.ok ⟨n.kind, n.mode⟩, fs) := by
  unfold sysFstat
  rw [hfd]
  dsimp only
  rw [hnode]

theorem sysFchmod_eval {fs : FS} {fd : Fd} {id : NodeId} {n : Node} (m : Nat)
    (hfd : fs.fdNode fd = some id) (hnode : fs.node id = some n)
    (hch : n.chmodErr = none) :
    sysFchmod fs fd m = (.ok (),
      { fs with nodes := setNode fs.nodes id { n with mode := S_IMODE m }
                trace := fs.trace ++ [.fchmodded fd m] }) := by
  unfold sysFchmod
  rw [hfd]
  dsimp only
  rw [hnode]
  dsimp only
  rw [hch]

theorem sysFchmod_eval_err {fs : FS} {fd : Fd} {id : NodeId} {n : Node}
    {e : OSErr} (m : Nat) (hfd : fs.fdNode fd = some id)
    (hnode : fs.node id = some n) (hch : n.chmodErr = some e) :
    sysFchmod fs fd m = (.error e, fs) := by
  unfold sysFchmod
  rw [hfd]
  dsimp only
  rw [hnode]
  dsimp only
  rw [hch]

theorem sysLstatAt_eval {fs : FS} {dirFd : Fd} {name : Name} {did cid : NodeId}
    {dn cn : Node} (hfd : fs.fdNode dirFd = some did) (hnode : fs.node did = some dn)
    (hdir : isDirKind dn.kind = true) (hchild : lookupChild dn name = some cid)
    (hcn : fs.node cid = some cn) :
    sysLstatAt fs dirFd name = (.ok ⟨cn.kind, cn.mode⟩, fs) := by
  unfold sysLstatAt
  rw [hfd]
  try dsimp only
  rw [hnode]
  try dsimp only
  rw [hdir, if_neg (by decide : ¬(true = false))]
  try dsimp only
  rw [hchild]
  try dsimp only
  rw [hcn]

theorem sysChmodAt_eval {fs : FS} {dirFd : Fd} {name : Name} {did cid : NodeId}
    {dn cn : Node} (m : Nat) (hfd : fs.fdNode dirFd = some did)
    (hnode : fs.node did = some dn) (hdir : isDirKind dn.kind = true)
    (hchild : lookupChild dn name = some cid) (hcn : fs.node cid = some cn)
    (hsym : isSymlinkKind cn.kind = false) (hch : cn.chmodErr = none) :
    sysChmodAt fs dirFd name m = (.ok (),
      { fs with nodes := setNode fs.nodes cid { cn with mode := S_IMODE m }
                trace := fs.trace ++ [.chmodded dirFd name m] }) := by
  unfold sysChmodAt
  rw [hfd]
  try dsimp only
  rw [hnode]
  try dsimp only
  rw [hdir, if_neg (by decide : ¬(true = false))]
  try dsimp only
  rw [hchild]
  try dsimp only
  rw [hcn]
  try dsimp only
  rw [hsym, if_neg (by decide : ¬(false = true))]
  try dsimp only
  rw [hch]

theorem sysChmodAt_eval_err {fs : FS} {dirFd : Fd} {name : Name} {did cid : NodeId}
    {dn cn : Node} {e : OSErr} (m : Nat) (hfd : fs.fdNode dirFd = some did)
    (hnode : fs.node did = some dn) (hdir : isDirKind dn.kind = true)
    (hchild : lookupChild dn name = some cid) (hcn : fs.node cid = some cn)
    (hsym : isSymlinkKind cn.kind = false) (hch : cn.chmodErr = some e) :
    sysChmodAt fs dirFd name m = (.error e, fs) := by
  unfold sysChmodAt
  rw [hfd]
  try dsimp only
  rw [hnode]
  try dsimp only
  rw [hdir, if_neg (by decide : ¬(true = false))]
  try dsimp only
  rw [hchild]
  try dsimp only
  rw [hcn]
  try dsimp only
  rw [hsym, if_neg (by decide : ¬(false = true))]
  try dsimp only
  rw [hch]

theorem sysOpenAt_eval_perm {fs : FS} {dirFd : Fd} {name : Name} {did cid : NodeId}
    {dn cn : Node} (hfd : fs.fdNode dirFd = some did) (hnode : fs.node did = some dn)
    (hdir : isDirKind dn.kind = true) (hchild : lookupChild dn name = some cid)
    (hcn : fs.node cid = some cn) (hsym : isSymlinkKind cn.kind = false)
    (hnr : cn.mode &&& S_IRUSR = 0) :
    sysOpenAt fs dirFd name = (.error .permission, fs.emit (.tryOpen dirFd name)) := by
  unfold sysOpenAt
  simp only
  rw [show (fs.emit (.tryOpen dirFd name)).fdNode dirFd = some did from hfd]
  try dsimp only
  rw [show (fs.emit (.tryOpen dirFd name)).node did = some dn from hnode]
  try dsimp only
  rw [hdir, if_neg (by decide : ¬(true = false))]
  try dsimp only
  rw [hchild]
  try dsimp only
  rw [show (fs.emit (.tryOpen dirFd name)).node cid = some cn from hcn]
  try dsimp only
  rw [hsym, if_neg (by decide : ¬(false = true))]
  try dsimp only
  rw [if_pos hnr]

theorem sysOpenAt_eval_ok {fs : FS} {dirFd : Fd} {name : Name} {did cid : NodeId}
    {dn cn : Node} (hfd : fs.fdNode dirFd = some did) (hnode : fs.node did = some dn)
    (hdir : isDirKind dn.kind = true) (hchild : lookupChild dn name = some cid)
    (hcn : fs.node cid = some cn) (hsym : isSymlinkKind cn.kind = false)
    (hr : cn.mode &&& S_IRUSR ≠ 0) :
    sysOpenAt fs dirFd name = (.ok fs.nextFd,
      { fs with fds := (fs.nextFd, cid) :: fs.fds
                nextFd := fs.nextFd + 1
                trace := fs.trace ++ [.tryOpen dirFd name, .opened fs.nextFd] }) := by
  unfold sysOpenAt
  simp only
  rw [show (fs.emit (.tryOpen dirFd name)).fdNode dirFd = some did from hfd]
  try dsimp only
  rw [show (fs.emit (.tryOpen dirFd name)).node did = some dn from hnode]
  try dsimp only
  rw [hdir, if_neg (by decide : ¬(true = false))]
  try dsimp only
  rw [hchild]
  try dsimp only
  rw [show (fs.emit (.tryOpen dirFd name)).node cid = some cn from hcn]
  try dsimp only
  rw [hsym, if_neg (by decide : ¬(false = true))]
  try dsimp only
  rw [if_neg hr]
  simp [FS.emit]

theorem sysOpenAt_eval_notFound {fs : FS} {dirFd : Fd} {name : Name} {did : NodeId}
    {dn : Node} (hfd : fs.fdNode dirFd = some did) (hnode : fs.node did = some dn)
    (hdir : isDirKind dn.kind = true) (hchild : lookupChild dn name = none) :
    sysOpenAt fs dirFd name = (.error .notFound, fs.emit (.tryOpen dirFd name)) := by
  unfold sysOpenAt
  simp only
  rw [show (fs.emit (.tryOpen dirFd name)).fdNode dirFd = some did from hfd]
  try dsimp only
  rw [show (fs.emit (.tryOpen dirFd name)).node did = some dn from hnode]
  try dsimp only
  rw [hdir, if_neg (by decide : ¬(true = false))]
  try dsimp only
  rw [hchild]

theorem delete_single_eval_perm {fs : FS} {p : ParentContext} {c : ChildContext}
    {did cid : NodeId} {dn cn : Node}
    (hfd : fs.fdNode p.fd = some did) (hnode : fs.node did = some dn)
    (hdir : isDirKind dn.kind = true) (hchild : lookupChild dn c.name = some cid)
    (hcn : fs.node cid = some cn) (hclass : c.is_dir = isDirKind cn.kind)
    (hnw : dn.mode &&& S_IWUSR = 0) :
    delete_single fs p c = (.error .permission, fs.emit (.tryDelete p.fd c.name)) := by
  unfold delete_single
  rcases hcd : c.is_dir with _ | _
  · rw [hcd] at hclass
    have hkind : isDirKind cn.kind = false := hclass.symm
    rw [if_neg (by simp [hcd])]
    unfold sysUnlinkAt
    simp only
    rw [show (fs.emit (.tryDelete p.fd c.name)).fdNode p.fd = some did from hfd]
    try dsimp only
    rw [show (fs.emit (.tryDelete p.fd c.name)).node did = some dn from hnode]
    try dsimp only
    rw [hdir, if_neg (by decide : ¬(true = false))]
    try dsimp only
    rw [hchild]
    try dsimp only
    rw [show (fs.emit (.tryDelete p.fd c.name)).node cid = some cn from hcn]
    try dsimp only
    rw [hkind, if_neg (by decide : ¬(false = true))]
    try dsimp only
    rw [if_pos hnw]
  · rw [hcd] at hclass
    have hkind : isDirKind cn.kind = true := hclass.symm
    rw [if_pos rfl]
    unfold sysRmdirAt
    simp only
    rw [show (fs.emit (.tryDelete p.fd c.name)).fdNode p.fd = some did from hfd]
    try dsimp only
    rw [show (fs.emit (.tryDelete p.fd c.name)).node did = some dn from hnode]
    try dsimp only
    rw [hdir, if_neg (by decide : ¬(true = false))]
    try dsimp only
    rw [hchild]
    try dsimp only
    rw [show (fs.emit (.tryDelete p.fd c.name)).node cid = some cn from hcn]
    try dsimp only
    rw [hkind, if_neg (by decide : ¬(true = false))]
    try dsimp only
    rw [if_pos hnw]

theorem delete_single_eval_ok {fs : FS} {p : ParentContext} {c : ChildContext}
    {did cid : NodeId} {dn cn : Node}
    (hfd : fs.fdNode p.fd = some did) (hnode : fs.node did = some dn)
    (hdir : isDirKind dn.kind = true) (hchild : lookupChild dn c.name = some cid)
    (hcn : fs.node cid = some cn) (hclass : c.is_dir = isDirKind cn.kind)
    (hw : dn.mode &&& S_IWUSR ≠ 0) (hempty : c.is_dir = true → cn.children = []) :
    delete_single fs p c = (.ok (),
      { fs with nodes := setNode fs.nodes did (removeChild dn c.name)
                trace := fs.trace ++ [.tryDelete p.fd c.name, .removed p.fd c.name] }) := by
  unfold delete_single
  rcases hcd : c.is_dir with _ | _
  · rw [hcd] at hclass
    have hkind : isDirKind cn.kind = false := hclass.symm
    rw [if_neg (by simp [hcd])]
    unfold sysUnlinkAt
    simp only
    rw [show (fs.emit (.tryDelete p.fd c.name)).fdNode p.fd = some did from hfd]
    try dsimp only
    rw [show (fs.emit (.tryDelete p.fd c.name)).node did = some dn from hnode]
    try dsimp only
    rw [hdir, if_neg (by decide : ¬(true = false))]
    try dsimp only
    rw [hchild]
    try dsimp only
    rw [show (fs.emit (.tryDelete p.fd c.name)).node cid = some cn from hcn]
    try dsimp only
    rw [hkind, if_neg (by decide : ¬(false = true))]
    try dsimp only
    rw [if_neg hw]
    simp [FS.emit]
  · rw [hcd] at hclass
    have hkind : isDirKind cn.kind = true := hclass.symm
    rw [if_pos rfl]
    unfold sysRmdirAt
    simp only
    rw [show (fs.emit (.tryDelete p.fd c.name)).fdNode p.fd = some did from hfd]
    try dsimp only
    rw [show (fs.emit (.tryDelete p.fd c.name)).node did = some dn from hnode]
    try dsimp only
    rw [hdir, if_neg (by decide : ¬(true = false))]
    try dsimp only
    rw [hchild]
    try dsimp only
    rw [show (fs.emit (.tryDelete p.fd c.name)).node cid = some cn from hcn]
    try dsimp only
    rw [hkind, if_neg (by decide : ¬(true = false))]
    try dsimp only
    rw [if_neg hw, if_neg (by simp [hempty hcd])]
    simp [FS.emit]

theorem delete_single_eval_notFound {fs : FS} {p : ParentContext} {c : ChildContext}
    {did : NodeId} {dn : Node}
    (hfd : fs.fdNode p.fd = some did) (hnode : fs.node did = some dn)
    (hdir : isDirKind dn.kind = true) (hchild : lookupChild dn c.name = none) :
    delete_single fs p c = (.error .notFound, fs.emit (.tryDelete p.fd c.name)) := by
  unfold delete_single
  rcases hcd : c.is_dir with _ | _
  · rw [if_neg (by simp [hcd])]
    unfold sysUnlinkAt
    simp only
    rw [show (fs.emit (.tryDelete p.fd c.name)).fdNode p.fd = some did from hfd]
    try dsimp only
    rw [show (fs.emit (.tryDelete p.fd c.name)).node did = some dn from hnode]
    try dsimp only
    rw [hdir, if_neg (by decide : ¬(true = false))]
    try dsimp only
    rw [hchild]
  · rw [if_pos rfl]
    unfold sysRmdirAt
    simp only
    rw [show (fs.emit (.tryDelete p.fd c.name)).fdNode p.fd = some did from hfd]
    try dsimp only
    rw [show (fs.emit (.tryDelete p.fd c.name)).node did = some dn from hnode]
    try dsimp only
    rw [hdir, if_neg (by decide : ¬(true = false))]
    try dsimp only
    rw [hchild]

theorem sysRmdirAt_eval_notEmpty {fs : FS} {dirFd : Fd} {name : Name}
    {did cid : NodeId} {dn cn : Node}
    (hfd : fs.fdNode dirFd = some did) (hnode : fs.node did = some dn)
    (hdir : isDirKind dn.kind = true) (hchild : lookupChild dn name = some cid)
    (hcn : fs.node cid = some cn) (hcdir : isDirKind cn.kind = true)
    (hw : dn.mode &&& S_IWUSR ≠ 0) (hne : cn.children ≠ []) :
    sysRmdirAt fs dirFd name = (.error .notEmpty, fs.emit (.tryDelete dirFd name)) := by
  unfold sysRmdirAt
  simp only
  rw [show (fs.emit (.tryDelete dirFd name)).fdNode dirFd = some did from hfd]
  try dsimp only
  rw [show (fs.emit (.tryDelete dirFd name)).node did = some dn from hnode]
  try dsimp only
  rw [hdir, if_neg (by decide : ¬(true = false))]
  try dsimp only
  rw [hchild]
  try dsimp only
  rw [show (fs.emit (.tryDelete dirFd name)).node cid = some cn from hcn]
  try dsimp only
  rw [hcdir, if_neg (by decide : ¬(true = false))]
  try dsimp only
  rw [if_neg hw, if_pos hne]

theorem sysScandir_eval {fs : FS} {fd : Fd} {id : NodeId} {n : Node}
    (hfd : fs.fdNode fd = some id) (hnode : fs.node id = some n)
    (hdir : isDirKind n.kind = true) :
    sysScandir fs fd = (.ok (n.children.map (fun c =>
      (c.1, match fs.node c.2 with
            | some m => isDirKind m.kind
            | none => false))), fs) := by
  unfold sysScandir
  rw [hfd]
  try dsimp only
  rw [hnode]
  try dsimp only
  rw [hdir, if_neg (by decide : ¬(true = false))]

/-- Not-found handling and the already-latched permission case of
`delete_single_with_chmod`. -/
theorem dswc_notFound_or_latch_set :
    (∀ fs p c force verbose fs1, delete_single fs p c = (.error .notFound, fs1) →
      delete_single_with_chmod fs p c force verbose =
        ((if force then .ok () else .error .notFound), p, fs1)) ∧
    (∀ fs p c force verbose fs1, delete_single fs p c = (.error .permission, fs1) →
      p.attempted_chmod = true →
      delete_single_with_chmod fs p c force verbose = (.error .permission, p, fs1)) := by
  constructor
  · intro fs p c force verbose fs1 h
    unfold delete_single_with_chmod
    rw [h]
    cases force <;> rfl
  · intro fs p c force verbose fs1 h hlatch
    unfold delete_single_with_chmod
    rw [h]
    dsimp only
    rw [hlatch, if_pos rfl]

/-- Latch-unset permission case: the parent is repaired with the
descriptor-stat mode OR owner-write and the deletion is retried exactly
once, successfully under these hypotheses. -/
theorem dswc_repair_then_retry_ok (fs : FS) (p : ParentContext) (c : ChildContext)
    (force verbose : Bool) (did cid : NodeId) (dn cn : Node)
    (hlatch : p.attempted_chmod = false)
    (hfd : fs.fdNode p.fd = some did) (hnode : fs.node did = some dn)
    (hdir : isDirKind dn.kind = true) (hchild : lookupChild dn c.name = some cid)
    (hcn : fs.node cid = some cn) (hclass : c.is_dir = isDirKind cn.kind)
    (hnw : dn.mode &&& S_IWUSR = 0) (hch : dn.chmodErr = none)
    (hempty : c.is_dir = true → cn.children = []) (hne : cid ≠ did) :
    ∃ fs', delete_single_with_chmod fs p c force verbose =
        (.ok (), ⟨p.name, p.fd, true⟩, fs') ∧
      ∃ Δ, fs'.trace = fs.trace ++ Δ ∧ tryDeleteCount Δ = 2 ∧
        Event.fchmodded p.fd (S_IMODE dn.mode ||| S_IWUSR) ∈ Δ ∧
        Event.removed p.fd c.name ∈ Δ := by
  have h1 := delete_single_eval_perm hfd hnode hdir hchild hcn hclass hnw
  unfold delete_single_with_chmod
  rw [h1]
  try dsimp only
  rw [hlatch, if_neg (by decide : ¬(false = true))]
  try dsimp only
  rw [@sysFstat_eval (fs.emit (.tryDelete p.fd c.name)) p.fd did dn hfd hnode]
  try dsimp only
  rw [@sysFchmod_eval (fs.emit (.tryDelete p.fd c.name)) p.fd did dn
    (S_IMODE dn.mode ||| S_IWUSR) hfd hnode hch]
  try dsimp only
  rw [@delete_single_eval_ok
    { root := (fs.emit (Event.tryDelete p.fd c.name)).root,
      nodes := setNode (fs.emit (Event.tryDelete p.fd c.name)).nodes did
        { kind := dn.kind, mode := S_IMODE (S_IMODE dn.mode ||| S_IWUSR),
          chmodErr := dn.chmodErr, children := dn.children },
      fds := (fs.emit (Event.tryDelete p.fd c.name)).fds,
      nextFd := (fs.emit (Event.tryDelete p.fd c.name)).nextFd,
      trace := (fs.emit (Event.tryDelete p.fd c.name)).trace ++
        [Event.fchmodded p.fd (S_IMODE dn.mode ||| S_IWUSR)] }
    ⟨p.name, p.fd, true⟩ c did cid
    { kind := dn.kind, mode := S_IMODE (S_IMODE dn.mode ||| S_IWUSR),
      chmodErr := dn.chmodErr, children := dn.children } cn
    hfd (lookup_setNode_self _ hnode) hdir hchild
    ((lookup_setNode_ne _ hne).trans hcn) hclass
    (repairMode_writable dn.mode) hempty]
  try dsimp only
  cases verbose
  · refine ⟨_, rfl,
      [Event.tryDelete p.fd c.name, Event.fchmodded p.fd (S_IMODE dn.mode ||| S_IWUSR),
       Event.tryDelete p.fd c.name, Event.removed p.fd c.name], ?_, rfl, by simp, by simp⟩
    simp [FS.emit]
  · refine ⟨_, rfl,
      [Event.tryDelete p.fd c.name, Event.fchmodded p.fd (S_IMODE dn.mode ||| S_IWUSR),
       Event.tryDelete p.fd c.name, Event.removed p.fd c.name,
       Event.logPath (printable_path p.name c.name)], ?_, rfl, by simp, by simp⟩
    simp [FS.emit]

/-- Latch-unset permission case where the descriptor-based chmod itself
fails: the original permission error propagates and the chmod error is
only logged; and the case where the retried deletion fails again. -/
theorem dswc_repair_chmod_fails (fs : FS) (p : ParentContext) (c : ChildContext)
    (force verbose : Bool) (did cid : NodeId) (dn cn : Node) (ce : OSErr)
    (hlatch : p.attempted_chmod = false)
    (hfd : fs.fdNode p.fd = some did) (hnode : fs.node did = some dn)
    (hdir : isDirKind dn.kind = true) (hchild : lookupChild dn c.name = some cid)
    (hcn : fs.node cid = some cn) (hclass : c.is_dir = isDirKind cn.kind)
    (hnw : dn.mode &&& S_IWUSR = 0) (hch : dn.chmodErr = some ce) :
    delete_single_with_chmod fs p c force verbose =
      (.error .permission, ⟨p.name, p.fd, true⟩,
        log_error (fs.emit (.tryDelete p.fd c.name))
          "Failed to make writable" p.name "" ce) := by
  have h1 := delete_single_eval_perm hfd hnode hdir hchild hcn hclass hnw
  unfold delete_single_with_chmod
  rw [h1]
  try dsimp only
  rw [hlatch, if_neg (by decide : ¬(false = true))]
  try dsimp only
  rw [@sysFstat_eval (fs.emit (.tryDelete p.fd c.name)) p.fd did dn hfd hnode]
  try dsimp only
  rw [@sysFchmod_eval_err (fs.emit (.tryDelete p.fd c.name)) p.fd did dn ce
    (S_IMODE dn.mode ||| S_IWUSR) hfd hnode hch]

theorem dswc_repair_retry_fails (fs : FS) (p : ParentContext) (c : ChildContext)
    (force verbose : Bool) (did cid : NodeId) (dn cn : Node)
    (hlatch : p.attempted_chmod = false) (hcd : c.is_dir = true)
    (hfd : fs.fdNode p.fd = some did) (hnode : fs.node did = some dn)
    (hdir : isDirKind dn.kind = true) (hchild : lookupChild dn c.name = some cid)
    (hcn : fs.node cid = some cn) (hcdir : isDirKind cn.kind = true)
    (hnw : dn.mode &&& S_IWUSR = 0) (hch : dn.chmodErr = none)
    (hcne : cn.children ≠ []) (hne : cid ≠ did) :
    ∃ fs', delete_single_with_chmod fs p c force verbose =
        (.error .notEmpty, ⟨p.name, p.fd, true⟩, fs') ∧
      fs'.nodes = setNode fs.nodes did
        { dn with mode := S_IMODE (S_IMODE dn.mode ||| S_IWUSR) } ∧
      fs'.trace = fs.trace ++
        [Event.tryDelete p.fd c.name,
         Event.fchmodded p.fd (S_IMODE dn.mode ||| S_IWUSR),
         Event.tryDelete p.fd c.name] := by
  have hclass : c.is_dir = isDirKind cn.kind := by rw [hcd, hcdir]
  have h1 := delete_single_eval_perm hfd hnode hdir hchild hcn hclass hnw
  unfold delete_single_with_chmod
  rw [h1]
  try dsimp only
  rw [hlatch, if_neg (by decide : ¬(false = true))]
  try dsimp only
  rw [@sysFstat_eval (fs.emit (.tryDelete p.fd c.name)) p.fd did dn hfd hnode]
  try dsimp only
  rw [@sysFchmod_eval (fs.emit (.tryDelete p.fd c.name)) p.fd did dn
    (S_IMODE dn.mode ||| S_IWUSR) hfd hnode hch]
  try dsimp only
  have hds2 : delete_single
      { root := (fs.emit (Event.tryDelete p.fd c.name)).root,
        nodes := setNode (fs.emit (Event.tryDelete p.fd c.name)).nodes did
          { kind := dn.kind, mode := S_IMODE (S_IMODE dn.mode ||| S_IWUSR),
            chmodErr := dn.chmodErr, children := dn.children },
        fds := (fs.emit (Event.tryDelete p.fd c.name)).fds,
        nextFd := (fs.emit (Event.tryDelete p.fd c.name)).nextFd,
        trace := (fs.emit (Event.tryDelete p.fd c.name)).trace ++
          [Event.fchmodded p.fd (S_IMODE dn.mode ||| S_IWUSR)] }
      ⟨p.name, p.fd, true⟩ c =
      (.error .notEmpty,
        ({ root := (fs.emit (Event.tryDelete p.fd c.name)).root,
           nodes := setNode (fs.emit (Event.tryDelete p.fd c.name)).nodes did
             { kind := dn.kind, mode := S_IMODE (S_IMODE dn.mode ||| S_IWUSR),
               chmodErr := dn.chmodErr, children := dn.children },
           fds := (fs.emit (Event.tryDelete p.fd c.name)).fds,
           nextFd := (fs.emit (Event.tryDelete p.fd c.name)).nextFd,
           trace := (fs.emit (Event.tryDelete p.fd c.name)).trace ++
             [Event.fchmodded p.fd (S_IMODE dn.mode ||| S_IWUSR)] } : FS).emit
          (.tryDelete p.fd c.name)) := by
    unfold delete_single
    rw [if_pos hcd]
    exact sysRmdirAt_eval_notEmpty hfd (lookup_setNode_self _ hnode) hdir hchild
      ((lookup_setNode_ne _ hne).trans hcn) hcdir
      (repairMode_writable dn.mode) hcne
  rw [hds2]
  exact ⟨_, rfl, rfl, by simp [FS.emit]⟩



/-- Latch-unset permission case of `open_with_chmod`: the child is
repaired via a directory-relative chmod with the link-safe-stat mode OR
owner-write, and the open is retried exactly once (the retry fails again
in this owner-permission model, since the repair adds only the write bit,
and that second permission error is what propagates). -/
theorem owc_repair_retry (fs : FS) (p : ParentContext) (c : ChildContext)
    (did cid : NodeId) (dn cn : Node)
    (hlatch : c.attempted_chmod = false)
    (hfd : fs.fdNode p.fd = some did) (hnode : fs.node did = some dn)
    (hdir : isDirKind dn.kind = true) (hchild : lookupChild dn c.name = some cid)
    (hcn : fs.node cid = some cn) (hsym : isSymlinkKind cn.kind = false)
    (hnr : cn.mode &&& S_IRUSR = 0) (hch : cn.chmodErr = none) (hne : cid ≠ did) :
    ∃ fs', open_with_chmod fs p c = (.error .permission, ⟨c.name, c.is_dir, true⟩, fs') ∧
      ∃ Δ, fs'.trace = fs.trace ++ Δ ∧ tryOpenCount Δ = 2 ∧
        Event.chmodded p.fd c.name (S_IMODE cn.mode ||| S_IWUSR) ∈ Δ ∧
        opensOf Δ = [] := by
  have h1 := sysOpenAt_eval_perm hfd hnode hdir hchild hcn hsym hnr
  unfold open_with_chmod
  rw [h1]
  try dsimp only
  rw [hlatch, if_neg (by decide : ¬(false = true))]
  try dsimp only
  rw [@sysLstatAt_eval (fs.emit (.tryOpen p.fd c.name)) p.fd c.name did cid dn cn hfd hnode hdir hchild hcn]
  try dsimp only
  rw [@sysChmodAt_eval (fs.emit (.tryOpen p.fd c.name)) p.fd c.name did cid dn cn
    (S_IMODE cn.mode ||| S_IWUSR) hfd hnode hdir hchild hcn hsym hch]
  try dsimp only
  have ho2 : sysOpenAt
      { root := (fs.emit (Event.tryOpen p.fd c.name)).root,
        nodes := setNode (fs.emit (Event.tryOpen p.fd c.name)).nodes cid
          { kind := cn.kind, mode := S_IMODE (S_IMODE cn.mode ||| S_IWUSR),
            chmodErr := cn.chmodErr, children := cn.children },
        fds := (fs.emit (Event.tryOpen p.fd c.name)).fds,
        nextFd := (fs.emit (Event.tryOpen p.fd c.name)).nextFd,
        trace := (fs.emit (Event.tryOpen p.fd c.name)).trace ++
          [Event.chmodded p.fd c.name (S_IMODE cn.mode ||| S_IWUSR)] }
      p.fd c.name =
      (.error .permission,
        ({ root := (fs.emit (Event.tryOpen p.fd c.name)).root,
           nodes := setNode (fs.emit (Event.tryOpen p.fd c.name)).nodes cid
             { kind := cn.kind, mode := S_IMODE (S_IMODE cn.mode ||| S_IWUSR),
               chmodErr := cn.chmodErr, children := cn.children },
           fds := (fs.emit (Event.tryOpen p.fd c.name)).fds,
           nextFd := (fs.emit (Event.tryOpen p.fd c.name)).nextFd,
           trace := (fs.emit (Event.tryOpen p.fd c.name)).trace ++
             [Event.chmodded p.fd c.name (S_IMODE cn.mode ||| S_IWUSR)] } : FS).emit
        (.tryOpen p.fd c.name)) :=
    sysOpenAt_eval_perm hfd
      ((lookup_setNode_ne _ (Ne.symm hne)).trans hnode)
      hdir hchild (lookup_setNode_self _ hcn) hsym
      (repairMode_unreadable cn.mode hnr)
  rw [ho2]
  exact ⟨_, rfl,
    [Event.tryOpen p.fd c.name,
     Event.chmodded p.fd c.name (S_IMODE cn.mode ||| S_IWUSR),
     Event.tryOpen p.fd c.name],
    by simp [FS.emit], rfl, by simp, rfl⟩

/-- The permission-change failing inside `open_with_chmod` (and the
latch-already-set case): the original open error propagates. -/
theorem owc_chmod_fails (fs : FS) (p : ParentContext) (c : ChildContext)
    (did cid : NodeId) (dn cn : Node) (ce : OSErr)
    (hlatch : c.attempted_chmod = false)
    (hfd : fs.fdNode p.fd = some did) (hnode : fs.node did = some dn)
    (hdir : isDirKind dn.kind = true) (hchild : lookupChild dn c.name = some cid)
    (hcn : fs.node cid = some cn) (hsym : isSymlinkKind cn.kind = false)
    (hnr : cn.mode &&& S_IRUSR = 0) (hch : cn.chmodErr = some ce) :
    open_with_chmod fs p c = (.error .permission, ⟨c.name, c.is_dir, true⟩,
      log_error (fs.emit (.tryOpen p.fd c.name))
        "Failed to make writable" p.name c.name ce) := by
  have h1 := sysOpenAt_eval_perm hfd hnode hdir hchild hcn hsym hnr
  unfold open_with_chmod
  rw [h1]
  try dsimp only
  rw [hlatch, if_neg (by decide : ¬(false = true))]
  try dsimp only
  rw [@sysLstatAt_eval (fs.emit (.tryOpen p.fd c.name)) p.fd c.name did cid dn cn hfd hnode hdir hchild hcn]
  try dsimp only
  rw [@sysChmodAt_eval_err (fs.emit (.tryOpen p.fd c.name)) p.fd c.name did cid dn cn ce
    (S_IMODE cn.mode ||| S_IWUSR) hfd hnode hdir hchild hcn hsym hch]

theorem owc_latch_set (fs : FS) (p : ParentContext) (c : ChildContext)
    (did cid : NodeId) (dn cn : Node)
    (hlatch : c.attempted_chmod = true)
    (hfd : fs.fdNode p.fd = some did) (hnode : fs.node did = some dn)
    (hdir : isDirKind dn.kind = true) (hchild : lookupChild dn c.name = some cid)
    (hcn : fs.node cid = some cn) (hsym : isSymlinkKind cn.kind = false)
    (hnr : cn.mode &&& S_IRUSR = 0) :
    open_with_chmod fs p c = (.error .permission, c, fs.emit (.tryOpen p.fd c.name)) := by
  have h1 := sysOpenAt_eval_perm hfd hnode hdir hchild hcn hsym hnr
  unfold open_with_chmod
  rw [h1]
  try dsimp only
  rw [hlatch, if_pos rfl]


/-- If the first deletion attempt succeeds, `delete_single_with_chmod`
returns success at once (logging the path when verbose). -/
theorem dswc_first_ok {fs fs1 : FS} {p : ParentContext} {c : ChildContext}
    (force verbose : Bool) (h : delete_single fs p c = (.ok (), fs1)) :
    delete_single_with_chmod fs p c force verbose =
      (.ok (), p, if verbose then fs1.emit (.logPath (printable_path p.name c.name)) else fs1) := by
  unfold delete_single_with_chmod
  rw [h]

/-- Any error other than not-found and permission propagates unchanged from
the first deletion attempt: it is never retried. -/
theorem dswc_other_err {fs fs1 : FS} {p : ParentContext} {c : ChildContext}
    {e : OSErr} (force verbose : Bool) (h : delete_single fs p c = (.error e, fs1))
    (hnf : e ≠ .notFound) (hperm : e ≠ .permission) :
    delete_single_with_chmod fs p c force verbose = (.error e, p, fs1) := by
  unfold delete_single_with_chmod
  rw [h]
  cases e with
  | notFound => exact absurd rfl hnf
  | permission => exact absurd rfl hperm
  | notEmpty => rfl
  | notADir => rfl
  | isADir => rfl
  | badFd => rfl
  | ioError => rfl

theorem lookupChild_removeChild (n : Node) (name : Name) :
    lookupChild (removeChild n name) name = none := by
  unfold lookupChild removeChild
  simp only
  induction n.children with
  | nil => rfl
  | cons hd tl ih =>
    by_cases h : hd.1 = name
    · simp only [List.filter]
      rw [show (decide ¬hd.1 = name) = false from by simp [h]]
      try dsimp only
      exact ih
    · simp only [List.filter]
      rw [show (decide ¬hd.1 = name) = true from by simp [h]]
      rw [List.lookup, show (name == hd.1) = false from beq_eq_false_iff_ne.mpr (Ne.symm h)]
      exact ih

/-- An existing empty directory with a writable parent is removed by the
very first deletion attempt of `delete_path`, before any recursion decision:
the result is success for any value of the recursive flag. -/
theorem delete_path_empty_dir (fuel : Nat) (fs : FS) (p : ParentContext)
    (c : ChildContext) (force recursive verbose : Bool) (did cid : NodeId)
    (dn cn : Node)
    (hfd : fs.fdNode p.fd = some did) (hnode : fs.node did = some dn)
    (hdir : isDirKind dn.kind = true) (hchild : lookupChild dn c.name = some cid)
    (hcn : fs.node cid = some cn) (hcd : c.is_dir = true)
    (hcdir : isDirKind cn.kind = true) (hempty : cn.children = [])
    (hw : dn.mode &&& S_IWUSR ≠ 0) :
    ∃ fs', delete_path (fuel + 1) fs p c force recursive verbose = (true, p, c, fs') ∧
      fs'.nodes = setNode fs.nodes did (removeChild dn c.name) ∧
      fs'.node did = some (removeChild dn c.name) ∧
      lookupChild (removeChild dn c.name) c.name = none := by
  have h1 := delete_single_eval_ok hfd hnode hdir hchild hcn (by rw [hcd, hcdir])
    hw (fun _ => hempty)
  unfold delete_path
  rw [dswc_first_ok force verbose h1]
  cases verbose
  · exact ⟨_, rfl, rfl, lookup_setNode_self _ hnode, lookupChild_removeChild dn c.name⟩
  · exact ⟨_, rfl, rfl, lookup_setNode_self _ hnode, lookupChild_removeChild dn c.name⟩

/-- A non-empty directory processed without recursion fails at the first
deletion attempt in every repair configuration, logs a "Failed to delete"
line, deletes nothing anywhere, and never touches any permission bits
other than (possibly, via the one parent repair) the parent directory
handle. -/
theorem delete_path_nonrecursive_nonempty (fuel : Nat) (fs : FS) (p : ParentContext) (c : ChildContext)
    (force verbose : Bool) (did cid : NodeId) (dn cn : Node)
    (hfd : fs.fdNode p.fd = some did) (hnode : fs.node did = some dn)
    (hdir : isDirKind dn.kind = true) (hchild : lookupChild dn c.name = some cid)
    (hcn : fs.node cid = some cn) (hcd : c.is_dir = true)
    (hcdir : isDirKind cn.kind = true) (hcne : cn.children ≠ []) (hne : cid ≠ did) :
    ∃ e fs' p', delete_path (fuel + 1) fs p c force false verbose = (false, p', c, fs') ∧
      (∃ Δ, fs'.trace = fs.trace ++ Δ ∧
        Event.logError "Failed to delete" (printable_path p.name c.name) e ∈ Δ ∧
        (∀ f n, Event.removed f n ∉ Δ) ∧
        (∀ f n m, Event.chmodded f n m ∉ Δ) ∧
        (∀ f m, Event.fchmodded f m ∈ Δ → f = p.fd)) ∧
      (∀ id n, fs.node id = some n → ∃ n', fs'.node id = some n' ∧
        n'.kind = n.kind ∧ n'.children = n.children) := by
  by_cases hw : dn.mode &&& S_IWUSR = 0
  · by_cases hl : p.attempted_chmod = true
    · have h1 := delete_single_eval_perm hfd hnode hdir hchild hcn
        (by rw [hcd, hcdir]) hw
      have h2 := dswc_notFound_or_latch_set.2 fs p c force verbose _ h1 hl
      unfold delete_path
      rw [h2]
      refine ⟨.permission, _, p, rfl,
        ⟨[Event.tryDelete p.fd c.name,
          Event.logError "Failed to delete" (printable_path p.name c.name) .permission],
         by simp [FS.emit, log_error], by simp, by simp, by simp, by simp⟩,
        fun id n h => ⟨n, h, rfl, rfl⟩⟩
    · rcases hchm : dn.chmodErr with _ | ce
      · obtain ⟨fs', heq, hnodes, htr⟩ :=
          dswc_repair_retry_fails fs p c force verbose did cid dn cn
            (by simpa using hl) hcd hfd hnode hdir hchild hcn hcdir hw hchm hcne hne
        unfold delete_path
        rw [heq]
        refine ⟨.notEmpty, _, ⟨p.name, p.fd, true⟩, rfl,
          ⟨[Event.tryDelete p.fd c.name,
            Event.fchmodded p.fd (S_IMODE dn.mode ||| S_IWUSR),
            Event.tryDelete p.fd c.name,
            Event.logError "Failed to delete" (printable_path p.name c.name) .notEmpty],
           by simp [FS.emit, log_error, htr], by simp, by simp, by simp, by simp⟩,
          ?_⟩
        intro id n h
        by_cases hid : id = did
        · subst hid
          rw [hnode] at h
          cases h
          refine ⟨{ dn with mode := S_IMODE (S_IMODE dn.mode ||| S_IWUSR) }, ?_, rfl, rfl⟩
          show FS.node _ id = _
          unfold FS.node
          rw [show (log_error fs' "Failed to delete" p.name c.name .notEmpty).nodes = fs'.nodes from rfl]
          rw [show fs'.nodes.lookup id = FS.node fs' id from rfl]
          unfold FS.node
          rw [hnodes]
          exact lookup_setNode_self _ hnode
        · refine ⟨n, ?_, rfl, rfl⟩
          show FS.node _ id = _
          unfold FS.node
          rw [show (log_error fs' "Failed to delete" p.name c.name .notEmpty).nodes = fs'.nodes from rfl]
          rw [hnodes]
          exact (lookup_setNode_ne _ hid).trans h
      · have h2 := dswc_repair_chmod_fails fs p c force verbose did cid dn cn ce
          (by simpa using hl) hfd hnode hdir hchild hcn (by rw [hcd, hcdir]) hw hchm
        unfold delete_path
        rw [h2]
        refine ⟨.permission, _, ⟨p.name, p.fd, true⟩, rfl,
          ⟨[Event.tryDelete p.fd c.name,
            Event.logError "Failed to make writable" (printable_path p.name "") ce,
            Event.logError "Failed to delete" (printable_path p.name c.name) .permission],
           by simp [FS.emit, log_error], by simp, by simp, by simp, by simp⟩,
          fun id n h => ⟨n, h, rfl, rfl⟩⟩
  · have h1 : delete_single fs p c = (.error .notEmpty, fs.emit (.tryDelete p.fd c.name)) := by
      unfold delete_single
      rw [if_pos hcd]
      exact sysRmdirAt_eval_notEmpty hfd hnode hdir hchild hcn hcdir hw hcne
    have h2 := dswc_other_err force verbose h1 (by decide) (by decide)
    unfold delete_path
    rw [h2]
    refine ⟨.notEmpty, _, p, rfl,
      ⟨[Event.tryDelete p.fd c.name,
        Event.logError "Failed to delete" (printable_path p.name c.name) .notEmpty],
       by simp [FS.emit, log_error], by simp, by simp, by simp, by simp⟩,
      fun id n h => ⟨n, h, rfl, rfl⟩⟩

theorem sysLstatAt_eval_notFound {fs : FS} {dirFd : Fd} {name : Name} {did : NodeId}
    {dn : Node} (hfd : fs.fdNode dirFd = some did) (hnode : fs.node did = some dn)
    (hdir : isDirKind dn.kind = true) (hchild : lookupChild dn name = none) :
    sysLstatAt fs dirFd name = (.error .notFound, fs) := by
  unfold sysLstatAt
  rw [hfd]
  try dsimp only
  rw [hnode]
  try dsimp only
  rw [hdir, if_neg (by decide : ¬(true = false))]
  try dsimp only
  rw [hchild]

theorem processPath_resolve_notFound_force (fuel : Nat) (fs : FS) (path : Path)
    (recursive verbose : Bool) (h : resolvePath fs fuel path = .error .notFound) :
    processPath fuel fs path true recursive verbose = (true, fs) := by
  unfold processPath
  rw [h]
  rfl

theorem processPath_resolve_notFound_noforce (fuel : Nat) (fs : FS) (path : Path)
    (recursive verbose : Bool) (h : resolvePath fs fuel path = .error .notFound) :
    processPath fuel fs path false recursive verbose =
      (false, log_error fs "Failed to find" path "" .notFound) := by
  unfold processPath
  rw [h]
  rfl

theorem processPath_open_notFound_force (fuel : Nat) (fs : FS) (path resolved : Path)
    (recursive verbose : Bool) (fs3 : FS)
    (hres : resolvePath fs fuel path = .ok resolved)
    (hopen : sysOpenPath fs (splitPath resolved).1 = (.error .notFound, fs3)) :
    processPath fuel fs path true recursive verbose = (true, fs3) := by
  unfold processPath
  rw [hres]
  try dsimp only
  rcases hsp : splitPath resolved with ⟨parentName, childName⟩
  rw [hsp] at hopen
  rw [hopen]
  rfl

theorem delete_path_missing_force (fuel : Nat) (fs : FS) (p : ParentContext)
    (c : ChildContext) (recursive verbose : Bool) (did : NodeId) (dn : Node)
    (hfd : fs.fdNode p.fd = some did) (hnode : fs.node did = some dn)
    (hdir : isDirKind dn.kind = true) (hchild : lookupChild dn c.name = none) :
    delete_path (fuel + 1) fs p c true recursive verbose =
      (true, p, c, fs.emit (.tryDelete p.fd c.name)) := by
  have h1 := delete_single_eval_notFound hfd hnode hdir hchild
  have h2 := dswc_notFound_or_latch_set.1 fs p c true verbose _ h1
  unfold delete_path
  rw [h2]
  rfl

theorem classifyAndDelete_missing_leaf (fuel : Nat) (fs : FS) (parentName : Path)
    (parentFd : Fd) (childName : Name) (force recursive verbose : Bool)
    (did : NodeId) (dn : Node)
    (hfd : fs.fdNode parentFd = some did) (hnode : fs.node did = some dn)
    (hdir : isDirKind dn.kind = true) (hchild : lookupChild dn childName = none) :
    classifyAndDelete fuel fs parentName parentFd childName force recursive verbose =
      (false, close_quietly
        (log_error fs "Failed to stat" parentName childName .notFound) parentFd) := by
  unfold classifyAndDelete
  rw [sysLstatAt_eval_notFound hfd hnode hdir hchild]

theorem mainRun_all_processed (fuel : Nat) (fs : FS) (paths : List Path)
    (force recursive verbose : Bool) :
    (mainRun fuel fs paths force recursive verbose).1 =
      (mainResults fuel fs paths force recursive verbose).all id ∧
    (mainResults fuel fs paths force recursive verbose).length = paths.length := by
  induction paths generalizing fs with
  | nil => exact ⟨rfl, rfl⟩
  | cons p rest ih =>
    unfold mainRun mainResults
    rcases hp : processPath fuel fs p force recursive verbose with ⟨ok, fs1⟩
    try dsimp only
    rcases hm : mainRun fuel fs1 rest force recursive verbose with ⟨restOk, fs3⟩
    try dsimp only
    have := (ih fs1).1
    rw [hm] at this
    constructor
    · rw [List.all_cons]
      simp only [id]
      rw [← this]
    · rw [List.length_cons, (ih fs1).2]
      rfl

theorem processPath_resolved_eq (fuel : Nat) (fs : FS) (p q : Path)
    (force recursive verbose : Bool)
    (hp : resolvePath fs fuel p = .ok q) (hq : resolvePath fs fuel q = .ok q) :
    processPath fuel fs p force recursive verbose =
      processPath fuel fs q force recursive verbose := by
  unfold processPath
  rw [hp, hq]

theorem resolvePath_symlink_leaf (fs : FS) (fuel : Nat) (n : Name)
    (sid : NodeId) (sn rn : Node) (t : Path)
    (hroot : fs.node fs.root = some rn) (hdir : isDirKind rn.kind = true)
    (hchild : lookupChild rn n = some sid) (hsn : fs.node sid = some sn)
    (hkind : sn.kind = .symlink t) :
    resolvePath fs (fuel + 1) [n] = resolvePath fs fuel t := by
  unfold resolvePath
  conv_lhs => rw [resolveFrom.eq_def]
  try dsimp only
  rw [hroot]
  try dsimp only
  rw [hdir, if_neg (by decide : ¬(true = false))]
  try dsimp only
  rw [hchild]
  try dsimp only
  rw [hsn]
  try dsimp only
  rw [hkind]
  try dsimp only
  rw [List.append_nil]

theorem sysScandir_symlink_entry (fs : FS) (fd : Fd) (id cid : NodeId)
    (n cn : Node) (name : Name)
    (hfd : fs.fdNode fd = some id) (hnode : fs.node id = some n)
    (hdir : isDirKind n.kind = true) (hmem : (name, cid) ∈ n.children)
    (hcn : fs.node cid = some cn) (hsym : isSymlinkKind cn.kind = true) :
    ∃ entries, sysScandir fs fd = (.ok entries, fs) ∧ (name, false) ∈ entries := by
  refine ⟨_, sysScandir_eval hfd hnode hdir, ?_⟩
  have : isDirKind cn.kind = false := by
    cases hk : cn.kind with
    | symlink t => rfl
    | file => rfl
    | dir => rw [hk] at hsym; exact absurd hsym (by decide)
  refine List.mem_map.mpr ⟨(name, cid), hmem, ?_⟩
  dsimp only
  rw [hcn]
  try dsimp only
  rw [this]

theorem delete_path_symlink_entry (fuel : Nat) (fs : FS) (dirName : Path)
    (dirFd : Fd) (latch : Bool) (name : Name) (force verbose : Bool)
    (did sid : NodeId) (dn sn : Node)
    (hfd : fs.fdNode dirFd = some did) (hnode : fs.node did = some dn)
    (hdir : isDirKind dn.kind = true) (hchild : lookupChild dn name = some sid)
    (hsn : fs.node sid = some sn) (hsym : isSymlinkKind sn.kind = true)
    (hw : dn.mode &&& S_IWUSR ≠ 0) (hne : sid ≠ did) :
    ∃ fs', delete_path (fuel + 1) fs ⟨dirName, dirFd, latch⟩ ⟨name, false, false⟩
        force false verbose = (true, ⟨dirName, dirFd, latch⟩, ⟨name, false, false⟩, fs') ∧
      fs'.nodes = setNode fs.nodes did (removeChild dn name) ∧
      fs'.node sid = some sn := by
  have hkind : isDirKind sn.kind = false := by
    cases hk : sn.kind with
    | symlink t => rfl
    | file => rfl
    | dir => rw [hk] at hsym; exact absurd hsym (by decide)
  have h1 := delete_single_eval_ok (p := ⟨dirName, dirFd, latch⟩)
    (c := ⟨name, false, false⟩) hfd hnode hdir hchild hsn (by rw [hkind])
    hw (fun hx => Bool.noConfusion hx)
  unfold delete_path
  rw [dswc_first_ok force verbose h1]
  cases verbose
  · exact ⟨_, rfl, rfl, (lookup_setNode_ne _ hne).trans hsn⟩
  · exact ⟨_, rfl, rfl, (lookup_setNode_ne _ hne).trans hsn⟩

/-! ## Claim theorems -/

/-- C2: for every single-entry deletion attempt: a not-found result is
success exactly when force is set and propagates otherwise; a permission
error with the parent's repair latch unset sets the latch, reads the parent
directory's own mode via a descriptor-based stat, ORs in the owner-writable
bit, applies it via a descriptor-based permission change (fchmod on the
parent handle), and retries the deletion exactly once (two deletion attempts
in the trace); if the latch was already set, or the permission change fails,
or the retried deletion fails, the failure propagates (with the permission
change's own error only logged, never returned). -/
theorem spec_c2_single_entry_deletion_policy :
    (∀ fs p c force verbose fs1, delete_single fs p c = (.error .notFound, fs1) →
      delete_single_with_chmod fs p c force verbose =
        ((if force then .ok () else .error .notFound), p, fs1)) ∧
    (∀ fs p c force verbose fs1, delete_single fs p c = (.error .permission, fs1) →
      p.attempted_chmod = true →
      delete_single_with_chmod fs p c force verbose = (.error .permission, p, fs1)) ∧
    (∀ fs (p : ParentContext) (c : ChildContext) (force verbose : Bool)
      {did cid : NodeId} {dn cn : Node},
      p.attempted_chmod = false →
      fs.fdNode p.fd = some did → fs.node did = some dn →
      isDirKind dn.kind = true → lookupChild dn c.name = some cid →
      fs.node cid = some cn → c.is_dir = isDirKind cn.kind →
      dn.mode &&& S_IWUSR = 0 → dn.chmodErr = none →
      (c.is_dir = true → cn.children = []) → cid ≠ did →
      ∃ fs', delete_single_with_chmod fs p c force verbose =
          (.ok (), ⟨p.name, p.fd, true⟩, fs') ∧
        ∃ Δ, fs'.trace = fs.trace ++ Δ ∧ tryDeleteCount Δ = 2 ∧
          Event.fchmodded p.fd (S_IMODE dn.mode ||| S_IWUSR) ∈ Δ ∧
          Event.removed p.fd c.name ∈ Δ) ∧
    (∀ fs (p : ParentContext) (c : ChildContext) (force verbose : Bool)
      {did cid : NodeId} {dn cn : Node} {ce : OSErr},
      p.attempted_chmod = false →
      fs.fdNode p.fd = some did → fs.node did = some dn →
      isDirKind dn.kind = true → lookupChild dn c.name = some cid →
      fs.node cid = some cn → c.is_dir = isDirKind cn.kind →
      dn.mode &&& S_IWUSR = 0 → dn.chmodErr = some ce →
      delete_single_with_chmod fs p c force verbose =
        (.error .permission, ⟨p.name, p.fd, true⟩,
          log_error (fs.emit (.tryDelete p.fd c.name))
            "Failed to make writable" p.name "" ce)) ∧
    (∀ fs (p : ParentContext) (c : ChildContext) (force verbose : Bool)
      {did cid : NodeId} {dn cn : Node},
      p.attempted_chmod = false → c.is_dir = true →
      fs.fdNode p.fd = some did → fs.node did = some dn →
      isDirKind dn.kind = true → lookupChild dn c.name = some cid →
      fs.node cid = some cn → isDirKind cn.kind = true →
      dn.mode &&& S_IWUSR = 0 → dn.chmodErr = none →
      cn.children ≠ [] → cid ≠ did →
      ∃ fs', delete_single_with_chmod fs p c force verbose =
          (.error .notEmpty, ⟨p.name, p.fd, true⟩, fs') ∧
        ∃ Δ, fs'.trace = fs.trace ++ Δ ∧ tryDeleteCount Δ = 2) := by
  refine ⟨dswc_notFound_or_latch_set.1, dswc_notFound_or_latch_set.2, ?_, ?_, ?_⟩
  · intro fs p c force verbose did cid dn cn hlatch hfd hnode hdir hchild hcn hclass hnw hch hempty hne
    exact dswc_repair_then_retry_ok fs p c force verbose did cid dn cn
      hlatch hfd hnode hdir hchild hcn hclass hnw hch hempty hne
  · intro fs p c force verbose did cid dn cn ce hlatch hfd hnode hdir hchild hcn hclass hnw hch
    exact dswc_repair_chmod_fails fs p c force verbose did cid dn cn ce
      hlatch hfd hnode hdir hchild hcn hclass hnw hch
  · intro fs p c force verbose did cid dn cn hlatch hcd hfd hnode hdir hchild hcn hcdir hnw hch hcne hne
    obtain ⟨fs', heq, _, htr⟩ := dswc_repair_retry_fails fs p c force verbose did cid dn cn
      hlatch hcd hfd hnode hdir hchild hcn hcdir hnw hch hcne hne
    exact ⟨fs', heq, _, htr, rfl⟩

/-- Witness for C2: on the concrete fixture, a missing entry is tolerated
under force, and deleting file f inside the non-writable directory d
triggers exactly the repair-and-single-retry behaviour. -/
theorem spec_c2_witness :
    (delete_single_with_chmod roFS ⟨["d"], 5, false⟩ ⟨"nope", false, false⟩ true false =
      (.ok (), ⟨["d"], 5, false⟩, roFS.emit (.tryDelete 5 "nope"))) ∧
    ∃ fs', delete_single_with_chmod roFS ⟨["d"], 5, false⟩ ⟨"f", false, false⟩ false false =
        (.ok (), ⟨["d"], 5, true⟩, fs') ∧
      ∃ Δ, fs'.trace = roFS.trace ++ Δ ∧ tryDeleteCount Δ = 2 ∧
        Event.fchmodded 5 (S_IMODE 0o555 ||| S_IWUSR) ∈ Δ ∧
        Event.removed 5 "f" ∈ Δ := by
  constructor
  · exact spec_c2_single_entry_deletion_policy.1 roFS ⟨["d"], 5, false⟩
      ⟨"nope", false, false⟩ true false _ rfl
  · exact spec_c2_single_entry_deletion_policy.2.2.1 roFS ⟨["d"], 5, false⟩
      ⟨"f", false, false⟩ false false rfl rfl rfl rfl rfl rfl rfl rfl rfl
      (fun hx => Bool.noConfusion hx) (by decide)


/-- C3: for every attempt to open a child directory for traversal: a
permission error with the child's repair latch unset sets the latch, reads
the child's mode via a link-safe stat, ORs in the owner-writable bit,
applies it via a directory-relative permission change, and retries the open
exactly once (two open attempts in the trace, no descriptor opened when the
retry fails); if the permission-change call itself fails, the original open
error (permission), not the permission-change error, propagates, the latter
being only logged; with the latch already set the failure propagates at
once. -/
theorem spec_c3_open_for_traversal_repair_policy :
    (∀ fs (p : ParentContext) (c : ChildContext) {did cid : NodeId} {dn cn : Node},
      c.attempted_chmod = false →
      fs.fdNode p.fd = some did → fs.node did = some dn →
      isDirKind dn.kind = true → lookupChild dn c.name = some cid →
      fs.node cid = some cn → isSymlinkKind cn.kind = false →
      cn.mode &&& S_IRUSR = 0 → cn.chmodErr = none → cid ≠ did →
      ∃ fs', open_with_chmod fs p c = (.error .permission, ⟨c.name, c.is_dir, true⟩, fs') ∧
        ∃ Δ, fs'.trace = fs.trace ++ Δ ∧ tryOpenCount Δ = 2 ∧
          Event.chmodded p.fd c.name (S_IMODE cn.mode ||| S_IWUSR) ∈ Δ ∧
          opensOf Δ = []) ∧
    (∀ fs (p : ParentContext) (c : ChildContext) {did cid : NodeId} {dn cn : Node}
      {ce : OSErr},
      c.attempted_chmod = false →
      fs.fdNode p.fd = some did → fs.node did = some dn →
      isDirKind dn.kind = true → lookupChild dn c.name = some cid →
      fs.node cid = some cn → isSymlinkKind cn.kind = false →
      cn.mode &&& S_IRUSR = 0 → cn.chmodErr = some ce →
      open_with_chmod fs p c = (.error .permission, ⟨c.name, c.is_dir, true⟩,
        log_error (fs.emit (.tryOpen p.fd c.name))
          "Failed to make writable" p.name c.name ce)) ∧
    (∀ fs (p : ParentContext) (c : ChildContext) {did cid : NodeId} {dn cn : Node},
      c.attempted_chmod = true →
      fs.fdNode p.fd = some did → fs.node did = some dn →
      isDirKind dn.kind = true → lookupChild dn c.name = some cid →
      fs.node cid = some cn → isSymlinkKind cn.kind = false →
      cn.mode &&& S_IRUSR = 0 →
      open_with_chmod fs p c = (.error .permission, c, fs.emit (.tryOpen p.fd c.name))) := by
  refine ⟨?_, ?_, ?_⟩
  · intro fs p c did cid dn cn hlatch hfd hnode hdir hchild hcn hsym hnr hch hne
    exact owc_repair_retry fs p c did cid dn cn hlatch hfd hnode hdir hchild hcn hsym hnr hch hne
  · intro fs p c did cid dn cn ce hlatch hfd hnode hdir hchild hcn hsym hnr hch
    exact owc_chmod_fails fs p c did cid dn cn ce hlatch hfd hnode hdir hchild hcn hsym hnr hch
  · intro fs p c did cid dn cn hlatch hfd hnode hdir hchild hcn hsym hnr
    exact owc_latch_set fs p c did cid dn cn hlatch hfd hnode hdir hchild hcn hsym hnr

/-- Witness for C3: on the fixture, opening unreadable directory locked
repairs and retries once; opening chmod-denied vault logs the I/O error but
returns the original permission error. -/
theorem spec_c3_witness :
    (∃ fs', open_with_chmod roFS ⟨["d"], 5, false⟩ ⟨"locked", true, false⟩ =
        (.error .permission, ⟨"locked", true, true⟩, fs') ∧
      ∃ Δ, fs'.trace = roFS.trace ++ Δ ∧ tryOpenCount Δ = 2 ∧
        Event.chmodded 5 "locked" (S_IMODE 0o000 ||| S_IWUSR) ∈ Δ ∧
        opensOf Δ = []) ∧
    open_with_chmod roFS ⟨["d"], 5, false⟩ ⟨"vault", true, false⟩ =
      (.error .permission, ⟨"vault", true, true⟩,
        log_error (roFS.emit (.tryOpen 5 "vault"))
          "Failed to make writable" ["d"] "vault" .ioError) := by
  constructor
  · exact spec_c3_open_for_traversal_repair_policy.1 roFS ⟨["d"], 5, false⟩
      ⟨"locked", true, false⟩ rfl rfl rfl rfl rfl rfl rfl rfl rfl (by decide)
  · exact spec_c3_open_for_traversal_repair_policy.2.1 roFS ⟨["d"], 5, false⟩
      ⟨"vault", true, false⟩ rfl rfl rfl rfl rfl rfl rfl rfl rfl


/-- C9: an existing empty directory is deleted successfully even with
recursion unset: the empty-directory remove is attempted directly, before
any recursion decision, so the recursive flag only matters for non-empty
directories.  Stated for `delete_path` with an arbitrary recursive flag, and
for a whole top-level run with recursive unset on the concrete tree. -/
theorem spec_c9_empty_dir_without_recursion :
    (∀ (fuel : Nat) (fs : FS) (p : ParentContext) (c : ChildContext)
      (force recursive verbose : Bool) {did cid : NodeId} {dn cn : Node},
      fs.fdNode p.fd = some did → fs.node did = some dn →
      isDirKind dn.kind = true → lookupChild dn c.name = some cid →
      fs.node cid = some cn → c.is_dir = true → isDirKind cn.kind = true →
      cn.children = [] → dn.mode &&& S_IWUSR ≠ 0 →
      ∃ fs', delete_path (fuel + 1) fs p c force recursive verbose = (true, p, c, fs') ∧
        fs'.nodes = setNode fs.nodes did (removeChild dn c.name) ∧
        fs'.node did = some (removeChild dn c.name) ∧
        lookupChild (removeChild dn c.name) c.name = none) ∧
    (processPath 5 treeFS ["mt"] false false false).1 = true ∧
    (processPath 5 treeFS ["mt"] false false false).2.node 0 =
      some { kind := .dir, mode := 0o755,
             children := [("d", 1), ("ro", 5), ("link", 6)] } := by
  refine ⟨?_, by decide, by decide⟩
  intro fuel fs p c force recursive verbose did cid dn cn hfd hnode hdir hchild hcn hcd hcdir hempty hw
  exact delete_path_empty_dir fuel fs p c force recursive verbose did cid dn cn
    hfd hnode hdir hchild hcn hcd hcdir hempty hw

/-- Witness for C9: deleting the empty directory mt under the open root
descriptor succeeds with recursion unset. -/
theorem spec_c9_witness :
    ∃ fs', delete_path 1 treeFS ⟨[], 9, false⟩ ⟨"mt", true, false⟩ false false false =
        (true, ⟨[], 9, false⟩, ⟨"mt", true, false⟩, fs') ∧
      fs'.nodes = setNode treeFS.nodes 0 (removeChild treeRoot "mt") ∧
      fs'.node 0 = some (removeChild treeRoot "mt") ∧
      lookupChild (removeChild treeRoot "mt") "mt" = none :=
  spec_c9_empty_dir_without_recursion.1 0 treeFS ⟨[], 9, false⟩ ⟨"mt", true, false⟩
    false false false rfl rfl rfl rfl rfl rfl rfl rfl (by decide)

/-- C8: a non-empty directory processed with recursion unset fails (with a
"Failed to delete" log line naming its display path) and leaves the
directory's contents unmodified: nothing is deleted anywhere, no
directory-relative chmod is issued, and the only permission bits possibly
touched are the parent handle's own (one repair attempt).  Also stated for
a whole top-level run on the concrete tree: the run fails and the inode
store is completely unchanged. -/
theorem spec_c8_nonrecursive_nonempty_dir_fails_without_changes :
    (∀ (fuel : Nat) (fs : FS) (p : ParentContext) (c : ChildContext)
      (force verbose : Bool) {did cid : NodeId} {dn cn : Node},
      fs.fdNode p.fd = some did → fs.node did = some dn →
      isDirKind dn.kind = true → lookupChild dn c.name = some cid →
      fs.node cid = some cn → c.is_dir = true → isDirKind cn.kind = true →
      cn.children ≠ [] → cid ≠ did →
      ∃ e fs' p', delete_path (fuel + 1) fs p c force false verbose = (false, p', c, fs') ∧
        (∃ Δ, fs'.trace = fs.trace ++ Δ ∧
          Event.logError "Failed to delete" (printable_path p.name c.name) e ∈ Δ ∧
          (∀ f n, Event.removed f n ∉ Δ) ∧
          (∀ f n m, Event.chmodded f n m ∉ Δ) ∧
          (∀ f m, Event.fchmodded f m ∈ Δ → f = p.fd)) ∧
        (∀ id n, fs.node id = some n → ∃ n', fs'.node id = some n' ∧
          n'.kind = n.kind ∧ n'.children = n.children)) ∧
    (processPath 5 treeFS ["d"] false false false).1 = false ∧
    (processPath 5 treeFS ["d"] false false false).2.nodes = treeFS.nodes := by
  refine ⟨?_, by decide, by decide⟩
  intro fuel fs p c force verbose did cid dn cn hfd hnode hdir hchild hcn hcd hcdir hcne hne
  exact delete_path_nonrecursive_nonempty fuel fs p c force verbose did cid dn cn
    hfd hnode hdir hchild hcn hcd hcdir hcne hne

/-- Witness for C8: deleting non-empty directory d under the open root
descriptor with recursion unset fails and modifies no directory contents. -/
theorem spec_c8_witness :
    ∃ e fs' p', delete_path 1 treeFS ⟨[], 9, false⟩ ⟨"d", true, false⟩ false false false =
        (false, p', ⟨"d", true, false⟩, fs') ∧
      (∃ Δ, fs'.trace = treeFS.trace ++ Δ ∧
        Event.logError "Failed to delete" (printable_path [] "d") e ∈ Δ ∧
        (∀ f n, Event.removed f n ∉ Δ) ∧
        (∀ f n m, Event.chmodded f n m ∉ Δ) ∧
        (∀ f m, Event.fchmodded f m ∈ Δ → f = 9)) ∧
      (∀ id n, treeFS.node id = some n → ∃ n', fs'.node id = some n' ∧
        n'.kind = n.kind ∧ n'.children = n.children) :=
  spec_c8_nonrecursive_nonempty_dir_fails_without_changes.1 0 treeFS
    ⟨[], 9, false⟩ ⟨"d", true, false⟩ false false rfl rfl rfl rfl rfl rfl rfl
    (by decide) (by decide)


/-- C5: a top-level path that does not exist, processed with force unset,
fails with a NotFound-classified "Failed to find" log line; the batch result
is the conjunction of every path's individual result, one per given path, so
the other top-level paths are still processed. -/
theorem spec_c5_missing_path_without_force :
    (∀ (fuel : Nat) (fs : FS) (path : Path) (recursive verbose : Bool),
      resolvePath fs fuel path = .error .notFound →
      processPath fuel fs path false recursive verbose =
        (false, log_error fs "Failed to find" path "" .notFound)) ∧
    (∀ (fuel : Nat) (fs : FS) (paths : List Path) (force recursive verbose : Bool),
      (mainRun fuel fs paths force recursive verbose).1 =
        (mainResults fuel fs paths force recursive verbose).all id ∧
      (mainResults fuel fs paths force recursive verbose).length = paths.length) ∧
    (∀ (fuel : Nat) (fs : FS) (path : Path) (rest : List Path) (recursive verbose : Bool),
      resolvePath fs fuel path = .error .notFound →
      (mainRun fuel fs (path :: rest) false recursive verbose).1 = false) := by
  refine ⟨processPath_resolve_notFound_noforce, mainRun_all_processed, ?_⟩
  intro fuel fs path rest recursive verbose h
  unfold mainRun
  rw [processPath_resolve_notFound_noforce fuel fs path recursive verbose h]
  rcases hm : mainRun fuel (log_error fs "Failed to find" path "" .notFound)
      rest false recursive verbose with ⟨restOk, fs3⟩
  simp

/-- Witness for C5: the missing path nope fails with a NotFound log while
the rest of the batch is still evaluated. -/
theorem spec_c5_witness :
    processPath 5 treeFS ["nope"] false false false =
      (false, log_error treeFS "Failed to find" ["nope"] "" .notFound) ∧
    (mainRun 5 treeFS [["nope"], ["ro"]] false false false).1 = false := by
  constructor
  · exact spec_c5_missing_path_without_force.1 5 treeFS ["nope"] false false rfl
  · exact spec_c5_missing_path_without_force.2.2 5 treeFS ["nope"] [["ro"]]
      false false rfl

/-- Counterexample to C4 as stated: a not-found at the classification stat
of the leaf is NOT treated as already-deleted success even when force is
set — the engine logs "Failed to stat" and reports failure for that path. -/
theorem spec_c4_counterexample :
    (classifyAndDelete 5 treeFS [] 9 "ghost" true true false).1 = false ∧
    Event.logError "Failed to stat" ["ghost"] .notFound ∈
      (classifyAndDelete 5 treeFS [] 9 "ghost" true true false).2.trace :=
  ⟨by decide, by decide⟩

/-- C4 (amended): when force is set, a not-found during path resolution is
treated as already-deleted success with the state untouched, and a
not-found at any deletion attempt in the traversal likewise yields success
for that node; but a not-found at the classification stat of the leaf is
reported as a logged "Failed to stat" failure regardless of force. -/
theorem spec_c4_force_tolerates_missing_amended :
    (∀ (fuel : Nat) (fs : FS) (path : Path) (recursive verbose : Bool),
      resolvePath fs fuel path = .error .notFound →
      processPath fuel fs path true recursive verbose = (true, fs)) ∧
    (∀ (fuel : Nat) (fs : FS) (p : ParentContext) (c : ChildContext)
      (recursive verbose : Bool) {did : NodeId} {dn : Node},
      fs.fdNode p.fd = some did → fs.node did = some dn →
      isDirKind dn.kind = true → lookupChild dn c.name = none →
      delete_path (fuel + 1) fs p c true recursive verbose =
        (true, p, c, fs.emit (.tryDelete p.fd c.name))) ∧
    (∀ (fuel : Nat) (fs : FS) (parentName : Path) (parentFd : Fd)
      (childName : Name) (force recursive verbose : Bool) {did : NodeId} {dn : Node},
      fs.fdNode parentFd = some did → fs.node did = some dn →
      isDirKind dn.kind = true → lookupChild dn childName = none →
      classifyAndDelete fuel fs parentName parentFd childName force recursive verbose =
        (false, close_quietly
          (log_error fs "Failed to stat" parentName childName .notFound) parentFd)) := by
  refine ⟨processPath_resolve_notFound_force, ?_, ?_⟩
  · intro fuel fs p c recursive verbose did dn hfd hnode hdir hchild
    exact delete_path_missing_force fuel fs p c recursive verbose did dn hfd hnode hdir hchild
  · intro fuel fs parentName parentFd childName force recursive verbose did dn hfd hnode hdir hchild
    exact classifyAndDelete_missing_leaf fuel fs parentName parentFd childName
      force recursive verbose did dn hfd hnode hdir hchild

/-- Witness for the amended C4: force tolerates the missing top-level path
nope without touching the state, tolerates a missing entry at a traversal
deletion attempt, and still fails at a missing classification stat. -/
theorem spec_c4_witness :
    processPath 5 treeFS ["nope"] true false false = (true, treeFS) ∧
    delete_path 1 treeFS ⟨[], 9, false⟩ ⟨"ghost", false, false⟩ true false false =
      (true, ⟨[], 9, false⟩, ⟨"ghost", false, false⟩,
        treeFS.emit (.tryDelete 9 "ghost")) ∧
    (classifyAndDelete 5 treeFS [] 9 "ghost" false true false).1 = false := by
  refine ⟨?_, ?_, ?_⟩
  · exact spec_c4_force_tolerates_missing_amended.1 5 treeFS ["nope"]
      false false rfl
  · exact spec_c4_force_tolerates_missing_amended.2.1 0 treeFS ⟨[], 9, false⟩
      ⟨"ghost", false, false⟩ false false rfl rfl rfl rfl
  · rw [spec_c4_force_tolerates_missing_amended.2.2 5 treeFS [] 9 "ghost"
      false true false rfl rfl rfl rfl]


/-- C10: a top-level argument is processed entirely through its resolved
form: a run on a path is identical to a run on its resolution, and a
symbolic-link leaf resolves to (the resolution of) its target; during
recursive listing, a symbolic-link entry is classified as a non-directory by
the no-follow scandir and is unlinked with recursion disabled for it,
leaving the link target's inode untouched.  Concretely, deleting the
top-level symlink link (target d) with recursion deletes d's whole tree and
leaves the symlink inode unchanged. -/
theorem spec_c10_symlink_handling :
    (∀ (fuel : Nat) (fs : FS) (p q : Path) (force recursive verbose : Bool),
      resolvePath fs fuel p = .ok q → resolvePath fs fuel q = .ok q →
      processPath fuel fs p force recursive verbose =
        processPath fuel fs q force recursive verbose) ∧
    (∀ (fs : FS) (fuel : Nat) (n : Name) {sid : NodeId} {sn rn : Node} {t : Path},
      fs.node fs.root = some rn → isDirKind rn.kind = true →
      lookupChild rn n = some sid → fs.node sid = some sn →
      sn.kind = .symlink t →
      resolvePath fs (fuel + 1) [n] = resolvePath fs fuel t) ∧
    (∀ (fs : FS) (fd : Fd) {id cid : NodeId} {n cn : Node} (name : Name),
      fs.fdNode fd = some id → fs.node id = some n → isDirKind n.kind = true →
      (name, cid) ∈ n.children → fs.node cid = some cn →
      isSymlinkKind cn.kind = true →
      ∃ entries, sysScandir fs fd = (.ok entries, fs) ∧ (name, false) ∈ entries) ∧
    (∀ (fuel : Nat) (fs : FS) (dirName : Path) (dirFd : Fd) (latch : Bool)
      (name : Name) (force verbose : Bool) {did sid : NodeId} {dn sn : Node},
      fs.fdNode dirFd = some did → fs.node did = some dn →
      isDirKind dn.kind = true → lookupChild dn name = some sid →
      fs.node sid = some sn → isSymlinkKind sn.kind = true →
      dn.mode &&& S_IWUSR ≠ 0 → sid ≠ did →
      ∃ fs', delete_path (fuel + 1) fs ⟨dirName, dirFd, latch⟩ ⟨name, false, false⟩
          force false verbose =
          (true, ⟨dirName, dirFd, latch⟩, ⟨name, false, false⟩, fs') ∧
        fs'.nodes = setNode fs.nodes did (removeChild dn name) ∧
        fs'.node sid = some sn) ∧
    ((processPath 10 treeFS ["link"] false true false).1 = true ∧
     (processPath 10 treeFS ["link"] false true false).2.node 6 =
       some { kind := .symlink ["d"], mode := 0o777 } ∧
     (processPath 10 treeFS ["link"] false true false).2.node 0 =
       some { kind := .dir, mode := 0o755,
              children := [("ro", 5), ("link", 6), ("mt", 7)] } ∧
     (processPath 10 treeFS ["link"] false true false).2.node 1 =
       some { kind := .dir, mode := 0o755, children := [] }) := by
  refine ⟨processPath_resolved_eq, ?_, ?_, ?_, by decide, by decide, by decide, by decide⟩
  · intro fs fuel n sid sn rn t hroot hdir hchild hsn hkind
    exact resolvePath_symlink_leaf fs fuel n sid sn rn t hroot hdir hchild hsn hkind
  · intro fs fd id cid n cn name hfd hnode hdir hmem hcn hsym
    exact sysScandir_symlink_entry fs fd id cid n cn name hfd hnode hdir hmem hcn hsym
  · intro fuel fs dirName dirFd latch name force verbose did sid dn sn hfd hnode hdir hchild hsn hsym hw hne
    exact delete_path_symlink_entry fuel fs dirName dirFd latch name force verbose
      did sid dn sn hfd hnode hdir hchild hsn hsym hw hne

/-- Witness for C10: on the concrete tree, the run on link equals the run on
d, the leaf link resolves to d's resolution, and the listing entry for link
is classified as a non-directory and unlinked without touching its target
inode. -/
theorem spec_c10_witness :
    processPath 10 treeFS ["link"] false true false =
      processPath 10 treeFS ["d"] false true false ∧
    resolvePath treeFS 6 ["link"] = resolvePath treeFS 5 ["d"] ∧
    (∃ entries, sysScandir treeFS 9 = (.ok entries, treeFS) ∧
      ("link", false) ∈ entries) ∧
    ∃ fs', delete_path 1 treeFS ⟨[], 9, false⟩ ⟨"link", false, false⟩
        false false false =
        (true, ⟨[], 9, false⟩, ⟨"link", false, false⟩, fs') ∧
      fs'.nodes = setNode treeFS.nodes 0 (removeChild treeRoot "link") ∧
      fs'.node 6 = some { kind := .symlink ["d"], mode := 0o777 } := by
  refine ⟨?_, ?_, ?_, ?_⟩
  · exact spec_c10_symlink_handling.1 10 treeFS ["link"] ["d"] false true false rfl rfl
  · exact spec_c10_symlink_handling.2.1 treeFS 5 "link" rfl rfl rfl rfl rfl
  · have h := spec_c10_symlink_handling.2.2.1
    exact @h treeFS 9 0 6 treeRoot { kind := .symlink ["d"], mode := 0o777 } "link"
      rfl rfl rfl (by decide) rfl rfl
  · exact spec_c10_symlink_handling.2.2.2.1 0 treeFS [] 9 false "link" false false
      rfl rfl rfl rfl rfl rfl (by decide) (by decide)

end JustDelete

namespace JustDelete

theorem dswc_effects' {fs fs' : FS} {p p' : ParentContext} {c : ChildContext}
    {force verbose : Bool} {r : Except OSErr Unit}
    (h : delete_single_with_chmod fs p c force verbose = (r, p', fs')) :
    p'.name = p.name ∧ p'.fd = p.fd ∧
    (p.attempted_chmod = true → p'.attempted_chmod = true) ∧
    fs'.fds = fs.fds ∧ fs'.nextFd = fs.nextFd ∧ fs'.root = fs.root ∧
    ∃ Δ, fs'.trace = fs.trace ++ Δ ∧ opensOf Δ = [] ∧ closesOf Δ = [] ∧
      (p.attempted_chmod = true → fchmodFds Δ = []) ∧
      (fchmodFds Δ = [] ∨ (fchmodFds Δ = [p.fd] ∧ p'.attempted_chmod = true)) ∧
      (∃ Δt, Δ = Event.tryDelete p.fd c.name :: Δt) := by
  obtain ⟨r2, p2, fs2, heq, hfacts⟩ := dswc_effects fs p c force verbose
  rw [h] at heq
  injection heq with h1 h2
  injection h2 with h2 h3
  subst h1
  subst h2
  subst h3
  exact hfacts

theorem owc_effects' {fs fs' : FS} {p : ParentContext} {c c' : ChildContext}
    {r : Except OSErr Fd} (h : open_with_chmod fs p c = (r, c', fs')) :
    c'.name = c.name ∧ c'.is_dir = c.is_dir ∧
    (c.attempted_chmod = true → c'.attempted_chmod = true) ∧
    fs'.root = fs.root ∧
    ((∃ fd, r = .ok fd ∧ fd = fs.nextFd ∧ (∃ cid, fs'.fds = (fd, cid) :: fs.fds) ∧
        fs'.nextFd = fs.nextFd + 1 ∧
        ∃ Δ, fs'.trace = fs.trace ++ Δ ∧ opensOf Δ = [fd] ∧ closesOf Δ = [] ∧
          fchmodFds Δ = []) ∨
     (∃ e, r = .error e ∧ fs'.fds = fs.fds ∧ fs'.nextFd = fs.nextFd ∧
        ∃ Δ, fs'.trace = fs.trace ++ Δ ∧ opensOf Δ = [] ∧ closesOf Δ = [] ∧
          fchmodFds Δ = [])) := by
  obtain ⟨r2, c2, fs2, heq, hfacts⟩ := owc_effects fs p c
  rw [h] at heq
  injection heq with h1 h2
  injection h2 with h2 h3
  subst h1
  subst h2
  subst h3
  exact hfacts

theorem close_quietly_trace (fs : FS) (fd : Fd) :
    ∃ Δ, (close_quietly fs fd).trace = fs.trace ++ Δ := by
  unfold close_quietly
  rcases h : fs.fdNode fd with _ | id
  · rw [sysClose_none h]
    exact ⟨[], by simp⟩
  · rw [sysClose_some h]
    exact ⟨[.closed fd], rfl⟩

theorem deleteEntriesW_trace_append
    (rec : FS → ParentContext → ChildContext → Bool → Bool → Bool →
      Bool × ParentContext × ChildContext × FS)
    (hrec : ∀ fs p c f r v, ∃ Δ, (rec fs p c f r v).2.2.2.trace = fs.trace ++ Δ) :
    ∀ (entries : List (Name × Bool)) (fs : FS) (dirName : Path) (dirFd : Fd)
      (latch force verbose : Bool),
      ∃ Δ, (deleteEntriesW rec fs dirName dirFd latch entries force verbose).2.2.trace =
        fs.trace ++ Δ := by
  intro entries
  induction entries with
  | nil => exact fun fs _ _ _ _ _ => ⟨[], by simp [deleteEntriesW]⟩
  | cons e rest ih =>
    intro fs dirName dirFd latch force verbose
    rcases e with ⟨name, entryIsDir⟩
    unfold deleteEntriesW
    try dsimp only
    rcases hr : rec fs ⟨dirName, dirFd, latch⟩ ⟨name, entryIsDir, false⟩ force entryIsDir verbose
      with ⟨ok, dirCtx, cC, fs1⟩
    try dsimp only
    obtain ⟨Δ1, h1⟩ := hrec fs ⟨dirName, dirFd, latch⟩ ⟨name, entryIsDir, false⟩ force entryIsDir verbose
    rw [hr] at h1
    try dsimp only at h1
    rcases hrest : deleteEntriesW rec fs1 dirName dirFd (latch || dirCtx.attempted_chmod)
        rest force verbose with ⟨restOk, latch2, fs2⟩
    try dsimp only
    obtain ⟨Δ2, h2⟩ := ih fs1 dirName dirFd (latch || dirCtx.attempted_chmod) force verbose
    rw [hrest] at h2
    try dsimp only at h2
    exact ⟨Δ1 ++ Δ2, by rw [h2, h1, List.append_assoc]⟩

theorem cons_head_append {Δ1 X : List Event} {ev : Event}
    (h : ∃ Δt, Δ1 = ev :: Δt) : ∃ Δt, Δ1 ++ X = ev :: Δt := by
  obtain ⟨Δt, h⟩ := h
  exact ⟨Δt ++ X, by simp [h]⟩

theorem delete_path_trace_append :
    ∀ (fuel : Nat) (fs : FS) (p : ParentContext) (c : ChildContext)
      (force recursive verbose : Bool),
      ∃ Δ, (delete_path fuel fs p c force recursive verbose).2.2.2.trace =
        fs.trace ++ Δ ∧
        (0 < fuel → ∃ Δt, Δ = Event.tryDelete p.fd c.name :: Δt) := by
  intro fuel
  induction fuel with
  | zero =>
    exact fun fs _ _ _ _ _ => ⟨[], by simp [delete_path], fun h => absurd h (lt_irrefl 0)⟩
  | succ fuel ih =>
    intro fs p c force recursive verbose
    unfold delete_path
    rcases h1 : delete_single_with_chmod fs p c force verbose with ⟨r1, p1, fs1⟩
    obtain ⟨_, _, _, _, _, _, Δ1, htr1, _, _, _, _, hd1⟩ := dswc_effects' h1
    cases r1 with
    | ok u =>
      exact ⟨Δ1, htr1, fun _ => hd1⟩
    | error e =>
      try dsimp only
      by_cases hrec : (!recursive || !c.is_dir) = true
      · rw [if_pos hrec]
        exact ⟨Δ1 ++ [.logError "Failed to delete" (printable_path p1.name c.name) e],
          by simp [log_error, FS.emit, htr1], fun _ => cons_head_append hd1⟩
      · rw [if_neg hrec]
        rcases h2 : open_with_chmod fs1 p1 c with ⟨r2, c2, fs2⟩
        try dsimp only
        obtain ⟨_, _, _, _, howr⟩ := owc_effects' h2
        have htr2 : ∃ Δ, fs2.trace = fs1.trace ++ Δ := by
          rcases howr with ⟨fd, _, _, _, _, Δ2, h, _⟩ | ⟨e2, _, _, _, Δ2, h, _⟩
          · exact ⟨Δ2, h⟩
          · exact ⟨Δ2, h⟩
        obtain ⟨Δ2, htr2⟩ := htr2
        cases r2 with
        | error e2 =>
          cases e2 with
          | notFound =>
            cases force
            · exact ⟨Δ1 ++ (Δ2 ++ [.logError "Failed to open" (printable_path p1.name c2.name) .notFound]),
                by simp [log_error, FS.emit, htr2, htr1], fun _ => cons_head_append hd1⟩
            · exact ⟨Δ1 ++ Δ2, by simp [htr2, htr1], fun _ => cons_head_append hd1⟩
          | permission =>
            exact ⟨Δ1 ++ (Δ2 ++ [.logError "Failed to open" (printable_path p1.name c2.name) .permission]),
              by simp [log_error, FS.emit, htr2, htr1], fun _ => cons_head_append hd1⟩
          | notEmpty =>
            exact ⟨Δ1 ++ (Δ2 ++ [.logError "Failed to open" (printable_path p1.name c2.name) .notEmpty]),
              by simp [log_error, FS.emit, htr2, htr1], fun _ => cons_head_append hd1⟩
          | notADir =>
            exact ⟨Δ1 ++ (Δ2 ++ [.logError "Failed to open" (printable_path p1.name c2.name) .notADir]),
              by simp [log_error, FS.emit, htr2, htr1], fun _ => cons_head_append hd1⟩
          | isADir =>
            exact ⟨Δ1 ++ (Δ2 ++ [.logError "Failed to open" (printable_path p1.name c2.name) .isADir]),
              by simp [log_error, FS.emit, htr2, htr1], fun _ => cons_head_append hd1⟩
          | badFd =>
            exact ⟨Δ1 ++ (Δ2 ++ [.logError "Failed to open" (printable_path p1.name c2.name) .badFd]),
              by simp [log_error, FS.emit, htr2, htr1], fun _ => cons_head_append hd1⟩
          | ioError =>
            exact ⟨Δ1 ++ (Δ2 ++ [.logError "Failed to open" (printable_path p1.name c2.name) .ioError]),
              by simp [log_error, FS.emit, htr2, htr1], fun _ => cons_head_append hd1⟩
        | ok dirFd =>
          simp only []
          rcases h3 : sysScandir fs2 dirFd with ⟨r3, fs3⟩
          try rw [h3]
          try dsimp only
          have hfs3 : fs3 = fs2 := by
            have hs := sysScandir_snd fs2 dirFd
            rw [h3] at hs
            exact hs
          cases r3 with
          | error e3 =>
            try dsimp only
            obtain ⟨Δ4, htr4⟩ := close_quietly_trace
              (log_error fs3 "Failed to read" p1.name c2.name e3) dirFd
            exact ⟨Δ1 ++ (Δ2 ++ ([.logError "Failed to read" (printable_path p1.name c2.name) e3] ++ Δ4)),
              by rw [htr4]; simp [log_error, FS.emit, hfs3, htr2, htr1], fun _ => cons_head_append hd1⟩
          | ok entries =>
            try dsimp only
            rcases h5 : deleteEntriesW (delete_path fuel) fs3 (printable_path p1.name c2.name)
                dirFd c2.attempted_chmod entries force verbose with ⟨success, latch, fs5⟩
            try rw [h5]
            try dsimp only
            obtain ⟨Δ5, htr5⟩ := deleteEntriesW_trace_append (delete_path fuel)
              (fun a b d e f g => (ih a b d e f g).elim (fun Δ h => ⟨Δ, h.1⟩)) entries fs3
              (printable_path p1.name c2.name) dirFd c2.attempted_chmod force verbose
            rw [h5] at htr5
            try dsimp only at htr5
            obtain ⟨Δ6, htr6⟩ := close_quietly_trace fs5 dirFd
            rcases h7 : delete_single_with_chmod (close_quietly fs5 dirFd) p1
                ⟨c2.name, c2.is_dir, latch⟩ force verbose with ⟨r7, p7, fs7⟩
            try rw [h7]
            try dsimp only
            obtain ⟨_, _, _, _, _, _, Δ7, htr7, _⟩ := dswc_effects' h7
            cases r7 with
            | ok u =>
              exact ⟨Δ1 ++ (Δ2 ++ (Δ5 ++ (Δ6 ++ Δ7))),
                by simp [htr7, htr6, htr5, hfs3, htr2, htr1], fun _ => cons_head_append hd1⟩
            | error e7 =>
              exact ⟨Δ1 ++ (Δ2 ++ (Δ5 ++ (Δ6 ++ (Δ7 ++
                [.logError "Failed to delete" (printable_path p7.name c2.name) e7])))),
                by simp [log_error, FS.emit, htr7, htr6, htr5, hfs3, htr2, htr1], fun _ => cons_head_append hd1⟩

/-- The `for entry in dir` loop at positive fuel: its aggregate success flag
is the `List.all` of the individual per-entry results, every listed entry
contributes exactly one terminal result (a failing child does not stop the
iteration), and every listed entry has its own deletion attempted (a
`tryDelete` on the shared directory handle appears in the loop's trace
segment for each entry). -/
theorem deleteEntries_results (fuel : Nat) :
    ∀ (entries : List (Name × Bool)) (fs : FS) (dirName : Path) (dirFd : Fd)
      (latch force verbose : Bool),
      (deleteEntriesW (delete_path (fuel+1)) fs dirName dirFd latch entries force
          verbose).1 =
        (entryResults (fuel+1) fs dirName dirFd latch entries force verbose).all id ∧
      (entryResults (fuel+1) fs dirName dirFd latch entries force verbose).length =
        entries.length ∧
      ∃ Δ, (deleteEntriesW (delete_path (fuel+1)) fs dirName dirFd latch entries force
          verbose).2.2.trace = fs.trace ++ Δ ∧
        ∀ en ∈ entries, Event.tryDelete dirFd en.1 ∈ Δ := by
  intro entries
  induction entries with
  | nil =>
    intro fs dirName dirFd latch force verbose
    refine ⟨by simp [deleteEntriesW, entryResults], by simp [entryResults], [], ?_, ?_⟩
    · simp [deleteEntriesW]
    · simp
  | cons en rest ih =>
    intro fs dirName dirFd latch force verbose
    rcases en with ⟨name, entryIsDir⟩
    unfold deleteEntriesW entryResults
    simp only []
    rcases h : delete_path (fuel+1) fs ⟨dirName, dirFd, latch⟩ ⟨name, entryIsDir, false⟩
        force entryIsDir verbose with ⟨ok, dirCtx, cC, fs1⟩
    try rw [h]
    simp only []
    obtain ⟨Δ1, htr1, hhd1⟩ := delete_path_trace_append (fuel+1) fs
      ⟨dirName, dirFd, latch⟩ ⟨name, entryIsDir, false⟩ force entryIsDir verbose
    rw [h] at htr1
    obtain ⟨Δt, hΔt⟩ := hhd1 (Nat.succ_pos fuel)
    obtain ⟨hall, hlen, Δ2, htr2, hmem⟩ :=
      ih fs1 dirName dirFd (latch || dirCtx.attempted_chmod) force verbose
    rcases h2 : deleteEntriesW (delete_path (fuel+1)) fs1 dirName dirFd
        (latch || dirCtx.attempted_chmod) rest force verbose with ⟨restOk, latch2, fs2⟩
    try rw [h2]
    simp only []
    rw [h2] at hall htr2
    try dsimp only at hall htr2 htr1
    try simp only [] at hall htr2 htr1
    refine ⟨by simp [hall], by simp [hlen], Δ1 ++ Δ2, ?_, ?_⟩
    · simp [htr2, htr1]
    · intro en hen
      rcases List.mem_cons.mp hen with hen | hen
      · subst hen
        simp [hΔt]
      · have := hmem en hen
        simp [this]

/-- C1: for every directory node processed with recursion requested (initial
removal fails, the directory is opened and listed), all listed children are
fully processed first — each contributing exactly one terminal result and one
deletion attempt on the shared handle, a failing child not stopping the
iteration — the node's final result is the logical AND of all children's
results with the result of the final removal attempt, and the final removal
attempt (the `tryDelete` on the node's own parent handle) happens only after
all children's events. -/
theorem spec_c1_children_before_parent :
    ∀ (fuel : Nat) (fs : FS) (p : ParentContext) (c : ChildContext)
      (force verbose : Bool) (e : OSErr) (p1 : ParentContext) (fs1 : FS)
      (dirFd : Fd) (c2 : ChildContext) (fs2 : FS)
      (entries : List (Name × Bool)) (fs3 : FS),
      delete_single_with_chmod fs p c force verbose = (.error e, p1, fs1) →
      c.is_dir = true →
      open_with_chmod fs1 p1 c = (.ok dirFd, c2, fs2) →
      sysScandir fs2 dirFd = (.ok entries, fs3) →
      ∃ success latch fs5,
        deleteEntries (fuel+1) fs3 (printable_path p1.name c2.name) dirFd
          c2.attempted_chmod entries force verbose = (success, latch, fs5) ∧
        success = (entryResults (fuel+1) fs3 (printable_path p1.name c2.name) dirFd
          c2.attempted_chmod entries force verbose).all id ∧
        (entryResults (fuel+1) fs3 (printable_path p1.name c2.name) dirFd
          c2.attempted_chmod entries force verbose).length = entries.length ∧
        ∃ r7 p7 fs7,
          delete_single_with_chmod (close_quietly fs5 dirFd) p1
            ⟨c2.name, c2.is_dir, latch⟩ force verbose = (r7, p7, fs7) ∧
          (delete_path (fuel+1+1) fs p c force true verbose).1 =
            (success && isOk r7) ∧
          ∃ Δkids Δclose Δtail,
            fs5.trace = fs3.trace ++ Δkids ∧
            (∀ en ∈ entries, Event.tryDelete dirFd en.1 ∈ Δkids) ∧
            (delete_path (fuel+1+1) fs p c force true verbose).2.2.2.trace =
              fs3.trace ++ Δkids ++ Δclose ++ Event.tryDelete p.fd c.name :: Δtail := by
  intro fuel fs p c force verbose e p1 fs1 dirFd c2 fs2 entries fs3 h1 hcd h2 h3
  obtain ⟨_, hp1fd, _⟩ := dswc_effects' h1
  obtain ⟨hc2name, _⟩ := owc_effects' h2
  rcases h5 : deleteEntriesW (delete_path (fuel+1)) fs3 (printable_path p1.name c2.name)
      dirFd c2.attempted_chmod entries force verbose with ⟨success, latch, fs5⟩
  obtain ⟨hall, hlen, Δkids, htrk, hmem⟩ := deleteEntries_results fuel entries fs3
    (printable_path p1.name c2.name) dirFd c2.attempted_chmod force verbose
  rw [h5] at hall htrk
  try dsimp only at hall htrk
  try simp only [] at hall htrk
  obtain ⟨Δclose, htrc⟩ := close_quietly_trace fs5 dirFd
  rcases h7 : delete_single_with_chmod (close_quietly fs5 dirFd) p1
      ⟨c2.name, c2.is_dir, latch⟩ force verbose with ⟨r7, p7, fs7⟩
  obtain ⟨_, _, _, _, _, _, Δ7, htr7, _, _, _, _, Δt7, hd7⟩ := dswc_effects' h7
  refine ⟨success, latch, fs5, h5, hall, hlen, r7, p7, fs7, h7, ?_, ?_⟩
  · unfold delete_path
    rw [h1]
    simp only []
    rw [if_neg (by simp [hcd] : ¬((!true || !c.is_dir) = true))]
    rw [h2]
    simp only []
    rw [h3]
    simp only []
    rw [h5]
    simp only []
    rw [h7]
    cases r7 with
    | ok u => simp [isOk]
    | error e7 => simp [isOk]
  · unfold delete_path
    rw [h1]
    simp only []
    rw [if_neg (by simp [hcd] : ¬((!true || !c.is_dir) = true))]
    rw [h2]
    simp only []
    rw [h3]
    simp only []
    rw [h5]
    simp only []
    rw [h7]
    cases r7 with
    | ok u =>
      refine ⟨Δkids, Δclose, Δt7, htrk, hmem, ?_⟩
      simp only []
      rw [htr7, htrc, htrk, hd7, hp1fd, hc2name]
      try simp
    | error e7 =>
      refine ⟨Δkids, Δclose, Δt7 ++
        [Event.logError "Failed to delete" (printable_path p7.name c2.name) e7],
        htrk, hmem, ?_⟩
      simp only []
      rw [show (log_error fs7 "Failed to delete" p7.name c2.name e7).trace =
        fs7.trace ++ [Event.logError "Failed to delete" (printable_path p7.name c2.name) e7]
        from rfl]
      rw [htr7, htrc, htrk, hd7, hp1fd, hc2name]
      try simp

theorem spec_c1_witness :
    delete_single_with_chmod treeFS ⟨[], 9, false⟩ ⟨"d", true, false⟩ false false =
      (.error .notEmpty, c1p1, c1fs1) ∧
    open_with_chmod c1fs1 c1p1 ⟨"d", true, false⟩ = (.ok 10, c1c2, c1fs2) ∧
    sysScandir c1fs2 10 = (.ok [("f", false), ("sub", true)], c1fs3) ∧
    (∃ success latch fs5,
      deleteEntries 1 c1fs3 (printable_path c1p1.name c1c2.name) 10
        c1c2.attempted_chmod [("f", false), ("sub", true)] false false =
        (success, latch, fs5) ∧
      success = (entryResults 1 c1fs3 (printable_path c1p1.name c1c2.name) 10
        c1c2.attempted_chmod [("f", false), ("sub", true)] false false).all id ∧
      (entryResults 1 c1fs3 (printable_path c1p1.name c1c2.name) 10
        c1c2.attempted_chmod [("f", false), ("sub", true)] false false).length =
        [("f", false), ("sub", true)].length ∧
      ∃ r7 p7 fs7,
        delete_single_with_chmod (close_quietly fs5 10) c1p1
          ⟨c1c2.name, c1c2.is_dir, latch⟩ false false = (r7, p7, fs7) ∧
        (delete_path 2 treeFS ⟨[], 9, false⟩ ⟨"d", true, false⟩ false true false).1 =
          (success && isOk r7) ∧
        ∃ Δkids Δclose Δtail,
          fs5.trace = c1fs3.trace ++ Δkids ∧
          (∀ en ∈ [("f", false), ("sub", true)], Event.tryDelete 10 en.1 ∈ Δkids) ∧
          (delete_path 2 treeFS ⟨[], 9, false⟩ ⟨"d", true, false⟩
              false true false).2.2.2.trace =
            c1fs3.trace ++ Δkids ++ Δclose ++ Event.tryDelete 9 "d" :: Δtail) :=
  ⟨rfl, rfl, rfl,
    spec_c1_children_before_parent 0 treeFS ⟨[], 9, false⟩ ⟨"d", true, false⟩ false false
      .notEmpty c1p1 c1fs1 10 c1c2 c1fs2 [("f", false), ("sub", true)] c1fs3
      rfl rfl rfl rfl⟩

theorem opensOf_append (a b : List Event) :
    opensOf (a ++ b) = opensOf a ++ opensOf b := by
  simp [opensOf]

theorem closesOf_append (a b : List Event) :
    closesOf (a ++ b) = closesOf a ++ closesOf b := by
  simp [closesOf]

theorem fchmodFds_append (a b : List Event) :
    fchmodFds (a ++ b) = fchmodFds a ++ fchmodFds b := by
  simp [fchmodFds]

@[simp] theorem opensOf_nil : opensOf [] = [] := rfl

@[simp] theorem closesOf_nil : closesOf [] = [] := rfl

@[simp] theorem fchmodFds_nil : fchmodFds [] = [] := rfl

@[simp] theorem opensOf_cons_tryOpen (fd : Fd) (name : Name) (l : List Event) :
    opensOf (Event.tryOpen fd name :: l) = opensOf l := rfl

@[simp] theorem opensOf_cons_opened (fd : Fd) (l : List Event) :
    opensOf (Event.opened fd :: l) = fd :: opensOf l := rfl

@[simp] theorem opensOf_cons_closed (fd : Fd) (l : List Event) :
    opensOf (Event.closed fd :: l) = opensOf l := rfl

@[simp] theorem opensOf_cons_tryDelete (fd : Fd) (name : Name) (l : List Event) :
    opensOf (Event.tryDelete fd name :: l) = opensOf l := rfl

@[simp] theorem opensOf_cons_removed (fd : Fd) (name : Name) (l : List Event) :
    opensOf (Event.removed fd name :: l) = opensOf l := rfl

@[simp] theorem opensOf_cons_fchmodded (fd : Fd) (m : Nat) (l : List Event) :
    opensOf (Event.fchmodded fd m :: l) = opensOf l := rfl

@[simp] theorem opensOf_cons_chmodded (fd : Fd) (name : Name) (m : Nat) (l : List Event) :
    opensOf (Event.chmodded fd name m :: l) = opensOf l := rfl

@[simp] theorem opensOf_cons_logError (msg : String) (pa : Path) (e : OSErr) (l : List Event) :
    opensOf (Event.logError msg pa e :: l) = opensOf l := rfl

@[simp] theorem opensOf_cons_logPath (pa : Path) (l : List Event) :
    opensOf (Event.logPath pa :: l) = opensOf l := rfl

@[simp] theorem closesOf_cons_tryOpen (fd : Fd) (name : Name) (l : List Event) :
    closesOf (Event.tryOpen fd name :: l) = closesOf l := rfl

@[simp] theorem closesOf_cons_opened (fd : Fd) (l : List Event) :
    closesOf (Event.opened fd :: l) = closesOf l := rfl

@[simp] theorem closesOf_cons_closed (fd : Fd) (l : List Event) :
    closesOf (Event.closed fd :: l) = fd :: closesOf l := rfl

@[simp] theorem closesOf_cons_tryDelete (fd : Fd) (name : Name) (l : List Event) :
    closesOf (Event.tryDelete fd name :: l) = closesOf l := rfl

@[simp] theorem closesOf_cons_removed (fd : Fd) (name : Name) (l : List Event) :
    closesOf (Event.removed fd name :: l) = closesOf l := rfl

@[simp] theorem closesOf_cons_fchmodded (fd : Fd) (m : Nat) (l : List Event) :
    closesOf (Event.fchmodded fd m :: l) = closesOf l := rfl

@[simp] theorem closesOf_cons_chmodded (fd : Fd) (name : Name) (m : Nat) (l : List Event) :
    closesOf (Event.chmodded fd name m :: l) = closesOf l := rfl

@[simp] theorem closesOf_cons_logError (msg : String) (pa : Path) (e : OSErr) (l : List Event) :
    closesOf (Event.logError msg pa e :: l) = closesOf l := rfl

@[simp] theorem closesOf_cons_logPath (pa : Path) (l : List Event) :
    closesOf (Event.logPath pa :: l) = closesOf l := rfl

@[simp] theorem fchmodFds_cons_tryOpen (fd : Fd) (name : Name) (l : List Event) :
    fchmodFds (Event.tryOpen fd name :: l) = fchmodFds l := rfl

@[simp] theorem fchmodFds_cons_opened (fd : Fd) (l : List Event) :
    fchmodFds (Event.opened fd :: l) = fchmodFds l := rfl

@[simp] theorem fchmodFds_cons_closed (fd : Fd) (l : List Event) :
    fchmodFds (Event.closed fd :: l) = fchmodFds l := rfl

@[simp] theorem fchmodFds_cons_tryDelete (fd : Fd) (name : Name) (l : List Event) :
    fchmodFds (Event.tryDelete fd name :: l) = fchmodFds l := rfl

@[simp] theorem fchmodFds_cons_removed (fd : Fd) (name : Name) (l : List Event) :
    fchmodFds (Event.removed fd name :: l) = fchmodFds l := rfl

@[simp] theorem fchmodFds_cons_fchmodded (fd : Fd) (m : Nat) (l : List Event) :
    fchmodFds (Event.fchmodded fd m :: l) = fd :: fchmodFds l := rfl

@[simp] theorem fchmodFds_cons_chmodded (fd : Fd) (name : Name) (m : Nat) (l : List Event) :
    fchmodFds (Event.chmodded fd name m :: l) = fchmodFds l := rfl

@[simp] theorem fchmodFds_cons_logError (msg : String) (pa : Path) (e : OSErr) (l : List Event) :
    fchmodFds (Event.logError msg pa e :: l) = fchmodFds l := rfl

@[simp] theorem fchmodFds_cons_logPath (pa : Path) (l : List Event) :
    fchmodFds (Event.logPath pa :: l) = fchmodFds l := rfl

theorem FdFacts_empty {lo hi : Fd} {Δ : List Event}
    (ho : opensOf Δ = []) (hc : closesOf Δ = []) : FdFacts lo hi Δ := by
  refine ⟨?_, ?_, ?_⟩ <;> simp [ho, hc]

theorem FdFacts_append {lo mid hi : Fd} {Δa Δb : List Event}
    (ha : FdFacts lo mid Δa) (hb : FdFacts mid hi Δb)
    (hlm : lo ≤ mid) (hmh : mid ≤ hi) : FdFacts lo hi (Δa ++ Δb) := by
  obtain ⟨ha1, ha2, ha3⟩ := ha
  obtain ⟨hb1, hb2, hb3⟩ := hb
  refine ⟨?_, ?_, ?_⟩
  · intro fd hfd
    rw [opensOf_append] at hfd
    rcases List.mem_append.mp hfd with h | h
    · exact ⟨(ha1 fd h).1, lt_of_lt_of_le (ha1 fd h).2 hmh⟩
    · exact ⟨le_trans hlm (hb1 fd h).1, (hb1 fd h).2⟩
  · rw [opensOf_append]
    refine List.Nodup.append ha2 hb2 ?_
    intro fd hfa hfb
    exact absurd (hb1 fd hfb).1 (not_le.mpr (ha1 fd hfa).2)
  · intro fd
    rw [opensOf_append, closesOf_append, List.count_append, List.count_append,
      ha3, hb3]

theorem ChmodFacts_empty {pfd lo : Fd} {la lb : Bool} {Δ : List Event}
    (h : fchmodFds Δ = []) : ChmodFacts pfd lo la lb Δ := by
  refine ⟨?_, ?_, ?_, ?_⟩ <;> simp [h]

theorem ChmodFacts_far {pfd lo : Fd} {la lb : Bool} {Δ : List Event}
    (h : ∀ fd ∈ fchmodFds Δ, lo ≤ fd) (hp : pfd < lo) :
    ChmodFacts pfd lo la lb Δ := by
  have hcnt : (fchmodFds Δ).count pfd = 0 :=
    List.count_eq_zero.mpr (fun hm => absurd (h _ hm) (not_le.mpr hp))
  refine ⟨fun fd hm => Or.inr (h fd hm), fun _ => hcnt, ?_, ?_⟩
  · rw [hcnt]
    exact Nat.zero_le 1
  · intro h0
    rw [hcnt] at h0
    exact absurd h0 (lt_irrefl 0)

theorem ChmodFacts_weakenOut {pfd lo : Fd} {la lb lb2 : Bool} {Δ : List Event}
    (h : ChmodFacts pfd lo la lb Δ) (himp : lb = true → lb2 = true) :
    ChmodFacts pfd lo la lb2 Δ :=
  ⟨h.1, h.2.1, h.2.2.1, fun h0 => himp (h.2.2.2 h0)⟩

theorem ChmodFacts_append {pfd lo mid : Fd} {la lb lc : Bool} {Δa Δb : List Event}
    (ha : ChmodFacts pfd lo la lb Δa) (hb : ChmodFacts pfd mid lb lc Δb)
    (hlm : lo ≤ mid) (hmono0 : la = true → lb = true)
    (hmono : lb = true → lc = true) :
    ChmodFacts pfd lo la lc (Δa ++ Δb) := by
  obtain ⟨ha1, ha2, ha3, ha4⟩ := ha
  obtain ⟨hb1, hb2, hb3, hb4⟩ := hb
  refine ⟨?_, ?_, ?_, ?_⟩
  · intro fd hfd
    rw [fchmodFds_append] at hfd
    rcases List.mem_append.mp hfd with h | h
    · exact ha1 fd h
    · rcases hb1 fd h with h' | h'
      · exact Or.inl h'
      · exact Or.inr (le_trans hlm h')
  · intro hla
    rw [fchmodFds_append, List.count_append, ha2 hla, hb2 (hmono0 hla)]
  · by_cases hca : (fchmodFds Δa).count pfd = 0
    · rw [fchmodFds_append, List.count_append]
      omega
    · have hpos : 0 < (fchmodFds Δa).count pfd := Nat.pos_of_ne_zero hca
      have hcb := hb2 (ha4 hpos)
      rw [fchmodFds_append, List.count_append]
      omega
  · intro h0
    rw [fchmodFds_append, List.count_append] at h0
    by_cases hcb : 0 < (fchmodFds Δb).count pfd
    · exact hb4 hcb
    · have : 0 < (fchmodFds Δa).count pfd := by omega
      exact hmono (ha4 this)

theorem chmodFacts_of_latch {pfd lo : Fd} {la lb : Bool} {Δ : List Event}
    (h1 : la = true → fchmodFds Δ = [])
    (h2 : fchmodFds Δ = [] ∨ (fchmodFds Δ = [pfd] ∧ lb = true)) :
    ChmodFacts pfd lo la lb Δ := by
  rcases h2 with h2 | ⟨h2, hlb⟩
  · exact ChmodFacts_empty h2
  · refine ⟨?_, ?_, ?_, ?_⟩
    · intro fd hm
      rw [h2] at hm
      exact Or.inl (List.mem_singleton.mp hm)
    · intro hla
      rw [h1 hla] at h2
      exact absurd h2.symm (List.cons_ne_nil pfd [])
    · rw [h2]
      simp
    · exact fun _ => hlb

theorem close_quietly_cases (fs : FS) (fd : Fd) :
    close_quietly fs fd = fs ∨
    close_quietly fs fd = { fs with fds := fs.fds.filter (fun q => q.1 ≠ fd),
                                    trace := fs.trace ++ [.closed fd] } := by
  unfold close_quietly sysClose
  rcases h : fs.fdNode fd with _ | id
  · exact Or.inl rfl
  · exact Or.inr rfl

/-- Effects of the entries loop, abstracted over the recursive call: latch
monotonicity, descriptor-table restoration, allocation-counter monotonicity,
and the descriptor/repair bookkeeping of the trace segment. -/
theorem deleteEntriesW_effects
    (rec : FS → ParentContext → ChildContext → Bool → Bool → Bool →
      Bool × ParentContext × ChildContext × FS)
    (hrec : ∀ (fs : FS) (p : ParentContext) (c : ChildContext)
        (force recursive verbose : Bool),
      p.fd < fs.nextFd → (∀ q ∈ fs.fds, q.1 < fs.nextFd) →
      (p.attempted_chmod = true →
        ((rec fs p c force recursive verbose).2.1).attempted_chmod = true) ∧
      (rec fs p c force recursive verbose).2.2.2.fds = fs.fds ∧
      fs.nextFd ≤ (rec fs p c force recursive verbose).2.2.2.nextFd ∧
      ∃ Δ, (rec fs p c force recursive verbose).2.2.2.trace = fs.trace ++ Δ ∧
        FdFacts fs.nextFd (rec fs p c force recursive verbose).2.2.2.nextFd Δ ∧
        ChmodFacts p.fd fs.nextFd p.attempted_chmod
          ((rec fs p c force recursive verbose).2.1).attempted_chmod Δ) :
    ∀ (entries : List (Name × Bool)) (fs : FS) (dirName : Path) (dirFd : Fd)
      (latch force verbose : Bool),
      dirFd < fs.nextFd → (∀ q ∈ fs.fds, q.1 < fs.nextFd) →
      (latch = true →
        (deleteEntriesW rec fs dirName dirFd latch entries force verbose).2.1 = true) ∧
      (deleteEntriesW rec fs dirName dirFd latch entries force verbose).2.2.fds =
        fs.fds ∧
      fs.nextFd ≤
        (deleteEntriesW rec fs dirName dirFd latch entries force verbose).2.2.nextFd ∧
      ∃ Δ, (deleteEntriesW rec fs dirName dirFd latch entries force verbose).2.2.trace =
          fs.trace ++ Δ ∧
        FdFacts fs.nextFd
          (deleteEntriesW rec fs dirName dirFd latch entries force verbose).2.2.nextFd
          Δ ∧
        ChmodFacts dirFd fs.nextFd latch
          (deleteEntriesW rec fs dirName dirFd latch entries force verbose).2.1 Δ := by
  intro entries
  induction entries with
  | nil =>
    intro fs dirName dirFd latch force verbose hfd hbound
    refine ⟨fun h => h, rfl, le_refl _, [], by simp [deleteEntriesW], ?_, ?_⟩
    · exact FdFacts_empty (by simp [opensOf]) (by simp [closesOf])
    · exact ChmodFacts_empty (by simp [fchmodFds])
  | cons en rest ih =>
    intro fs dirName dirFd latch force verbose hfd hbound
    rcases en with ⟨name, entryIsDir⟩
    unfold deleteEntriesW
    simp only []
    rcases hr : rec fs ⟨dirName, dirFd, latch⟩ ⟨name, entryIsDir, false⟩ force
        entryIsDir verbose with ⟨ok, dirCtx, cC, fs1⟩
    try rw [hr]
    simp only []
    obtain ⟨hmono1, hfds1, hnext1, Δ1, htr1, hF1, hC1⟩ :=
      hrec fs ⟨dirName, dirFd, latch⟩ ⟨name, entryIsDir, false⟩ force entryIsDir
        verbose hfd hbound
    rw [hr] at hmono1 hfds1 hnext1 htr1 hF1 hC1
    try dsimp only at hmono1 hfds1 hnext1 htr1 hF1 hC1
    rcases hrest : deleteEntriesW rec fs1 dirName dirFd
        (latch || dirCtx.attempted_chmod) rest force verbose with ⟨restOk, latch2, fs2⟩
    try rw [hrest]
    simp only []
    obtain ⟨hmono2, hfds2, hnext2, Δ2, htr2, hF2, hC2⟩ :=
      ih fs1 dirName dirFd (latch || dirCtx.attempted_chmod) force verbose
        (lt_of_lt_of_le hfd hnext1)
        (by rw [hfds1]; exact fun q hq => lt_of_lt_of_le (hbound q hq) hnext1)
    rw [hrest] at hmono2 hfds2 hnext2 htr2 hF2 hC2
    try dsimp only at hmono2 hfds2 hnext2 htr2 hF2 hC2
    refine ⟨?_, ?_, ?_, Δ1 ++ Δ2, ?_, ?_, ?_⟩
    · intro hl
      exact hmono2 (by simp [hl])
    · rw [hfds2, hfds1]
    · exact le_trans hnext1 hnext2
    · rw [htr2, htr1, List.append_assoc]
    · exact FdFacts_append hF1 hF2 hnext1 hnext2
    · exact ChmodFacts_append (ChmodFacts_weakenOut hC1 (fun h => by simp [h]))
        hC2 hnext1 (fun h => by simp [h]) hmono2

theorem FdFacts_ext {lo hi : Fd} {Δ Δh : List Event}
    (ho : opensOf Δh = opensOf Δ) (hc : closesOf Δh = closesOf Δ)
    (h : FdFacts lo hi Δ) : FdFacts lo hi Δh := by
  unfold FdFacts at h ⊢
  rw [ho, hc]
  exact h

theorem ChmodFacts_ext {pfd lo : Fd} {la lb : Bool} {Δ Δh : List Event}
    (hf : fchmodFds Δh = fchmodFds Δ)
    (h : ChmodFacts pfd lo la lb Δ) : ChmodFacts pfd lo la lb Δh := by
  unfold ChmodFacts at h ⊢
  rw [hf]
  exact h

theorem filter_ne_of_bound {l : List (Fd × NodeId)} {fd bound : Fd}
    (hb : ∀ q ∈ l, q.1 < bound) (hfd : bound ≤ fd) :
    l.filter (fun q => q.1 ≠ fd) = l := by
  apply List.filter_eq_self.mpr
  intro q hq
  simp only [ne_eq, decide_eq_true_eq]
  exact Nat.ne_of_lt (lt_of_lt_of_le (hb q hq) hfd)

theorem close_quietly_some {fs : FS} {fd : Fd} {id : NodeId}
    (h : fs.fdNode fd = some id) :
    close_quietly fs fd = { fs with fds := fs.fds.filter (fun q => q.1 ≠ fd),
                                    trace := fs.trace ++ [.closed fd] } := by
  unfold close_quietly
  rw [sysClose_some h]

/-- The full effects induction for `delete_path`: latch monotonicity of both
contexts, restoration of the descriptor table, monotone descriptor
allocation, and the descriptor/repair bookkeeping of the run's trace
segment. -/
theorem delete_path_effects :
    ∀ (fuel : Nat) (fs : FS) (p : ParentContext) (c : ChildContext)
      (force recursive verbose : Bool),
      p.fd < fs.nextFd → (∀ q ∈ fs.fds, q.1 < fs.nextFd) →
      (p.attempted_chmod = true →
        ((delete_path fuel fs p c force recursive verbose).2.1).attempted_chmod =
          true) ∧
      (c.attempted_chmod = true →
        ((delete_path fuel fs p c force recursive verbose).2.2.1).attempted_chmod =
          true) ∧
      (delete_path fuel fs p c force recursive verbose).2.2.2.fds = fs.fds ∧
      fs.nextFd ≤ (delete_path fuel fs p c force recursive verbose).2.2.2.nextFd ∧
      ∃ Δ, (delete_path fuel fs p c force recursive verbose).2.2.2.trace =
          fs.trace ++ Δ ∧
        FdFacts fs.nextFd
          (delete_path fuel fs p c force recursive verbose).2.2.2.nextFd Δ ∧
        ChmodFacts p.fd fs.nextFd p.attempted_chmod
          ((delete_path fuel fs p c force recursive verbose).2.1).attempted_chmod
          Δ := by
  intro fuel
  induction fuel with
  | zero =>
    intro fs p c force recursive verbose hplt hbound
    refine ⟨fun h => h, fun h => h, rfl, le_refl _, [], by simp [delete_path], ?_, ?_⟩
    · exact FdFacts_empty (by simp [opensOf]) (by simp [closesOf])
    · exact ChmodFacts_empty (by simp [fchmodFds])
  | succ fuel ih =>
    intro fs p c force recursive verbose hplt hbound
    unfold delete_path
    rcases h1 : delete_single_with_chmod fs p c force verbose with ⟨r1, p1, fs1⟩
    obtain ⟨hp1name, hp1fd, hp1mono, hfds1, hnext1, hroot1, Δ1, htr1, hop1, hcl1,
      hfc1a, hfc1b, hd1⟩ := dswc_effects' h1
    have hC1 : ChmodFacts p.fd fs.nextFd p.attempted_chmod p1.attempted_chmod Δ1 :=
      chmodFacts_of_latch hfc1a hfc1b
    have hbound1 : ∀ q ∈ fs1.fds, q.1 < fs.nextFd := by
      rw [hfds1]
      exact hbound
    cases r1 with
    | ok u =>
      try dsimp only
      refine ⟨hp1mono, fun h => h, hfds1, le_of_eq hnext1.symm, Δ1, htr1, ?_, ?_⟩
      · exact FdFacts_empty hop1 hcl1
      · exact hC1
    | error e =>
      try dsimp only
      by_cases hrecb : (!recursive || !c.is_dir) = true
      · rw [if_pos hrecb]
        try dsimp only
        refine ⟨hp1mono, fun h => h, ?_, ?_,
          Δ1 ++ [.logError "Failed to delete" (printable_path p1.name c.name) e],
          ?_, ?_, ?_⟩
        · simp [log_error, FS.emit, hfds1]
        · simp [log_error, FS.emit, hnext1]
        · simp [log_error, FS.emit, htr1]
        · exact FdFacts_empty (by simp [opensOf_append, hop1])
            (by simp [closesOf_append, hcl1])
        · exact ChmodFacts_ext (by simp [fchmodFds_append]) hC1
      · rw [if_neg hrecb]
        rcases h2 : open_with_chmod fs1 p1 c with ⟨r2, c2, fs2⟩
        try dsimp only
        obtain ⟨hc2name, hc2dir, hc2mono, hroot2, howr⟩ := owc_effects' h2
        cases r2 with
        | error e2 =>
          rcases howr with ⟨fd0, hcon, _⟩ |
            ⟨e2x, heq, hfds2, hnext2, Δ2, htr2, hop2, hcl2, hfc2⟩
          · exact absurd hcon (by simp)
          have hlog : ∀ (msg : String) (ee : OSErr),
              (p.attempted_chmod = true → p1.attempted_chmod = true) ∧
              (c.attempted_chmod = true → c2.attempted_chmod = true) ∧
              (log_error fs2 msg p1.name c2.name ee).fds = fs.fds ∧
              fs.nextFd ≤ (log_error fs2 msg p1.name c2.name ee).nextFd ∧
              ∃ Δ, (log_error fs2 msg p1.name c2.name ee).trace = fs.trace ++ Δ ∧
                FdFacts fs.nextFd (log_error fs2 msg p1.name c2.name ee).nextFd Δ ∧
                ChmodFacts p.fd fs.nextFd p.attempted_chmod p1.attempted_chmod Δ := by
            intro msg ee
            refine ⟨hp1mono, hc2mono, ?_, ?_,
              Δ1 ++ Δ2 ++ [.logError msg (printable_path p1.name c2.name) ee],
              ?_, ?_, ?_⟩
            · simp [log_error, FS.emit, hfds2, hfds1]
            · simp [log_error, FS.emit, hnext2, hnext1]
            · simp [log_error, FS.emit, htr2, htr1]
            · exact FdFacts_empty (by simp [opensOf_append, hop1, hop2])
                (by simp [closesOf_append, hcl1, hcl2])
            · exact ChmodFacts_ext (by simp [fchmodFds_append, hfc2]) hC1
          cases e2 with
          | notFound =>
            cases force
            · try dsimp only
              rw [if_neg (by decide : ¬(false = true))]
              exact hlog "Failed to open" .notFound
            · try dsimp only
              rw [if_pos rfl]
              refine ⟨hp1mono, hc2mono, ?_, ?_, Δ1 ++ Δ2, ?_, ?_, ?_⟩
              · rw [hfds2, hfds1]
              · rw [hnext2, hnext1]
              · rw [htr2, htr1, List.append_assoc]
              · exact FdFacts_empty (by simp [opensOf_append, hop1, hop2])
                  (by simp [closesOf_append, hcl1, hcl2])
              · exact ChmodFacts_ext (by simp [fchmodFds_append, hfc2]) hC1
          | permission => exact hlog "Failed to open" .permission
          | notEmpty => exact hlog "Failed to open" .notEmpty
          | notADir => exact hlog "Failed to open" .notADir
          | isADir => exact hlog "Failed to open" .isADir
          | badFd => exact hlog "Failed to open" .badFd
          | ioError => exact hlog "Failed to open" .ioError
        | ok dirFd =>
          rcases howr with
            ⟨fd0, hfdeq, hfd0, ⟨cid, hfds2c⟩, hnext2, Δ2, htr2, hop2, hcl2, hfc2⟩ |
            ⟨e2x, hcon, _⟩
          swap
          · exact absurd hcon (by simp)
          injection hfdeq with hfd0eq
          subst hfd0eq
          simp only []
          rcases h3 : sysScandir fs2 dirFd with ⟨r3, fs3⟩
          try rw [h3]
          try dsimp only
          have hfs3 : fs3 = fs2 := by
            have hs := sysScandir_snd fs2 dirFd
            rw [h3] at hs
            exact hs
          subst hfs3
          cases r3 with
          | error e3 =>
            try dsimp only
            have hfdn : FS.fdNode
                (log_error fs3 "Failed to read" p1.name c2.name e3) dirFd =
                some cid := by
              simp [log_error, FS.emit, FS.fdNode, hfds2c, List.lookup]
            have hclose := close_quietly_some hfdn
            refine ⟨hp1mono, hc2mono, ?_, ?_,
              Δ1 ++ Δ2 ++
                [.logError "Failed to read" (printable_path p1.name c2.name) e3] ++
                [.closed dirFd], ?_, ?_, ?_⟩
            · rw [hclose]
              show (log_error fs3 "Failed to read" p1.name c2.name e3).fds.filter
                (fun q => q.1 ≠ dirFd) = fs.fds
              have : (log_error fs3 "Failed to read" p1.name c2.name e3).fds =
                  fs3.fds := rfl
              rw [this, hfds2c]
              simp only [List.filter_cons]
              rw [if_neg (by simp)]
              have hle : fs.nextFd ≤ dirFd := le_of_eq ((hfd0.trans hnext1).symm)
              rw [filter_ne_of_bound hbound1 hle, hfds1]
            · rw [hclose]
              show fs.nextFd ≤
                (log_error fs3 "Failed to read" p1.name c2.name e3).nextFd
              have : (log_error fs3 "Failed to read" p1.name c2.name e3).nextFd =
                  fs3.nextFd := rfl
              rw [this]
              unfold Fd at *
              omega
            · rw [hclose]
              show (log_error fs3 "Failed to read" p1.name c2.name e3).trace ++
                [Event.closed dirFd] = _
              have : (log_error fs3 "Failed to read" p1.name c2.name e3).trace =
                  fs3.trace ++
                  [Event.logError "Failed to read" (printable_path p1.name c2.name)
                    e3] := rfl
              rw [this, htr2, htr1]
              simp [List.append_assoc]
            · have hnxc : (close_quietly
                  (log_error fs3 "Failed to read" p1.name c2.name e3) dirFd).nextFd =
                  fs3.nextFd := by
                rw [hclose]
                rfl
              rw [hnxc]
              refine ⟨?_, ?_, ?_⟩
              · rw [show opensOf (Δ1 ++ Δ2 ++
                  [Event.logError "Failed to read" (printable_path p1.name c2.name)
                    e3] ++ [Event.closed dirFd]) = [dirFd] from by
                  simp [opensOf_append, hop1, hop2]]
                intro fd hfd
                rw [List.mem_singleton] at hfd
                subst hfd
                unfold Fd at *
                omega
              · rw [show opensOf (Δ1 ++ Δ2 ++
                  [Event.logError "Failed to read" (printable_path p1.name c2.name)
                    e3] ++ [Event.closed dirFd]) = [dirFd] from by
                  simp [opensOf_append, hop1, hop2]]
                exact List.nodup_singleton dirFd
              · intro fd
                rw [show opensOf (Δ1 ++ Δ2 ++
                  [Event.logError "Failed to read" (printable_path p1.name c2.name)
                    e3] ++ [Event.closed dirFd]) = [dirFd] from by
                  simp [opensOf_append, hop1, hop2]]
                rw [show closesOf (Δ1 ++ Δ2 ++
                  [Event.logError "Failed to read" (printable_path p1.name c2.name)
                    e3] ++ [Event.closed dirFd]) = [dirFd] from by
                  simp [closesOf_append, hcl1, hcl2]]
            · exact ChmodFacts_ext (by simp [fchmodFds_append, hfc2]) hC1
          | ok entries =>
            try dsimp only
            have hdirlt2 : dirFd < fs3.nextFd := by unfold Fd at *; omega
            have hbound2 : ∀ q ∈ fs3.fds, q.1 < fs3.nextFd := by
              rw [hfds2c]
              intro q hq
              rcases List.mem_cons.mp hq with h | h
              · rw [h]
                exact hdirlt2
              · exact lt_of_lt_of_le (hbound1 q h) (by unfold Fd at *; omega)
            obtain ⟨hmono5, hfds5, hnext5, Δ5, htr5, hF5, hC5⟩ :=
              deleteEntriesW_effects (delete_path fuel)
                (fun fsx px cx fx rx vx hx bx =>
                  ⟨(ih fsx px cx fx rx vx hx bx).1,
                   (ih fsx px cx fx rx vx hx bx).2.2.1,
                   (ih fsx px cx fx rx vx hx bx).2.2.2.1,
                   (ih fsx px cx fx rx vx hx bx).2.2.2.2⟩)
                entries fs3 (printable_path p1.name c2.name) dirFd
                c2.attempted_chmod force verbose hdirlt2 hbound2
            rcases h5 : deleteEntriesW (delete_path fuel) fs3
                (printable_path p1.name c2.name) dirFd c2.attempted_chmod entries
                force verbose with ⟨success, latch, fs5⟩
            try rw [h5]
            try dsimp only
            rw [h5] at hmono5 hfds5 hnext5 htr5 hF5 hC5
            try dsimp only at hmono5 hfds5 hnext5 htr5 hF5 hC5
            have hfdn5 : FS.fdNode fs5 dirFd = some cid := by
              rw [FS.fdNode, hfds5, hfds2c]
              simp [List.lookup]
            have hclose := close_quietly_some hfdn5
            have hcfds : (close_quietly fs5 dirFd).fds = fs.fds := by
              rw [hclose]
              show fs5.fds.filter (fun q => q.1 ≠ dirFd) = fs.fds
              rw [hfds5, hfds2c]
              simp only [List.filter_cons]
              rw [if_neg (by simp)]
              have hle : fs.nextFd ≤ dirFd := le_of_eq ((hfd0.trans hnext1).symm)
              rw [filter_ne_of_bound hbound1 hle, hfds1]
            have hcnext : (close_quietly fs5 dirFd).nextFd = fs5.nextFd := by
              rw [hclose]
              try rfl
            have hctrace : (close_quietly fs5 dirFd).trace =
                fs5.trace ++ [.closed dirFd] := by
              rw [hclose]
              try rfl
            rcases h7 : delete_single_with_chmod (close_quietly fs5 dirFd) p1
                ⟨c2.name, c2.is_dir, latch⟩ force verbose with ⟨r7, p7, fs7⟩
            try rw [h7]
            try dsimp only
            obtain ⟨hp7name, hp7fd, hp7mono, hfds7, hnext7, hroot7, Δ7, htr7, hop7,
              hcl7, hfc7a, hfc7b, hd7⟩ := dswc_effects' h7
            have hnext5' : fs.nextFd + 1 ≤ fs5.nextFd := by unfold Fd at *; omega
            have hF5a := hF5.1
            have hF5b := hF5.2.1
            have hF5c := hF5.2.2
            have hA5 : ChmodFacts p.fd fs.nextFd p1.attempted_chmod
                p1.attempted_chmod Δ5 := by
              refine ChmodFacts_far ?_ hplt
              intro fd hm
              rcases hC5.1 fd hm with h | h
              · unfold Fd at *
                omega
              · unfold Fd at *
                omega
            have hA7 : ChmodFacts p.fd fs.nextFd p1.attempted_chmod
                p7.attempted_chmod Δ7 := by
              have hx := @chmodFacts_of_latch p1.fd fs.nextFd p1.attempted_chmod p7.attempted_chmod Δ7 hfc7a hfc7b
              rwa [hp1fd] at hx
            have hCall : ChmodFacts p.fd fs.nextFd p.attempted_chmod
                p7.attempted_chmod (Δ1 ++ (Δ5 ++ Δ7)) :=
              ChmodFacts_append hC1
                (ChmodFacts_append hA5 hA7 (le_refl _) (fun h => h) hp7mono)
                (le_refl _) hp1mono (fun h => hp7mono h)
            cases r7 with
            | ok u =>
              try dsimp only
              refine ⟨fun h => hp7mono (hp1mono h), fun h => hmono5 (hc2mono h),
                ?_, ?_, Δ1 ++ Δ2 ++ Δ5 ++ [Event.closed dirFd] ++ Δ7, ?_, ?_, ?_⟩
              · rw [hfds7, hcfds]
              · rw [hnext7, hcnext]
                unfold Fd at *
                omega
              · rw [htr7, hctrace, htr5, htr2, htr1]
                simp [List.append_assoc]
              · rw [hnext7, hcnext]
                have hopB : opensOf (Δ1 ++ Δ2 ++ Δ5 ++ [Event.closed dirFd] ++ Δ7) =
                    dirFd :: opensOf Δ5 := by
                  simp [opensOf_append, hop1, hop2, hop7]
                have hclB : closesOf (Δ1 ++ Δ2 ++ Δ5 ++ [Event.closed dirFd] ++ Δ7) =
                    closesOf Δ5 ++ [dirFd] := by
                  simp [closesOf_append, hcl1, hcl2, hcl7]
                refine ⟨?_, ?_, ?_⟩
                · rw [hopB]
                  intro fd hfd
                  rcases List.mem_cons.mp hfd with h | h
                  · rw [h]
                    constructor
                    · unfold Fd at *
                      omega
                    · unfold Fd at *
                      omega
                  · have := hF5a fd h
                    constructor
                    · unfold Fd at *
                      omega
                    · unfold Fd at *
                      omega
                · rw [hopB]
                  refine List.nodup_cons.mpr ⟨?_, hF5b⟩
                  intro hmem
                  have := hF5a dirFd hmem
                  unfold Fd at *
                  omega
                · intro fd
                  rw [hopB, hclB, List.count_append,
                    show (dirFd :: opensOf Δ5) = [dirFd] ++ opensOf Δ5 from rfl,
                    List.count_append, hF5c fd]
                  unfold Fd at *
                  omega
              · exact ChmodFacts_ext
                  (by simp [fchmodFds_append, hfc2]) hCall
            | error e7 =>
              try dsimp only
              refine ⟨fun h => hp7mono (hp1mono h), fun h => hmono5 (hc2mono h),
                ?_, ?_, Δ1 ++ Δ2 ++ Δ5 ++ [Event.closed dirFd] ++ Δ7 ++
                  [.logError "Failed to delete" (printable_path p7.name c2.name) e7],
                ?_, ?_, ?_⟩
              · show (log_error fs7 "Failed to delete" p7.name c2.name e7).fds =
                  fs.fds
                have : (log_error fs7 "Failed to delete" p7.name c2.name e7).fds =
                    fs7.fds := rfl
                rw [this, hfds7, hcfds]
              · show fs.nextFd ≤
                  (log_error fs7 "Failed to delete" p7.name c2.name e7).nextFd
                have : (log_error fs7 "Failed to delete" p7.name c2.name e7).nextFd =
                    fs7.nextFd := rfl
                rw [this, hnext7, hcnext]
                unfold Fd at *
                omega
              · show (log_error fs7 "Failed to delete" p7.name c2.name e7).trace = _
                have : (log_error fs7 "Failed to delete" p7.name c2.name e7).trace =
                    fs7.trace ++ [Event.logError "Failed to delete"
                      (printable_path p7.name c2.name) e7] := rfl
                rw [this, htr7, hctrace, htr5, htr2, htr1]
                simp [List.append_assoc]
              · show FdFacts fs.nextFd
                  (log_error fs7 "Failed to delete" p7.name c2.name e7).nextFd _
                have hnxl : (log_error fs7 "Failed to delete" p7.name c2.name
                    e7).nextFd = fs7.nextFd := rfl
                rw [hnxl, hnext7, hcnext]
                have hopB : opensOf (Δ1 ++ Δ2 ++ Δ5 ++ [Event.closed dirFd] ++ Δ7 ++
                    [Event.logError "Failed to delete" (printable_path p7.name
                      c2.name) e7]) = dirFd :: opensOf Δ5 := by
                  simp [opensOf_append, hop1, hop2, hop7]
                have hclB : closesOf (Δ1 ++ Δ2 ++ Δ5 ++ [Event.closed dirFd] ++ Δ7 ++
                    [Event.logError "Failed to delete" (printable_path p7.name
                      c2.name) e7]) = closesOf Δ5 ++ [dirFd] := by
                  simp [closesOf_append, hcl1, hcl2, hcl7]
                refine ⟨?_, ?_, ?_⟩
                · rw [hopB]
                  intro fd hfd
                  rcases List.mem_cons.mp hfd with h | h
                  · rw [h]
                    constructor
                    · unfold Fd at *
                      omega
                    · unfold Fd at *
                      omega
                  · have := hF5a fd h
                    constructor
                    · unfold Fd at *
                      omega
                    · unfold Fd at *
                      omega
                · rw [hopB]
                  refine List.nodup_cons.mpr ⟨?_, hF5b⟩
                  intro hmem
                  have := hF5a dirFd hmem
                  unfold Fd at *
                  omega
                · intro fd
                  rw [hopB, hclB, List.count_append,
                    show (dirFd :: opensOf Δ5) = [dirFd] ++ opensOf Δ5 from rfl,
                    List.count_append, hF5c fd]
                  unfold Fd at *
                  omega
              · exact ChmodFacts_ext
                  (by simp [fchmodFds_append, hfc2]) hCall

theorem mem_of_lookup {l : List (Fd × NodeId)} {k : Fd} {v : NodeId}
    (h : List.lookup k l = some v) : (k, v) ∈ l := by
  induction l with
  | nil => exact absurd h (by simp [List.lookup])
  | cons q t ih =>
    rcases q with ⟨a, b⟩
    simp only [List.lookup] at h
    rcases hak : k == a with _ | _
    · rw [hak] at h
      exact List.mem_cons.mpr (Or.inr (ih h))
    · rw [hak] at h
      injection h with h
      have hka : k = a := by simpa [beq_iff_eq] using hak
      exact List.mem_cons.mpr (Or.inl (by rw [hka, ← h]))

/-- C6: every repair latch (`attempted_chmod`) only ever transitions from
false to true, for both the parent context and the child context of any
`delete_path` invocation; the parent handle is permission-repaired at most
once per run, never when its latch was already set, and a repair forces the
latch; in particular across the whole loop over one directory handle's
children (`deleteEntries`), at most one descriptor-based repair is ever
applied to that shared handle, and none when the latch was already set by an
earlier child. -/
theorem spec_c6_repair_latch_monotone_single_repair :
    (∀ (fuel : Nat) (fs : FS) (p : ParentContext) (c : ChildContext)
        (force recursive verbose : Bool) (ok : Bool) (p1 : ParentContext)
        (c1 : ChildContext) (fs1 : FS),
      delete_path fuel fs p c force recursive verbose = (ok, p1, c1, fs1) →
      p.fd < fs.nextFd → (∀ q ∈ fs.fds, q.1 < fs.nextFd) →
      (p.attempted_chmod = true → p1.attempted_chmod = true) ∧
      (c.attempted_chmod = true → c1.attempted_chmod = true) ∧
      ∃ Δ, fs1.trace = fs.trace ++ Δ ∧
        (p.attempted_chmod = true → (fchmodFds Δ).count p.fd = 0) ∧
        (fchmodFds Δ).count p.fd ≤ 1 ∧
        (0 < (fchmodFds Δ).count p.fd → p1.attempted_chmod = true)) ∧
    (∀ (fuel : Nat) (fs : FS) (dirName : Path) (dirFd : Fd) (latch : Bool)
        (entries : List (Name × Bool)) (force verbose : Bool)
        (ok latch1 : Bool) (fs1 : FS),
      deleteEntries fuel fs dirName dirFd latch entries force verbose =
        (ok, latch1, fs1) →
      dirFd < fs.nextFd → (∀ q ∈ fs.fds, q.1 < fs.nextFd) →
      (latch = true → latch1 = true) ∧
      ∃ Δ, fs1.trace = fs.trace ++ Δ ∧
        (latch = true → (fchmodFds Δ).count dirFd = 0) ∧
        (fchmodFds Δ).count dirFd ≤ 1 ∧
        (0 < (fchmodFds Δ).count dirFd → latch1 = true)) := by
  constructor
  · intro fuel fs p c force recursive verbose ok p1 c1 fs1 h hplt hbound
    obtain ⟨hpm, hcm, _, _, Δ, htr, _, hC⟩ :=
      delete_path_effects fuel fs p c force recursive verbose hplt hbound
    rw [h] at hpm hcm htr hC
    try dsimp only at hpm hcm htr hC
    exact ⟨hpm, hcm, Δ, htr, hC.2.1, hC.2.2.1, hC.2.2.2⟩
  · intro fuel fs dirName dirFd latch entries force verbose ok latch1 fs1 h hplt
      hbound
    obtain ⟨hlm, _, _, Δ, htr, _, hC⟩ :=
      deleteEntriesW_effects (delete_path fuel)
        (fun fsx px cx fx rx vx hx bx =>
          ⟨(delete_path_effects fuel fsx px cx fx rx vx hx bx).1,
           (delete_path_effects fuel fsx px cx fx rx vx hx bx).2.2.1,
           (delete_path_effects fuel fsx px cx fx rx vx hx bx).2.2.2.1,
           (delete_path_effects fuel fsx px cx fx rx vx hx bx).2.2.2.2⟩)
        entries fs dirName dirFd latch force verbose hplt hbound
    rw [show deleteEntriesW (delete_path fuel) fs dirName dirFd latch entries force
        verbose = deleteEntries fuel fs dirName dirFd latch entries force verbose
      from rfl, h] at hlm htr hC
    try dsimp only at hlm htr hC
    exact ⟨hlm, Δ, htr, hC.2.1, hC.2.2.1, hC.2.2.2⟩

theorem spec_c6_witness :
    (false = true →
      (delete_path 2 treeFS ⟨[], 9, false⟩ ⟨"d", true, false⟩ false true
        false).2.1.attempted_chmod = true) ∧
    (false = true →
      (delete_path 2 treeFS ⟨[], 9, false⟩ ⟨"d", true, false⟩ false true
        false).2.2.1.attempted_chmod = true) ∧
    ∃ Δ, (delete_path 2 treeFS ⟨[], 9, false⟩ ⟨"d", true, false⟩ false true
        false).2.2.2.trace = treeFS.trace ++ Δ ∧
      (false = true → (fchmodFds Δ).count 9 = 0) ∧
      (fchmodFds Δ).count 9 ≤ 1 ∧
      (0 < (fchmodFds Δ).count 9 →
        (delete_path 2 treeFS ⟨[], 9, false⟩ ⟨"d", true, false⟩ false true
          false).2.1.attempted_chmod = true) :=
  spec_c6_repair_latch_monotone_single_repair.1 2 treeFS ⟨[], 9, false⟩
    ⟨"d", true, false⟩ false true false
    (delete_path 2 treeFS ⟨[], 9, false⟩ ⟨"d", true, false⟩ false true false).1
    (delete_path 2 treeFS ⟨[], 9, false⟩ ⟨"d", true, false⟩ false true false).2.1
    (delete_path 2 treeFS ⟨[], 9, false⟩ ⟨"d", true, false⟩ false true false).2.2.1
    (delete_path 2 treeFS ⟨[], 9, false⟩ ⟨"d", true, false⟩ false true false).2.2.2
    rfl (by decide) (by decide)

/-- C7: every directory handle opened inside a `delete_path` run is fresh,
opened once, and closed exactly as often as it is opened (so exactly once,
on every exit path), and the descriptor table is restored on return — no
handle leaks and no double closes; moreover the top-level parent handle
opened by `main` is closed by `classifyAndDelete` on both its exit paths
(classification failure or completed deletion), removing it from the
descriptor table, with one more close than open for that handle. -/
theorem spec_c7_every_handle_closed_exactly_once :
    (∀ (fuel : Nat) (fs : FS) (p : ParentContext) (c : ChildContext)
        (force recursive verbose : Bool) (ok : Bool) (p1 : ParentContext)
        (c1 : ChildContext) (fs1 : FS),
      delete_path fuel fs p c force recursive verbose = (ok, p1, c1, fs1) →
      p.fd < fs.nextFd → (∀ q ∈ fs.fds, q.1 < fs.nextFd) →
      fs1.fds = fs.fds ∧
      ∃ Δ, fs1.trace = fs.trace ++ Δ ∧
        (∀ fd ∈ opensOf Δ, fs.nextFd ≤ fd ∧ fd < fs1.nextFd) ∧
        (opensOf Δ).Nodup ∧
        (∀ fd, (closesOf Δ).count fd = (opensOf Δ).count fd)) ∧
    (∀ (fuel : Nat) (fs : FS) (parentName : Path) (parentFd : Fd)
        (childName : Name) (force recursive verbose : Bool) (ok : Bool)
        (fs1 : FS) (id : NodeId),
      classifyAndDelete fuel fs parentName parentFd childName force recursive
        verbose = (ok, fs1) →
      fs.fdNode parentFd = some id → (∀ q ∈ fs.fds, q.1 < fs.nextFd) →
      fs1.fds = fs.fds.filter (fun q => q.1 ≠ parentFd) ∧
      ∃ Δ, fs1.trace = fs.trace ++ Δ ∧
        (closesOf Δ).count parentFd = (opensOf Δ).count parentFd + 1) := by
  constructor
  · intro fuel fs p c force recursive verbose ok p1 c1 fs1 h hplt hbound
    obtain ⟨_, _, hfds, _, Δ, htr, hF, _⟩ :=
      delete_path_effects fuel fs p c force recursive verbose hplt hbound
    rw [h] at hfds htr hF
    try dsimp only at hfds htr hF
    exact ⟨hfds, Δ, htr, hF.1, hF.2.1, hF.2.2⟩
  · intro fuel fs parentName parentFd childName force recursive verbose ok fs1
      id hcd hfdn hbound
    have hplt : parentFd < fs.nextFd := hbound (parentFd, id) (mem_of_lookup hfdn)
    unfold classifyAndDelete at hcd
    rcases hls : sysLstatAt fs parentFd childName with ⟨rl, fsl⟩
    rw [hls] at hcd
    have hfsl : fsl = fs := by
      have := sysLstatAt_snd fs parentFd childName
      rw [hls] at this
      exact this
    subst hfsl
    cases rl with
    | error e =>
      try simp only [] at hcd
      have hfdnl : FS.fdNode
          (log_error fsl "Failed to stat" parentName childName e) parentFd =
          some id := hfdn
      have hclose := close_quietly_some hfdnl
      rw [hclose] at hcd
      injection hcd with hok hfs1
      refine ⟨by rw [← hfs1]; rfl, ?_⟩
      refine ⟨[Event.logError "Failed to stat"
          (printable_path parentName childName) e, Event.closed parentFd],
        ?_, ?_⟩
      · rw [← hfs1]
        show (log_error fsl "Failed to stat" parentName childName e).trace ++
          [Event.closed parentFd] = _
        simp [log_error, FS.emit]
      · simp
    | ok st =>
      try simp only [] at hcd
      rcases hdp : delete_path fuel fsl ⟨parentName, parentFd, false⟩
          ⟨childName, isDirKind st.kind, false⟩ force recursive verbose with
        ⟨ok1, px, cx, fsx⟩
      rw [hdp] at hcd
      try simp only [] at hcd
      obtain ⟨_, _, hfds, _, Δd, htr, hF, _⟩ :=
        delete_path_effects fuel fsl ⟨parentName, parentFd, false⟩
          ⟨childName, isDirKind st.kind, false⟩ force recursive verbose hplt hbound
      rw [hdp] at hfds htr hF
      try dsimp only at hfds htr hF
      have hfdnx : FS.fdNode fsx parentFd = some id := by
        rw [FS.fdNode, hfds]
        exact hfdn
      have hclose := close_quietly_some hfdnx
      rw [hclose] at hcd
      injection hcd with hok hfs1
      refine ⟨?_, Δd ++ [Event.closed parentFd], ?_, ?_⟩
      · rw [← hfs1]
        show fsx.fds.filter (fun q => q.1 ≠ parentFd) = _
        rw [hfds]
      · rw [← hfs1]
        show fsx.trace ++ [Event.closed parentFd] = _
        rw [htr, List.append_assoc]
      · rw [closesOf_append, opensOf_append, List.count_append, List.count_append,
          hF.2.2 parentFd]
        simp

theorem spec_c7_witness :
    ((delete_path 2 treeFS ⟨[], 9, false⟩ ⟨"d", true, false⟩ false true
        false).2.2.2.fds = treeFS.fds ∧
      ∃ Δ, (delete_path 2 treeFS ⟨[], 9, false⟩ ⟨"d", true, false⟩ false true
          false).2.2.2.trace = treeFS.trace ++ Δ ∧
        (∀ fd ∈ opensOf Δ, treeFS.nextFd ≤ fd ∧
          fd < (delete_path 2 treeFS ⟨[], 9, false⟩ ⟨"d", true, false⟩ false true
            false).2.2.2.nextFd) ∧
        (opensOf Δ).Nodup ∧
        (∀ fd, (closesOf Δ).count fd = (opensOf Δ).count fd)) ∧
    ((classifyAndDelete 2 treeFS [] 9 "d" false true false).2.fds =
        treeFS.fds.filter (fun q => q.1 ≠ 9) ∧
      ∃ Δ, (classifyAndDelete 2 treeFS [] 9 "d" false true false).2.trace =
          treeFS.trace ++ Δ ∧
        (closesOf Δ).count 9 = (opensOf Δ).count 9 + 1) :=
  ⟨spec_c7_every_handle_closed_exactly_once.1 2 treeFS ⟨[], 9, false⟩
      ⟨"d", true, false⟩ false true false
      (delete_path 2 treeFS ⟨[], 9, false⟩ ⟨"d", true, false⟩ false true false).1
      (delete_path 2 treeFS ⟨[], 9, false⟩ ⟨"d", true, false⟩ false true false).2.1
      (delete_path 2 treeFS ⟨[], 9, false⟩ ⟨"d", true, false⟩ false true
        false).2.2.1
      (delete_path 2 treeFS ⟨[], 9, false⟩ ⟨"d", true, false⟩ false true
        false).2.2.2
      rfl (by decide) (by decide),
   spec_c7_every_handle_closed_exactly_once.2 2 treeFS [] 9 "d" false true false
      (classifyAndDelete 2 treeFS [] 9 "d" false true false).1
      (classifyAndDelete 2 treeFS [] 9 "d" false true false).2 0
      rfl (by decide) (by decide)⟩

end JustDelete
